import Mathlib

/-! ## Tracker state-sync core (`app/static/js/tracker/tracker_ssr.js`)

A shallow embedding of the per-root tracker instance created by `initTracker`:
the participant state, the catalog, the update logic (`cycleLevel`,
`updateCounter`, `cycleDungeon`, `toggleCompositeKey`, `cycleWalletBonus`), the
persistence bridge (`scheduleServerSave`, `flushServerSave`), the pixel-perfect
composite hit test, the build of its hit cache (`ensureCompositeHitCache`) and
`applyRemoteParticipant`.

Conventions of the embedding.

* JavaScript numbers that the tracker stores (levels, counters, dungeon states,
  slots) are integers, modelled by `Int`.  Pointer and box geometry is modelled
  with exact rationals.
* A JavaScript object used as a dictionary is an association list in insertion
  order (`objGet`, `objSet`).
* A field that may be missing (`undefined` or `null`) is an `Option`.
* A function that can raise a `TypeError` returns `Except JsError _`.
* Effects on the outside world (DOM renders, local-storage writes, timers and
  network sends) are appended to the `log` of the instance, in program order.
-/

namespace TrackerSsr

/-! ## Dictionaries -/

/-- Property read `obj[k]`: the value stored under `k`, if any. -/
def objGet {α : Type} (k : String) : List (String × α) → Option α
  | [] => none
  | (k', v) :: rest => if k' = k then some v else objGet k rest

/-- Property write `obj[k] = v`: an existing key keeps its position, a new key is
appended (insertion order, as for JavaScript objects and `Map`). -/
def objSet {α : Type} (k : String) (v : α) : List (String × α) → List (String × α)
  | [] => [(k, v)]
  | (k', v') :: rest => if k' = k then (k', v) :: rest else (k', v') :: objSet k v rest

/-- The keys of a dictionary, `Object.keys(obj)`. -/
def objKeys {α : Type} (o : List (String × α)) : List String :=
  o.map Prod.fst

/-! ## Data model -/

/-- The errors the update logic can raise. -/
inductive JsError where
  /-- A property write on `undefined`, e.g. `state.items[itemId] = v` with no `items`. -/
  | typeError (what : String)
  deriving DecidableEq, Repr

/-- The participant state held by one tracker instance (`state`). -/
structure ParticipantState where
  /-- The field `state.slot`; `none` when missing or not a number. -/
  slot : Option Int
  /-- The field `state.items`; `none` when the field is missing. -/
  items : Option (List (String × Int))
  /-- The field `state.dungeons`; `none` when the field is missing. -/
  dungeons : Option (List (String × Int))
  /-- The field `state.wallet_bonus`. -/
  wallet_bonus : Option Int
  /-- The composite flag objects `state[compositeId]`, keyed by composite id. -/
  composites : List (String × List (String × Bool))
  deriving DecidableEq, Repr

/-- One entry of `catalog.items`. -/
structure ItemMeta where
  id : String
  /-- The field `kind`: "counter", "wallet", "composite" or anything else. -/
  kind : Option String
  /-- The field `level_values` when it is an array. -/
  level_values : Option (List Int)
  counter_step : Option Int
  counter_min : Option Int
  counter_max : Option Int
  /-- The field `wallet_bonus_values` when it is an array. -/
  wallet_bonus_values : Option (List Int)
  /-- The keys of the field `overlays`, in `Object.keys` order, when it is set. -/
  overlays : Option (List String)
  deriving DecidableEq, Repr

/-- A decoded overlay image of the composite hit cache: `w`, `h` and the RGBA
samples `data` (four per pixel, row by row).  Decoded images have `w, h ≥ 1`. -/
structure ImageEntry where
  w : Nat
  h : Nat
  data : List Nat
  deriving DecidableEq, Repr

/-- What a render helper touched. -/
inductive RenderCall where
  | itemSimple (itemId : String) (level : Int)
  | counter (itemId : String) (value : Int)
  | wallet (itemId : String) (level : Int) (bonus : Int)
  | dungeon (code : String) (v : Int)
  | composite (compositeId : String) (flags : List (String × Bool))
  deriving DecidableEq, Repr

/-- The observable effects of an instance. -/
inductive Effect where
  /-- A render helper updated the DOM. -/
  | render (r : RenderCall)
  /-- The call `localStorage.setItem(STORAGE_KEY, JSON.stringify(state))`. -/
  | storageWrite (key : String) (body : ParticipantState)
  /-- The call `setTimeout(.., 200)` returned timer `id`. -/
  | timerSet (id : Nat)
  /-- The call `clearTimeout(id)`. -/
  | timerClear (id : Nat)
  /-- The call `fetch(UPDATE_URL, ..)` with body `participant: body`. -/
  | netSend (body : ParticipantState)
  deriving DecidableEq, Repr

/-- The per-root configuration read once by `initTracker`. -/
structure Config where
  USE_STORAGE : Bool
  STORAGE_KEY : String
  /-- The update endpoint; `none` when neither the root nor the window gives one. -/
  UPDATE_URL : Option String
  CAN_EDIT : Bool
  /-- The instance slot; `0` when unset. -/
  slot : Int
  /-- The array `catalog.items`. -/
  catalogItems : List ItemMeta
  /-- The overlay keys found in the DOM of each composite element
  (`getCompositeOverlayImgs` mapped to `dataset.overlayKey`). -/
  domOverlayKeys : List (String × List String)
  deriving DecidableEq, Repr

/-- One tracker instance: its configuration, the closure variables of
`initTracker`, and the part of the browser it talks to. -/
structure Tracker where
  cfg : Config
  state : ParticipantState
  /-- The variable `_serverSaveTimer`: the id of the last timer set. -/
  _serverSaveTimer : Option Nat
  _inflight : Bool
  _needsAnother : Bool
  _suppressNetworkSaves : Bool
  /-- The map `compositeHitCache`. -/
  compositeHitCache : List (String × List (String × ImageEntry))
  /-- Browser: timers set and neither fired nor cleared. -/
  pendingTimers : List Nat
  /-- Browser: the id the next `setTimeout` returns (ids are positive). -/
  nextTimerId : Nat
  /-- Browser: requests issued by `fetch` that have not settled yet. -/
  outstanding : List ParticipantState
  /-- Every effect so far, oldest first. -/
  log : List Effect
  deriving DecidableEq, Repr

/-! ## Catalog access and arithmetic helpers -/

/-- The map `itemsById`: `new Map(items.map(it => [it.id, it]))`. -/
def itemsById (items : List ItemMeta) : List (String × ItemMeta) :=
  items.foldl (fun m it => objSet it.id it m) []

/-- Lookup `itemsById.get(itemId) || null`. -/
def getItemMeta (t : Tracker) (itemId : String) : Option ItemMeta :=
  objGet itemId (itemsById t.cfg.catalogItems)

/-- The helper `clamp(n, min, max) = Math.max(min, Math.min(max, n))`. -/
def clamp (n lo hi : Int) : Int :=
  max lo (min hi n)

/-- The method `values.indexOf(cur)`: index of the first occurrence, or `-1`. -/
def indexOf (values : List Int) (cur : Int) : Int :=
  if cur ∈ values then (values.indexOf cur : Nat) else -1

/-- Append one effect to the log. -/
def emit (e : Effect) (t : Tracker) : Tracker :=
  { t with log := t.log ++ [e] }

/-! ## Render helpers -/

/-- The helper `renderItemSimple`: nothing without catalog metadata. -/
def renderItemSimple (itemId : String) (t : Tracker) : Tracker :=
  match getItemMeta t itemId with
  | none => t
  | some _ =>
    let level := ((t.state.items.bind (objGet itemId)).getD 0)
    emit (.render (.itemSimple itemId level)) t

/-- The helper `renderCounter`. -/
def renderCounter (itemId : String) (t : Tracker) : Tracker :=
  let value := ((t.state.items.bind (objGet itemId)).getD 0)
  emit (.render (.counter itemId value)) t

/-- The helper `renderWallet`. -/
def renderWallet (itemId : String) (t : Tracker) : Tracker :=
  let level := ((t.state.items.bind (objGet itemId)).getD 1)
  emit (.render (.wallet itemId level (t.state.wallet_bonus.getD 0))) t

/-- The helper `renderDungeon`. -/
def renderDungeon (code : String) (t : Tracker) : Tracker :=
  let v := ((t.state.dungeons.bind (objGet code)).getD 0)
  emit (.render (.dungeon code v)) t

/-- The helper `renderComposite`. -/
def renderComposite (compositeId : String) (t : Tracker) : Tracker :=
  let flags := (objGet compositeId t.state.composites).getD []
  emit (.render (.composite compositeId flags)) t

/-! ## Update logic -/

/-- The function `cycleLevel(itemId, delta)`. -/
def cycleLevel (itemId : String) (delta : Int) (t : Tracker) : Except JsError Tracker :=
  match getItemMeta t itemId with
  | none => .ok t
  | some meta =>
    let levels : List Int :=
      match meta.level_values with
      | some (v :: vs) => v :: vs
      | _ => [0, 1]
    let curVal := (t.state.items.bind (objGet itemId)).getD (levels.headD 0)
    let idx := indexOf levels curVal
    let idx := if idx = -1 then 0 else idx
    let idx := clamp (idx + delta) 0 ((levels.length : Int) - 1)
    let nextVal := levels.getD idx.toNat 0
    match t.state.items with
    | none => .error (.typeError "state.items is undefined")
    | some items =>
      let t1 := { t with state := { t.state with items := some (objSet itemId nextVal items) } }
      if meta.kind = some "wallet" then .ok (renderWallet itemId t1)
      else .ok (renderItemSimple itemId t1)

/-- The function `updateCounter(itemId, delta)`. -/
def updateCounter (itemId : String) (delta : Int) (t : Tracker) : Except JsError Tracker :=
  match getItemMeta t itemId with
  | none => .ok t
  | some meta =>
    let step := meta.counter_step.getD 1
    let minV := meta.counter_min.getD 0
    let maxV := meta.counter_max.getD 999999
    let cur := (t.state.items.bind (objGet itemId)).getD 0
    let cur := cur + delta * step
    let cur := clamp cur minV maxV
    match t.state.items with
    | none => .error (.typeError "state.items is undefined")
    | some items =>
      .ok (renderCounter itemId
        { t with state := { t.state with items := some (objSet itemId cur items) } })

/-- The function `cycleDungeon(code, delta)`. -/
def cycleDungeon (code : String) (delta : Int) (t : Tracker) : Except JsError Tracker :=
  let cur := (t.state.dungeons.bind (objGet code)).getD 0
  let cur := clamp (cur + delta) 0 2
  match t.state.dungeons with
  | none => .error (.typeError "state.dungeons is undefined")
  | some dungeons =>
    .ok (renderDungeon code
      { t with state := { t.state with dungeons := some (objSet code cur dungeons) } })

/-- The function `toggleCompositeKey(compositeId, key, forceValue)`; `forceValue`
is `none` for the JavaScript `null`. -/
def toggleCompositeKey (compositeId key : String) (forceValue : Option Bool)
    (t : Tracker) : Tracker :=
  let obj := (objGet compositeId t.state.composites).getD []
  let next :=
    match forceValue with
    | none => !((objGet key obj).getD false)
    | some b => b
  let obj := objSet key next obj
  renderComposite compositeId
    { t with state := { t.state with composites := objSet compositeId obj t.state.composites } }

/-- The function `cycleWalletBonus(delta)`. -/
def cycleWalletBonus (delta : Int) (t : Tracker) : Tracker :=
  let values : List Int :=
    match getItemMeta t "wallet" with
    | some walletMeta =>
      match walletMeta.wallet_bonus_values with
      | some (v :: vs) => v :: vs
      | _ => [0, 300, 600, 900]
    | none => [0, 300, 600, 900]
  let cur := t.state.wallet_bonus.getD 0
  let idx := indexOf values cur
  let idx := if idx = -1 then 0 else idx
  let idx := clamp (idx + delta) 0 ((values.length : Int) - 1)
  renderWallet "wallet"
    { t with state := { t.state with wallet_bonus := some (values.getD idx.toNat 0) } }

/-! ## Persistence bridge -/

/-- The function `saveLocal()`. -/
def saveLocal (t : Tracker) : Tracker :=
  if t.cfg.USE_STORAGE then emit (.storageWrite t.cfg.STORAGE_KEY t.state) t else t

/-- Browser call `clearTimeout(id)`. -/
def clearTimeout (id : Nat) (t : Tracker) : Tracker :=
  emit (.timerClear id) { t with pendingTimers := t.pendingTimers.filter (fun j => j != id) }

/-- Browser call `setTimeout(.., 200)`, with the assignment of the returned id to
`_serverSaveTimer`. -/
def setTimeout (t : Tracker) : Tracker :=
  emit (.timerSet t.nextTimerId)
    { t with
      _serverSaveTimer := some t.nextTimerId
      pendingTimers := t.pendingTimers ++ [t.nextTimerId]
      nextTimerId := t.nextTimerId + 1 }

/-- The function `scheduleServerSave()`. -/
def scheduleServerSave (t : Tracker) : Tracker :=
  if t.cfg.UPDATE_URL.isNone then t
  else if !t.cfg.CAN_EDIT then t
  else if t._suppressNetworkSaves then t
  else
    let t1 :=
      match t._serverSaveTimer with
      | some id => clearTimeout id t
      | none => t
    setTimeout t1

/-- The function `flushServerSave()` up to its `await`: the guards, the deferral
when a send is in flight, and the `fetch` of the current state. -/
def flushServerSave (t : Tracker) : Tracker :=
  if t.cfg.UPDATE_URL.isNone then t
  else if !t.cfg.CAN_EDIT then t
  else if t._suppressNetworkSaves then t
  else if t._inflight then { t with _needsAnother := true }
  else
    emit (.netSend t.state)
      { t with
        _inflight := true
        _needsAnother := false
        outstanding := t.outstanding ++ [t.state] }

/-- The `finally` block of `flushServerSave`, run when the awaited request settles
(with success or failure alike). -/
def flushFinally (t : Tracker) : Tracker :=
  let t1 := { t with _inflight := false }
  if t1._needsAnother then flushServerSave { t1 with _needsAnother := false }
  else t1

/-- The function `afterChangePersist()`. -/
def afterChangePersist (t : Tracker) : Tracker :=
  scheduleServerSave (saveLocal t)

/-! ## Pixel-perfect composites -/

/-- The constant `ALPHA_THRESHOLD`. -/
def ALPHA_THRESHOLD : Nat := 20

/-- The result of `getLocalPointInElement`: the pointer relative to the box, and
the size of the box. -/
structure LocalPoint where
  x : ℚ
  y : ℚ
  w : ℚ
  h : ℚ
  deriving DecidableEq, Repr

/-- The object returned by `mapToImageCoordsContain`; a coordinate is `none` when
the source computes `NaN` for it. -/
structure Pixel where
  px : Option Int
  py : Option Int
  deriving DecidableEq, Repr

/-- The rectangle `el.getBoundingClientRect()`. -/
structure Rect where
  left : ℚ
  top : ℚ
  width : ℚ
  height : ℚ
  deriving DecidableEq, Repr

/-- The element found by `closest` for the composite selector: its
`dataset.compositeId` and the rectangle of its `.tracker-composite` child
(`none` when there is no such child). -/
structure CompositeRoot where
  compositeId : String
  box : Option Rect
  deriving DecidableEq, Repr

/-- The element found by `closest("[data-item-id]")`: `dataset.itemId` and
`dataset.kind` (the empty string when unset). -/
structure ItemElement where
  itemId : String
  kind : String
  deriving DecidableEq, Repr

/-- A pointer event, with the results of the `closest` queries on its target. -/
structure PointerEvent where
  clientX : ℚ
  clientY : ℚ
  /-- Whether the target lies inside `.tracker-wallet .tracker-overlay`. -/
  walletBonus : Bool
  composite : Option CompositeRoot
  /-- The `dataset.dungeon` of the closest `[data-dungeon]` element. -/
  dungeon : Option String
  item : Option ItemElement
  deriving DecidableEq, Repr

/-- The function `getLocalPointInElement(ev, el)`. -/
def getLocalPointInElement (ev : PointerEvent) (rect : Rect) : LocalPoint :=
  { x := ev.clientX - rect.left, y := ev.clientY - rect.top, w := rect.width, h := rect.height }

/-- The function `mapToImageCoordsContain(local, imgW, imgH)`; `none` is `null`.
The quotients are exact rationals, which is what the source computes up to
rounding when `imgW, imgH ≥ 1` (the sizes of a decoded image) and the box is not
collapsed.  With a scale of zero (a collapsed box) a point that passes the bounds
test has `inX = inY = 0`, and the source divides `0 / 0`: both coordinates are
`NaN`. -/
def mapToImageCoordsContain (loc : LocalPoint) (imgW imgH : Nat) : Option Pixel :=
  let scale : ℚ := min (loc.w / (imgW : ℚ)) (loc.h / (imgH : ℚ))
  let drawW : ℚ := (imgW : ℚ) * scale
  let drawH : ℚ := (imgH : ℚ) * scale
  let offX : ℚ := (loc.w - drawW) / 2
  let offY : ℚ := (loc.h - drawH) / 2
  let inX : ℚ := loc.x - offX
  let inY : ℚ := loc.y - offY
  if inX < 0 ∨ inY < 0 ∨ inX > drawW ∨ inY > drawH then none
  else if scale = 0 then some { px := none, py := none }
  else
    let ix : ℚ := inX / scale
    let iy : ℚ := inY / scale
    some { px := some (clamp (Int.floor ix) 0 ((imgW : Int) - 1)),
           py := some (clamp (Int.floor iy) 0 ((imgH : Int) - 1)) }

/-- The function `alphaAt(entry, px, py)`: `entry.data[idx] || 0`. -/
def alphaAt (entry : ImageEntry) (px py : Option Int) : Nat :=
  match px, py with
  | some px, some py =>
    let idx : Int := (py * (entry.w : Int) + px) * 4 + 3
    if idx < 0 then 0 else entry.data.getD idx.toNat 0
  | _, _ => 0

/-- The function `getCompositeOverlayOrder(compositeId)`. -/
def getCompositeOverlayOrder (t : Tracker) (compositeId : String) : List String :=
  let fromDom := ((objGet compositeId t.cfg.domOverlayKeys).getD []).filter (fun k => k != "")
  match getItemMeta t compositeId with
  | some meta =>
    match meta.overlays with
    | some keys => keys
    | none => fromDom
  | none => fromDom

/-- The `for (const key of order)` loop of `pixelPerfectCompositeToggle`. -/
def hitLoop (compositeId : String) (cacheMap : List (String × ImageEntry)) (loc : LocalPoint)
    (delta : Int) (t : Tracker) : List String → Bool × Tracker
  | [] => (false, t)
  | key :: rest =>
    match objGet key cacheMap with
    | none => hitLoop compositeId cacheMap loc delta t rest
    | some entry =>
      match mapToImageCoordsContain loc entry.w entry.h with
      | none => hitLoop compositeId cacheMap loc delta t rest
      | some mapped =>
        let a := alphaAt entry mapped.px mapped.py
        if a > ALPHA_THRESHOLD then
          if delta < 0 then (true, toggleCompositeKey compositeId key (some false) t)
          else (true, toggleCompositeKey compositeId key none t)
        else hitLoop compositeId cacheMap loc delta t rest

/-- The function `pixelPerfectCompositeToggle(ev, delta)`: whether a flag was
toggled, and the instance afterwards. -/
def pixelPerfectCompositeToggle (ev : PointerEvent) (delta : Int) (t : Tracker) :
    Bool × Tracker :=
  match ev.composite with
  | none => (false, t)
  | some compositeRoot =>
    let compositeId := compositeRoot.compositeId
    match compositeRoot.box with
    | none => (false, t)
    | some rect =>
      if compositeId = "" then (false, t)
      else
        match objGet compositeId t.compositeHitCache with
        | none => (false, t)
        | some [] => (false, t)
        | some (c :: cs) =>
          let loc := getLocalPointInElement ev rect
          let order := getCompositeOverlayOrder t compositeId
          hitLoop compositeId (c :: cs) loc delta t order

/-! ## Event routing -/

/-- The function `handleInteraction(ev, delta)`: the returned flag and the
instance afterwards, or the error raised on the way. -/
def handleInteraction (ev : PointerEvent) (delta : Int) (t : Tracker) :
    Except JsError (Bool × Tracker) :=
  if ev.walletBonus then .ok (true, cycleWalletBonus delta t)
  else if ev.composite.isSome then .ok (pixelPerfectCompositeToggle ev delta t)
  else
    match ev.dungeon with
    | some code => (cycleDungeon code delta t).map (fun t1 => (true, t1))
    | none =>
      match ev.item with
      | none => .ok (false, t)
      | some item =>
        let itemId := item.itemId
        let kind := if item.kind = "" then "cycle" else item.kind
        let meta := getItemMeta t itemId
        if kind = "counter" ∨ meta.bind (fun m => m.kind) = some "counter" then
          (updateCounter itemId delta t).map (fun t1 => (true, t1))
        else if kind = "wallet" ∨ meta.bind (fun m => m.kind) = some "wallet" then
          (cycleLevel itemId delta t).map (fun t1 => (true, t1))
        else
          (cycleLevel itemId delta t).map (fun t1 => (true, t1))

/-- The body shared by the two listeners bound for editors:
`const changed = handleInteraction(ev, delta); if (changed) afterChangePersist();`.
Viewers (`CAN_EDIT` false) have no such listener. -/
def interactionListener (ev : PointerEvent) (delta : Int) (t : Tracker) :
    Except JsError Tracker :=
  if t.cfg.CAN_EDIT then
    match handleInteraction ev delta t with
    | .ok (changed, t1) => if changed then .ok (afterChangePersist t1) else .ok t1
    | .error e => .error e
  else .ok t

/-! ## Remote snapshots -/

/-- The function `renderAll()`. -/
def renderAll (t : Tracker) : Tracker :=
  let t1 :=
    if t.state.items.isSome then
      (itemsById t.cfg.catalogItems).foldl
        (fun acc entry =>
          if entry.2.kind = some "composite" then acc
          else if entry.2.kind = some "counter" then renderCounter entry.1 acc
          else if entry.2.kind = some "wallet" then renderWallet entry.1 acc
          else renderItemSimple entry.1 acc)
        t
    else t
  let t2 :=
    match t1.state.dungeons with
    | some dungeons => (objKeys dungeons).foldl (fun acc code => renderDungeon code acc) t1
    | none => t1
  renderComposite "triforces" (renderComposite "tablets" t2)

/-- The function `applyRemoteParticipant(participant)`; `none` is a participant
that is missing or not an object.  A missing or non-numeric `participant.slot`
gives a falsy `remoteSlot`, as does `0`. -/
def applyRemoteParticipant (participant : Option ParticipantState) (t : Tracker) : Tracker :=
  match participant with
  | none => t
  | some p =>
    let remoteSlot : Int := p.slot.getD 0
    if t.cfg.slot ≠ 0 ∧ remoteSlot ≠ 0 ∧ remoteSlot ≠ t.cfg.slot then t
    else
      let t1 := { t with _suppressNetworkSaves := true }
      let t2 := { t1 with state := p }
      let t3 := renderAll t2
      let t4 := saveLocal t3
      { t4 with _suppressNetworkSaves := false }

/-! ## The instance as an event-driven machine -/

/-- The instance right after `initTracker`: closure variables at their initial
values, no timer, no request, and the first `renderAll()`. -/
def initTracker (cfg : Config) (state : ParticipantState) : Tracker :=
  renderAll
    { cfg := cfg
      state := state
      _serverSaveTimer := none
      _inflight := false
      _needsAnother := false
      _suppressNetworkSaves := false
      compositeHitCache := []
      pendingTimers := []
      nextTimerId := 1
      outstanding := []
      log := [] }

/-- The callbacks that run on one instance.  Each runs to completion before the
next starts (single-threaded event loop). -/
inductive Event where
  /-- A click (primary interaction, `delta = +1`). -/
  | click (ev : PointerEvent)
  /-- A context-menu event (secondary interaction, `delta = -1`). -/
  | contextmenu (ev : PointerEvent)
  /-- A local mutation to state `s` followed by `afterChangePersist()`. -/
  | localChange (s : ParticipantState)
  /-- A call of `scheduleServerSave()`. -/
  | schedule
  /-- A call of `flushServerSave()`. -/
  | flush
  /-- The browser fires timer `id`, whose callback calls `flushServerSave()`. -/
  | timerFire (id : Nat)
  /-- The oldest outstanding request settles; the `finally` block runs. -/
  | sendSettled
  /-- The push channel delivers a participant to `applyRemoteParticipant`. -/
  | remote (p : Option ParticipantState)
  /-- The hit cache of a composite becomes ready (`compositeHitCache.set`). -/
  | cacheReady (compositeId : String) (map : List (String × ImageEntry))
  deriving DecidableEq, Repr

/-- One callback.  A listener that raises leaves the instance as it was: every
raise of the update logic precedes its first write. -/
def step (t : Tracker) : Event → Tracker
  | .click ev =>
    match interactionListener ev 1 t with
    | .ok t1 => t1
    | .error _ => t
  | .contextmenu ev =>
    match interactionListener ev (-1) t with
    | .ok t1 => t1
    | .error _ => t
  | .localChange s => afterChangePersist { t with state := s }
  | .schedule => scheduleServerSave t
  | .flush => flushServerSave t
  | .timerFire id =>
    if id ∈ t.pendingTimers then
      flushServerSave { t with pendingTimers := t.pendingTimers.filter (fun j => j != id) }
    else t
  | .sendSettled =>
    match t.outstanding with
    | [] => t
    | _ :: rest => flushFinally { t with outstanding := rest }
  | .remote p => applyRemoteParticipant p t
  | .cacheReady compositeId map =>
    { t with compositeHitCache := objSet compositeId map t.compositeHitCache }

/-- A sequence of callbacks, oldest first. -/
def run (t : Tracker) (evs : List Event) : Tracker :=
  evs.foldl step t

/-- The network sends among a list of effects, oldest first. -/
def sends : List Effect → List ParticipantState
  | [] => []
  | .netSend body :: rest => body :: sends rest
  | _ :: rest => sends rest

/-- The timers set among a list of effects. -/
def timersSet : List Effect → List Nat
  | [] => []
  | .timerSet id :: rest => id :: timersSet rest
  | _ :: rest => timersSet rest

/-- The effects an operation added: the log of `t1` beyond the log of `t`. -/
def newEffects (t t1 : Tracker) : List Effect :=
  t1.log.drop t.log.length


/-! ## Building the hit cache -/

/-- An overlay image element of a composite, as `ensureCompositeHitCache` sees it:
its `dataset.overlayKey` and `currentSrc || src` (the empty string when unset), and
the outcome of `loadImageDataFromUrl(src)`: the decoded image, or `none` when the
promise rejects (the image fails to load). -/
structure OverlayImg where
  overlayKey : String
  src : String
  decoded : Option ImageEntry
  deriving DecidableEq, Repr

/-- The task `overlays.map(async (imgEl) => ...)` runs for one overlay: `none` when it
rejects, `some none` when it returns early (no key or no source), and the pair it
passes to `map.set(key, entry)` otherwise. -/
def overlayTask (img : OverlayImg) : Option (Option (String × ImageEntry)) :=
  if img.overlayKey = "" ∨ img.src = "" then some none
  else
    match img.decoded with
    | none => none
    | some entry => some (some (img.overlayKey, entry))

/-- The map filled by the overlay tasks (`map.set(key, entry)`), in DOM order. -/
def hitMapOf (overlays : List OverlayImg) : List (String × ImageEntry) :=
  overlays.foldl
    (fun m img =>
      match overlayTask img with
      | some (some (key, entry)) => objSet key entry m
      | _ => m)
    []

/-- The function `ensureCompositeHitCache(compositeId)`, run to completion, for the
overlay images `overlays` that `getCompositeOverlayImgs(compositeId)` returns.
`Promise.all` fulfils only when every task fulfils, and only then is
`compositeHitCache.set(compositeId, map)` reached; a rejection goes to the `.catch`
handler, which logs a warning.  The promise is kept in `compositeLoadPromises`, so
the build runs once for a composite. -/
def ensureCompositeHitCache (compositeId : String) (overlays : List OverlayImg)
    (t : Tracker) : Tracker :=
  if overlays.all (fun img => (overlayTask img).isSome) then
    { t with compositeHitCache := objSet compositeId (hitMapOf overlays) t.compositeHitCache }
  else t

/-! ## Derived quantities and example inputs -/

/-- The level `cycleLevel` stores, as a function of the value list, the current
value and the direction. -/
def nextLevel (levels : List Int) (curVal delta : Int) : Int :=
  levels.getD
    (clamp ((if indexOf levels curVal = -1 then 0 else indexOf levels curVal) + delta) 0
      ((levels.length : Int) - 1)).toNat 0

/-- A catalog item whose value list repeats its last value earlier on. -/
def dupBow : ItemMeta :=
  { id := "bow", kind := none, level_values := some [0, 1, 0], counter_step := none,
    counter_min := none, counter_max := none, wallet_bonus_values := none, overlays := none }

/-- An editor instance over `dupBow`, the bow at level `0`. -/
def dupBowTracker : Tracker :=
  initTracker
    { USE_STORAGE := true, STORAGE_KEY := "tb_tracker_preview_state_v1_slot2",
      UPDATE_URL := some "/update", CAN_EDIT := true, slot := 2,
      catalogItems := [dupBow], domOverlayKeys := [] }
    { slot := some 2, items := some [("bow", 0)], dungeons := some [], wallet_bonus := none,
      composites := [] }

/-- The scenario item: a bow with levels `0, 1, 2`. -/
def bow : ItemMeta :=
  { id := "bow", kind := none, level_values := some [0, 1, 2], counter_step := none,
    counter_min := none, counter_max := none, wallet_bonus_values := none, overlays := none }

/-- An editor instance over `bow`, the bow at level `lvl`. -/
def bowTracker (lvl : Int) : Tracker :=
  initTracker
    { USE_STORAGE := true, STORAGE_KEY := "tb_tracker_preview_state_v1_slot2",
      UPDATE_URL := some "/update", CAN_EDIT := true, slot := 2,
      catalogItems := [bow], domOverlayKeys := [] }
    { slot := some 2, items := some [("bow", lvl)], dungeons := some [], wallet_bonus := none,
      composites := [] }

/-- A run of `updateCounter` calls on one item, one per delta, stopping at the
first error. -/
def updateCounterSeq (itemId : String) : List Int → Tracker → Except JsError Tracker
  | [], t => .ok t
  | d :: ds, t =>
    match updateCounter itemId d t with
    | .ok t1 => updateCounterSeq itemId ds t1
    | .error e => .error e

/-- The value the claim predicts after a run of counter updates: at each step
`cur + delta * step` clamped into `[lo, hi]`. -/
def counterSpec (step lo hi : Int) (cur : Int) (deltas : List Int) : Int :=
  deltas.foldl (fun c d => max lo (min hi (c + d * step))) cur

/-- A run of `cycleDungeon` calls, one per pair of dungeon code and delta, stopping
at the first error. -/
def cycleDungeonSeq : List (String × Int) → Tracker → Except JsError Tracker
  | [], t => .ok t
  | (code, d) :: rest, t =>
    match cycleDungeon code d t with
    | .ok t1 => cycleDungeonSeq rest t1
    | .error e => .error e

/-- The scenario counter: `keys` with `min = 0`, `max = 9`, `step = 1`. -/
def keysMeta : ItemMeta :=
  { id := "keys", kind := some "counter", level_values := none, counter_step := some 1,
    counter_min := some 0, counter_max := some 9, wallet_bonus_values := none,
    overlays := none }

/-- An editor instance over `keysMeta`, the counter at `0`, one dungeon entry out
of range. -/
def keysTracker : Tracker :=
  initTracker
    { USE_STORAGE := true, STORAGE_KEY := "tb_tracker_preview_state_v1_slot2",
      UPDATE_URL := some "/update", CAN_EDIT := true, slot := 2,
      catalogItems := [keysMeta], domOverlayKeys := [] }
    { slot := some 2, items := some [("keys", 0)], dungeons := some [("SV", 7)],
      wallet_bonus := none, composites := [] }

/-- A dungeon entry that is present with a value in `0..2`. -/
def dungeonInRange (dungeons : List (String × Int)) (code : String) : Prop :=
  ∃ v, objGet code dungeons = some v ∧ 0 ≤ v ∧ v ≤ 2

/-- Effects that stay inside the page: renders and local-storage writes. -/
def Effect.isLocal : Effect → Bool
  | .render _ => true
  | .storageWrite _ _ => true
  | _ => false

/-- The instance `t1` differs from `t` at most in the participant state and the
hit cache, and its log extends the log of `t` by renders
and local-storage writes only: no timer was set or cleared, no request issued. -/
structure SameBridge (t t1 : Tracker) : Prop where
  cfg : t1.cfg = t.cfg
  timer : t1._serverSaveTimer = t._serverSaveTimer
  inflight : t1._inflight = t._inflight
  needsAnother : t1._needsAnother = t._needsAnother
  suppress : t1._suppressNetworkSaves = t._suppressNetworkSaves
  pending : t1.pendingTimers = t.pendingTimers
  nextId : t1.nextTimerId = t.nextTimerId
  outstanding : t1.outstanding = t.outstanding
  log : ∃ es, t1.log = t.log ++ es ∧ ∀ e ∈ es, e.isLocal = true

/-- An instance whose slot is unset (`0`), with an empty item map. -/
def unslottedTracker : Tracker :=
  initTracker
    { USE_STORAGE := true, STORAGE_KEY := "tb_tracker_preview_state_v1",
      UPDATE_URL := some "/update", CAN_EDIT := true, slot := 0,
      catalogItems := [bow], domOverlayKeys := [] }
    { slot := none, items := some [], dungeons := some [], wallet_bonus := none,
      composites := [] }

/-- A participant snapshot for slot `2`. -/
def snapshotSlot2 : ParticipantState :=
  { slot := some 2, items := some [("bow", 2)], dungeons := some [("SV", 1)],
    wallet_bonus := some 300, composites := [] }

/-- The facts that hold between callbacks in every state an instance can reach:
the suppression flag is down, at most one timer is pending and it is the one
`_serverSaveTimer` names, `_inflight` says whether a request is outstanding (at most
one is), the deferred flag is only up during a send, and only an editor with an
update endpoint ever has a send in flight. -/
structure Inv (t : Tracker) : Prop where
  suppress : t._suppressNetworkSaves = false
  timers : t.pendingTimers = [] ∨
    ∃ id, t.pendingTimers = [id] ∧ t._serverSaveTimer = some id
  flight : (t._inflight = true ∧ ∃ b, t.outstanding = [b]) ∨
    (t._inflight = false ∧ t.outstanding = [] ∧ t._needsAnother = false)
  editor : t._inflight = true → t.cfg.UPDATE_URL.isSome = true ∧ t.cfg.CAN_EDIT = true

/-- A burst of local mutations, each followed by `afterChangePersist()`, with no
other callback in between. -/
def burst (t : Tracker) (states : List ParticipantState) : Tracker :=
  run t (states.map Event.localChange)

/-- The bow state at level `lvl`, for slot `2`. -/
def bowState (lvl : Int) : ParticipantState :=
  { slot := some 2, items := some [("bow", lvl)], dungeons := some [], wallet_bonus := none,
    composites := [] }

/-- An editor instance whose first send (of bow level `1`) is still in flight: one
local change, then its timer fired. -/
def sendingTracker : Tracker :=
  run (bowTracker 0) [.localChange (bowState 1), .timerFire 1]

/-- The log only grows. -/
def Extends (t t1 : Tracker) : Prop :=
  ∃ es, t1.log = t.log ++ es

/-- The state reached from a fresh instance by a history of callbacks. -/
def reached (cfg : Config) (s0 : ParticipantState) (history : List Event) : Tracker :=
  run (initTracker cfg s0) history

/-- A viewer instance (no edit capability) with an update URL configured. -/
def viewerCfg : Config :=
  { USE_STORAGE := true, STORAGE_KEY := "tb_tracker_preview_state_v1_slot2",
    UPDATE_URL := some "/update", CAN_EDIT := false, slot := 2,
    catalogItems := [bow], domOverlayKeys := [] }

/-- Whether overlay `key` is hit at `loc`: it has a cached image, the point maps
inside the drawn image, and the alpha read there is strictly greater than `20`. -/
def isHit (cacheMap : List (String × ImageEntry)) (loc : LocalPoint) (key : String) : Bool :=
  match objGet key cacheMap with
  | none => false
  | some entry =>
    match mapToImageCoordsContain loc entry.w entry.h with
    | none => false
    | some mapped => decide (alphaAt entry mapped.px mapped.py > 20)

/-- The flags of a composite, `state[compositeId] || {}`. -/
def compositeFlags (t : Tracker) (compositeId : String) : List (String × Bool) :=
  (objGet compositeId t.state.composites).getD []

/-- A `2 × 2` image whose four pixels have the alphas `a00 a10 a01 a11` (row by
row), all colour samples `0`. -/
def image2x2 (a00 a10 a01 a11 : Nat) : ImageEntry :=
  { w := 2, h := 2, data := [0, 0, 0, a00, 0, 0, 0, a10, 0, 0, 0, a01, 0, 0, 0, a11] }

/-- The catalog entry of the composite `triforces`. -/
def triforcesMeta : ItemMeta :=
  { id := "triforces", kind := some "composite", level_values := none, counter_step := none,
    counter_min := none, counter_max := none, wallet_bonus_values := none,
    overlays := some ["courage", "power", "wisdom"] }

/-- The hit cache used for the composite `triforces`. -/
def triforcesCache : List (String × ImageEntry) :=
  [("courage", image2x2 255 20 0 0), ("power", image2x2 0 0 20 255),
   ("wisdom", image2x2 0 255 7 0)]

/-- An editor instance with the composite `triforces`, all flags false, and a ready
hit cache: at pixel `(1, 0)` the overlay `courage` has alpha `20`, `power` has `0`
and `wisdom` has `255`; at pixel `(0, 1)` no overlay exceeds `20`. -/
def triforcesTracker : Tracker :=
  step
    (initTracker
      { USE_STORAGE := true, STORAGE_KEY := "tb_tracker_preview_state_v1_slot2",
        UPDATE_URL := some "/update", CAN_EDIT := true, slot := 2,
        catalogItems := [triforcesMeta], domOverlayKeys := [] }
      { slot := some 2, items := some [], dungeons := some [], wallet_bonus := none,
        composites := [("triforces", [("courage", false), ("power", false), ("wisdom", false)])] })
    (.cacheReady "triforces" triforcesCache)

/-- The box of the composite `triforces`: `100 × 100` at the origin. -/
def triforcesBox : Rect :=
  { left := 0, top := 0, width := 100, height := 100 }

/-- The composite element `triforces`. -/
def triforcesRoot : CompositeRoot :=
  { compositeId := "triforces", box := some triforcesBox }

/-- A pointer event at `(x, y)` on the composite `triforces`. -/
def triforcesEvent (x y : ℚ) : PointerEvent :=
  { clientX := x, clientY := y, walletBonus := false, composite := some triforcesRoot,
    dungeon := none, item := none }

/-- The point misses every cached overlay: in each cached image it maps out of the
drawn bounds, or the alpha read at the mapped pixel is at most `20`. -/
def missesEvery (cacheMap : List (String × ImageEntry)) (loc : LocalPoint) : Prop :=
  ∀ (key : String) (entry : ImageEntry), objGet key cacheMap = some entry →
    mapToImageCoordsContain loc entry.w entry.h = none ∨
    ∃ mapped, mapToImageCoordsContain loc entry.w entry.h = some mapped ∧
      alphaAt entry mapped.px mapped.py ≤ 20

/-- The slot check of `applyRemoteParticipant` lets the snapshot through: the
instance slot is unset, or the snapshot slot is falsy (missing, not a number, or
`0`), or the two are equal. -/
def passesSlotCheck (slot : Int) (p : ParticipantState) : Prop :=
  slot = 0 ∨ p.slot = none ∨ p.slot = some 0 ∨ p.slot = some slot

/-- A participant snapshot whose slot is `0`. -/
def snapshotSlot0 : ParticipantState :=
  { slot := some 0, items := some [("bow", 1)], dungeons := some [("SV", 2)],
    wallet_bonus := some 600, composites := [] }

/-- The empty state object, the fallback after a malformed embedded state. -/
def emptyState : ParticipantState :=
  { slot := none, items := none, dungeons := none, wallet_bonus := none, composites := [] }

/-- An editor instance whose state is the empty object, over a catalog with the item
`bow` and the counter `keys`. -/
def emptyTracker : Tracker :=
  initTracker
    { USE_STORAGE := true, STORAGE_KEY := "tb_tracker_preview_state_v1",
      UPDATE_URL := some "/update", CAN_EDIT := true, slot := 0,
      catalogItems := [bow, keysMeta], domOverlayKeys := [] }
    emptyState

/-- A pointer event whose target lies in the item element `itemId` (no
`data-kind`), outside any wallet overlay, composite or dungeon element. -/
def itemEvent (itemId : String) : PointerEvent :=
  { clientX := 0, clientY := 0, walletBonus := false, composite := none, dungeon := none,
    item := some { itemId := itemId, kind := "" } }

/-- A pointer event whose target lies in the dungeon element `code`. -/
def dungeonEvent (code : String) : PointerEvent :=
  { clientX := 0, clientY := 0, walletBonus := false, composite := none, dungeon := some code,
    item := none }

/-- A session-mode editor: update URL set, local storage disabled; bow at level 2. -/
def sessionEditor : Tracker :=
  initTracker
    { USE_STORAGE := false, STORAGE_KEY := "tb_tracker_preview_state_v1_slot2",
      UPDATE_URL := some "/update", CAN_EDIT := true, slot := 2,
      catalogItems := [bow], domOverlayKeys := [] }
    (bowState 2)

/-- A standalone editor: local storage enabled, no update URL; bow at level 2. -/
def standaloneEditor : Tracker :=
  initTracker
    { USE_STORAGE := true, STORAGE_KEY := "tb_tracker_preview_state_v1_slot2",
      UPDATE_URL := none, CAN_EDIT := true, slot := 2,
      catalogItems := [bow], domOverlayKeys := [] }
    (bowState 2)

/-- The local-storage writes among a list of effects, oldest first. -/
def storageWrites : List Effect → List ParticipantState
  | [] => []
  | .storageWrite _ body :: rest => body :: storageWrites rest
  | _ :: rest => storageWrites rest

/-- The "contain" scale: the largest factor at which an image of `imgW × imgH` fits
into the box of `loc`, `min(w / imgW, h / imgH)`. -/
def containScale (loc : LocalPoint) (imgW imgH : Nat) : ℚ :=
  min (loc.w / (imgW : ℚ)) (loc.h / (imgH : ℚ))

/-- Width of the drawn image. -/
def drawnWidth (loc : LocalPoint) (imgW imgH : Nat) : ℚ :=
  (imgW : ℚ) * containScale loc imgW imgH

/-- Height of the drawn image. -/
def drawnHeight (loc : LocalPoint) (imgW imgH : Nat) : ℚ :=
  (imgH : ℚ) * containScale loc imgW imgH

/-- Left edge of the drawn image, which is centred in the box. -/
def drawnLeft (loc : LocalPoint) (imgW imgH : Nat) : ℚ :=
  (loc.w - drawnWidth loc imgW imgH) / 2

/-- Top edge of the drawn image, which is centred in the box. -/
def drawnTop (loc : LocalPoint) (imgW imgH : Nat) : ℚ :=
  (loc.h - drawnHeight loc imgW imgH) / 2

/-- The point of `loc` lies outside the drawn rectangle (its border belongs to the
rectangle). -/
def outsideDrawn (loc : LocalPoint) (imgW imgH : Nat) : Prop :=
  loc.x < drawnLeft loc imgW imgH ∨ loc.y < drawnTop loc imgW imgH ∨
  loc.x > drawnLeft loc imgW imgH + drawnWidth loc imgW imgH ∨
  loc.y > drawnTop loc imgW imgH + drawnHeight loc imgW imgH

/-- A point at `(75, 25)` in a box of `100 × 100`. -/
def quarterPoint : LocalPoint :=
  { x := 75, y := 25, w := 100, h := 100 }

/-- A point at `(50, 5)` in a box of `100 × 100`: with an image of `4 × 2` it lies in
the upper letterbox band. -/
def bandPoint : LocalPoint :=
  { x := 50, y := 5, w := 100, h := 100 }

/-- The instance with the composite `triforces` before any hit cache is built. -/
def triforcesFresh : Tracker :=
  initTracker
    { USE_STORAGE := true, STORAGE_KEY := "tb_tracker_preview_state_v1_slot2",
      UPDATE_URL := some "/update", CAN_EDIT := true, slot := 2,
      catalogItems := [triforcesMeta], domOverlayKeys := [] }
    { slot := some 2, items := some [], dungeons := some [], wallet_bonus := none,
      composites := [("triforces", [("courage", false), ("power", false), ("wisdom", false)])] }

/-- The overlay `power` of `triforces`; its image decodes only when `powerOk` is
set. -/
def powerOverlay (powerOk : Bool) : OverlayImg :=
  { overlayKey := "power", src := "/static/power.png",
    decoded := if powerOk then some (image2x2 0 0 20 255) else none }

/-- The three overlays of `triforces`; courage and wisdom always decode. -/
def triforcesOverlays (powerOk : Bool) : List OverlayImg :=
  [{ overlayKey := "courage", src := "/static/courage.png",
     decoded := some (image2x2 255 20 0 0) },
   powerOverlay powerOk,
   { overlayKey := "wisdom", src := "/static/wisdom.png",
     decoded := some (image2x2 0 255 7 0) }]

/-! ## Basic facts -/

theorem objGet_objSet_same {α : Type} (k : String) (v : α) (o : List (String × α)) :
    objGet k (objSet k v o) = some v := by
  induction o with
  | nil => simp [objSet, objGet]
  | cons p rest ih =>
    obtain ⟨k', v'⟩ := p
    by_cases h : k' = k
    · simp [objSet, objGet, h]
    · simp [objSet, objGet, h, ih]

theorem objGet_objSet_ne {α : Type} (k j : String) (v : α) (o : List (String × α))
    (h : j ≠ k) : objGet j (objSet k v o) = objGet j o := by
  have h2 : ¬ k = j := fun e => h e.symm
  induction o with
  | nil => simp [objSet, objGet, h2]
  | cons p rest ih =>
    obtain ⟨k', v'⟩ := p
    by_cases hk : k' = k
    · subst hk
      simp [objSet, objGet, h2]
    · by_cases hj : k' = j
      · subst hj
        simp [objSet, objGet, hk]
      · simp [objSet, objGet, hk, hj, ih]

theorem clamp_ge (n lo hi : Int) : lo ≤ clamp n lo hi := by
  unfold clamp
  exact le_max_left _ _

theorem clamp_le (n lo hi : Int) (h : lo ≤ hi) : clamp n lo hi ≤ hi := by
  unfold clamp
  exact max_le h (min_le_left _ _)

theorem clamp_of_mem (n lo hi : Int) (h1 : lo ≤ n) (h2 : n ≤ hi) : clamp n lo hi = n := by
  unfold clamp
  rw [min_eq_right h2, max_eq_right h1]

@[simp] theorem emit_state (e : Effect) (t : Tracker) : (emit e t).state = t.state := rfl

@[simp] theorem renderCounter_state (itemId : String) (t : Tracker) :
    (renderCounter itemId t).state = t.state := rfl

@[simp] theorem renderWallet_state (itemId : String) (t : Tracker) :
    (renderWallet itemId t).state = t.state := rfl

@[simp] theorem renderDungeon_state (code : String) (t : Tracker) :
    (renderDungeon code t).state = t.state := rfl

@[simp] theorem renderComposite_state (compositeId : String) (t : Tracker) :
    (renderComposite compositeId t).state = t.state := rfl

@[simp] theorem renderItemSimple_state (itemId : String) (t : Tracker) :
    (renderItemSimple itemId t).state = t.state := by
  unfold renderItemSimple
  cases getItemMeta t itemId <;> rfl

theorem cycleLevel_ok (t : Tracker) (itemId : String) (delta : Int) (meta : ItemMeta)
    (levels : List Int) (items : List (String × Int))
    (hmeta : getItemMeta t itemId = some meta)
    (hlv : meta.level_values = some levels) (hne : levels ≠ [])
    (hitems : t.state.items = some items) :
    ∃ t1, cycleLevel itemId delta t = .ok t1 ∧
      t1.state.items.bind (objGet itemId) =
        some (nextLevel levels ((objGet itemId items).getD (levels.headD 0)) delta) := by
  cases levels with
  | nil => exact absurd rfl hne
  | cons v vs =>
    unfold cycleLevel
    simp only [hmeta, hlv, hitems]
    by_cases hk : meta.kind = some "wallet"
    · refine ⟨_, by simp only [hk, if_true]; rfl, ?_⟩
      simp [objGet_objSet_same, nextLevel]
    · refine ⟨_, by simp only [hk, if_false]; rfl, ?_⟩
      simp [objGet_objSet_same, nextLevel]

theorem indexOf_getLast_of_not_mem_dropLast (levels : List Int) (hne : levels ≠ [])
    (h : levels.getLast hne ∉ levels.dropLast) :
    List.indexOf (levels.getLast hne) levels = levels.length - 1 := by
  induction levels with
  | nil => exact absurd rfl hne
  | cons x rest ih =>
    cases rest with
    | nil => simp
    | cons y l =>
      have hne2 : (y :: l) ≠ [] := by simp
      have hlast : (x :: y :: l).getLast hne = (y :: l).getLast hne2 := by
        simp [List.getLast_cons]
      rw [hlast] at h ⊢
      simp only [List.dropLast_cons₂, List.mem_cons, not_or] at h
      have hx : x ≠ (y :: l).getLast hne2 := fun e => h.1 e.symm
      rw [List.indexOf_cons_ne _ hx, ih hne2 h.2]
      simp

theorem nextLevel_first (levels : List Int) (hne : levels ≠ []) :
    nextLevel levels (levels.headD 0) (-1) = levels.headD 0 := by
  cases levels with
  | nil => exact absurd rfl hne
  | cons v vs =>
    have hidx : indexOf (v :: vs) v = 0 := by simp [indexOf]
    have hlen : (0 : Int) ≤ ((v :: vs).length : Int) - 1 := by simp
    simp only [nextLevel, List.headD_cons, hidx]
    have hc : clamp ((if (0 : Int) = -1 then 0 else 0) + -1) 0 (((v :: vs).length : Int) - 1) = 0 := by
      unfold clamp
      simp
    rw [hc]
    simp

theorem nextLevel_last (levels : List Int) (hne : levels ≠ [])
    (h : levels.getLast hne ∉ levels.dropLast) :
    nextLevel levels (levels.getLast hne) 1 = levels.getLast hne := by
  have hmem : levels.getLast hne ∈ levels := List.getLast_mem hne
  have hpos : 0 < levels.length := List.length_pos.mpr hne
  have hidx : indexOf levels (levels.getLast hne) = ((levels.length - 1 : Nat) : Int) := by
    simp only [indexOf, hmem, if_true]
    rw [indexOf_getLast_of_not_mem_dropLast levels hne h]
  have hcast : ((levels.length - 1 : Nat) : Int) = (levels.length : Int) - 1 := by omega
  have hnot : ¬ ((levels.length : Int) - 1 = -1) := by omega
  simp only [nextLevel, hidx, hcast, hnot, if_false]
  have hc : clamp ((levels.length : Int) - 1 + 1) 0 ((levels.length : Int) - 1)
      = (levels.length : Int) - 1 := by
    unfold clamp
    rw [min_eq_left (by omega), max_eq_right (by omega)]
  rw [hc]
  have hn : ((levels.length : Int) - 1).toNat = levels.length - 1 := by omega
  rw [hn, List.getD_eq_getElem?_getD, List.getLast_eq_getElem]
  simp [hpos]

theorem updateCounter_ok (t : Tracker) (itemId : String) (d : Int) (meta : ItemMeta)
    (items : List (String × Int))
    (hmeta : getItemMeta t itemId = some meta) (hitems : t.state.items = some items) :
    ∃ t1, updateCounter itemId d t = .ok t1 ∧ t1.cfg = t.cfg ∧
      t1.state.items = some (objSet itemId
        (clamp ((objGet itemId items).getD 0 + d * meta.counter_step.getD 1)
          (meta.counter_min.getD 0) (meta.counter_max.getD 999999)) items) := by
  unfold updateCounter
  simp only [hmeta, hitems]
  exact ⟨_, rfl, rfl, by simp⟩

theorem getItemMeta_congr (t t1 : Tracker) (h : t1.cfg = t.cfg) (itemId : String) :
    getItemMeta t1 itemId = getItemMeta t itemId := by
  unfold getItemMeta
  rw [h]

theorem updateCounterSeq_ok (itemId : String) (meta : ItemMeta) (ds : List Int) :
    ∀ (t : Tracker) (items : List (String × Int)),
      getItemMeta t itemId = some meta → t.state.items = some items →
      ∃ t1 items1, updateCounterSeq itemId ds t = .ok t1 ∧ t1.cfg = t.cfg ∧
        t1.state.items = some items1 ∧
        (objGet itemId items1).getD 0 =
          counterSpec (meta.counter_step.getD 1) (meta.counter_min.getD 0)
            (meta.counter_max.getD 999999) ((objGet itemId items).getD 0) ds ∧
        (ds ≠ [] → ∃ v, objGet itemId items1 = some v) := by
  induction ds with
  | nil =>
    intro t items _ hitems
    exact ⟨t, items, rfl, rfl, hitems, rfl, fun h => absurd rfl h⟩
  | cons d ds ih =>
    intro t items hmeta hitems
    obtain ⟨t1, h1, hcfg, hst⟩ := updateCounter_ok t itemId d meta items hmeta hitems
    have hmeta1 : getItemMeta t1 itemId = some meta := by
      rw [getItemMeta_congr t t1 hcfg]; exact hmeta
    obtain ⟨t2, items2, h2, hcfg2, hst2, hval, hex⟩ := ih t1 _ hmeta1 hst
    refine ⟨t2, items2, ?_, hcfg2.trans hcfg, hst2, ?_, ?_⟩
    · simp only [updateCounterSeq, h1]
      exact h2
    · rw [hval, objGet_objSet_same]
      simp [counterSpec, clamp]
    · intro _
      cases ds with
      | nil =>
        simp only [updateCounterSeq] at h2
        injection h2 with h2
        subst h2
        rw [hst] at hst2
        injection hst2 with hst2
        subst hst2
        exact ⟨_, objGet_objSet_same _ _ _⟩
      | cons d2 ds2 => exact hex (by simp)

theorem counterSpec_mem (step lo hi : Int) (hle : lo ≤ hi) (cur d : Int) (ds : List Int) :
    lo ≤ counterSpec step lo hi cur (d :: ds) ∧ counterSpec step lo hi cur (d :: ds) ≤ hi := by
  induction ds using List.reverseRecOn with
  | nil =>
    simp only [counterSpec, List.foldl]
    exact ⟨le_max_left _ _, max_le hle (min_le_left _ _)⟩
  | append_singleton ds e _ =>
    have : counterSpec step lo hi cur (d :: (ds ++ [e])) =
        max lo (min hi (counterSpec step lo hi cur (d :: ds) + e * step)) := by
      simp [counterSpec, List.foldl_append]
    rw [this]
    exact ⟨le_max_left _ _, max_le hle (min_le_left _ _)⟩

theorem cycleDungeon_ok (t : Tracker) (code : String) (d : Int)
    (dungeons : List (String × Int)) (hd : t.state.dungeons = some dungeons) :
    ∃ t1, cycleDungeon code d t = .ok t1 ∧
      t1.state.dungeons =
        some (objSet code (clamp ((objGet code dungeons).getD 0 + d) 0 2) dungeons) := by
  unfold cycleDungeon
  simp only [hd]
  exact ⟨_, rfl, by simp⟩

theorem cycleDungeonSeq_ok (seq : List (String × Int)) :
    ∀ (t : Tracker) (dungeons : List (String × Int)) (touched : List String),
      t.state.dungeons = some dungeons →
      (∀ c ∈ touched, dungeonInRange dungeons c) →
      ∃ t1 dungeons1, cycleDungeonSeq seq t = .ok t1 ∧ t1.state.dungeons = some dungeons1 ∧
        (∀ c ∈ touched, dungeonInRange dungeons1 c) ∧
        (∀ p ∈ seq, dungeonInRange dungeons1 p.1) := by
  induction seq with
  | nil =>
    intro t dungeons touched hd hin
    exact ⟨t, dungeons, rfl, hd, hin, by simp⟩
  | cons p rest ih =>
    intro t dungeons touched hd hin
    obtain ⟨code, d⟩ := p
    obtain ⟨t1, h1, hst⟩ := cycleDungeon_ok t code d dungeons hd
    have hin1 : ∀ c ∈ code :: touched,
        dungeonInRange (objSet code (clamp ((objGet code dungeons).getD 0 + d) 0 2) dungeons) c := by
      intro c hc
      by_cases hcc : c = code
      · subst hcc
        exact ⟨_, objGet_objSet_same _ _ _, clamp_ge _ _ _, clamp_le _ _ _ (by norm_num)⟩
      · have hmem : c ∈ touched := by
          rcases List.mem_cons.mp hc with h | h
          · exact absurd h hcc
          · exact h
        obtain ⟨v, hv, hr⟩ := hin c hmem
        exact ⟨v, by rw [objGet_objSet_ne _ _ _ _ hcc]; exact hv, hr⟩
    obtain ⟨t2, dungeons2, h2, hst2, hin2, hseq2⟩ := ih t1 _ (code :: touched) hst hin1
    refine ⟨t2, dungeons2, ?_, hst2, ?_, ?_⟩
    · simp only [cycleDungeonSeq, h1]
      exact h2
    · intro c hc
      exact hin2 c (List.mem_cons_of_mem _ hc)
    · intro q hq
      rcases List.mem_cons.mp hq with h | h
      · subst h
        exact hin2 code (List.mem_cons_self _ _)
      · exact hseq2 q h

theorem sameBridge_refl (t : Tracker) : SameBridge t t :=
  ⟨rfl, rfl, rfl, rfl, rfl, rfl, rfl, rfl, [], by simp, by simp⟩

theorem sameBridge_trans {a b c : Tracker} (h1 : SameBridge a b) (h2 : SameBridge b c) :
    SameBridge a c := by
  obtain ⟨es1, hl1, hp1⟩ := h1.log
  obtain ⟨es2, hl2, hp2⟩ := h2.log
  refine ⟨h2.cfg.trans h1.cfg, h2.timer.trans h1.timer, h2.inflight.trans h1.inflight,
    h2.needsAnother.trans h1.needsAnother, h2.suppress.trans h1.suppress,
    h2.pending.trans h1.pending,
    h2.nextId.trans h1.nextId, h2.outstanding.trans h1.outstanding, es1 ++ es2, ?_, ?_⟩
  · rw [hl2, hl1, List.append_assoc]
  · intro e he
    rcases List.mem_append.mp he with h | h
    · exact hp1 e h
    · exact hp2 e h

theorem sameBridge_emit_local (e : Effect) (he : e.isLocal = true) (t : Tracker) :
    SameBridge t (emit e t) :=
  ⟨rfl, rfl, rfl, rfl, rfl, rfl, rfl, rfl, [e], rfl, by simpa using he⟩

theorem sends_of_local (es : List Effect) (h : ∀ e ∈ es, e.isLocal = true) : sends es = [] := by
  induction es with
  | nil => rfl
  | cons e rest ih =>
    have he := h e (List.mem_cons_self _ _)
    have hr := ih (fun x hx => h x (List.mem_cons_of_mem _ hx))
    cases e <;> simp_all [sends, Effect.isLocal]

theorem timersSet_of_local (es : List Effect) (h : ∀ e ∈ es, e.isLocal = true) :
    timersSet es = [] := by
  induction es with
  | nil => rfl
  | cons e rest ih =>
    have he := h e (List.mem_cons_self _ _)
    have hr := ih (fun x hx => h x (List.mem_cons_of_mem _ hx))
    cases e <;> simp_all [timersSet, Effect.isLocal]

theorem sameBridge_newEffects_local {t t1 : Tracker} (h : SameBridge t t1) :
    ∀ e ∈ newEffects t t1, e.isLocal = true := by
  obtain ⟨es, hl, hp⟩ := h.log
  have : newEffects t t1 = es := by
    unfold newEffects
    rw [hl, List.drop_left]
  rw [this]
  exact hp

theorem sameBridge_renderItemSimple (itemId : String) (t : Tracker) :
    SameBridge t (renderItemSimple itemId t) := by
  unfold TrackerSsr.renderItemSimple
  cases getItemMeta t itemId with
  | none => exact sameBridge_refl t
  | some m => exact sameBridge_emit_local (.render _) rfl t

theorem sameBridge_renderCounter (itemId : String) (t : Tracker) :
    SameBridge t (renderCounter itemId t) :=
  sameBridge_emit_local (.render _) rfl t

theorem sameBridge_renderWallet (itemId : String) (t : Tracker) :
    SameBridge t (renderWallet itemId t) :=
  sameBridge_emit_local (.render _) rfl t

theorem sameBridge_renderDungeon (code : String) (t : Tracker) :
    SameBridge t (renderDungeon code t) :=
  sameBridge_emit_local (.render _) rfl t

theorem sameBridge_renderComposite (compositeId : String) (t : Tracker) :
    SameBridge t (renderComposite compositeId t) :=
  sameBridge_emit_local (.render _) rfl t

theorem sameBridge_foldl {α : Type} (f : Tracker → α → Tracker)
    (hf : ∀ t a, SameBridge t (f t a)) (l : List α) :
    ∀ t, SameBridge t (l.foldl f t) := by
  induction l with
  | nil => intro t; exact sameBridge_refl t
  | cons a rest ih =>
    intro t
    exact sameBridge_trans (hf t a) (ih (f t a))

theorem sameBridge_renderAll (t : Tracker) : SameBridge t (renderAll t) := by
  unfold TrackerSsr.renderAll
  have h1 : SameBridge t
      (if t.state.items.isSome then
        (itemsById t.cfg.catalogItems).foldl
          (fun acc entry =>
            if entry.2.kind = some "composite" then acc
            else if entry.2.kind = some "counter" then TrackerSsr.renderCounter entry.1 acc
            else if entry.2.kind = some "wallet" then TrackerSsr.renderWallet entry.1 acc
            else TrackerSsr.renderItemSimple entry.1 acc)
          t
      else t) := by
    split
    · apply sameBridge_foldl
      intro a entry
      split
      · exact sameBridge_refl a
      · split
        · exact sameBridge_renderCounter _ a
        · split
          · exact sameBridge_renderWallet _ a
          · exact sameBridge_renderItemSimple _ a
    · exact sameBridge_refl t
  have h2 : ∀ a : Tracker, SameBridge a
      (match a.state.dungeons with
        | some dungeons =>
          (objKeys dungeons).foldl (fun acc code => TrackerSsr.renderDungeon code acc) a
        | none => a) := by
    intro a
    split
    · apply sameBridge_foldl
      intro b code
      exact sameBridge_renderDungeon code b
    · exact sameBridge_refl a
  exact sameBridge_trans (sameBridge_trans (sameBridge_trans h1 (h2 _))
    (sameBridge_renderComposite "tablets" _)) (sameBridge_renderComposite "triforces" _)

theorem foldl_state {α : Type} (f : Tracker → α → Tracker)
    (hf : ∀ t a, (f t a).state = t.state) (l : List α) :
    ∀ t, (l.foldl f t).state = t.state := by
  induction l with
  | nil => intro t; rfl
  | cons a rest ih =>
    intro t
    exact (ih (f t a)).trans (hf t a)

@[simp] theorem renderAll_state (t : Tracker) : (renderAll t).state = t.state := by
  unfold renderAll
  have h1 : (if t.state.items.isSome then
        (itemsById t.cfg.catalogItems).foldl
          (fun acc entry =>
            if entry.2.kind = some "composite" then acc
            else if entry.2.kind = some "counter" then renderCounter entry.1 acc
            else if entry.2.kind = some "wallet" then renderWallet entry.1 acc
            else renderItemSimple entry.1 acc)
          t
      else t).state = t.state := by
    split
    · apply foldl_state
      intro a entry
      split
      · rfl
      · split
        · rfl
        · split
          · rfl
          · exact renderItemSimple_state _ a
    · rfl
  have h2 : ∀ a : Tracker,
      (match a.state.dungeons with
        | some dungeons =>
          (objKeys dungeons).foldl (fun acc code => renderDungeon code acc) a
        | none => a).state = a.state := by
    intro a
    split
    · apply foldl_state
      intro b code
      rfl
    · rfl
  simp only [renderComposite_state]
  exact (h2 _).trans h1

@[simp] theorem saveLocal_state (t : Tracker) : (saveLocal t).state = t.state := by
  unfold saveLocal
  split <;> rfl

theorem sameBridge_saveLocal (t : Tracker) : SameBridge t (saveLocal t) := by
  unfold TrackerSsr.saveLocal
  split
  · exact sameBridge_emit_local (.storageWrite _ _) rfl t
  · exact sameBridge_refl t

/-- The shape of `applyRemoteParticipant`: either nothing happens, or the state is
replaced under the suppression flag, which is cleared at the end. -/
theorem applyRemoteParticipant_shape (p : Option ParticipantState) (t : Tracker) :
    applyRemoteParticipant p t = t ∨
    ∃ s t1, p = some s ∧
      SameBridge { t with _suppressNetworkSaves := true, state := s } t1 ∧
      t1.state = s ∧
      applyRemoteParticipant p t = { t1 with _suppressNetworkSaves := false } := by
  unfold applyRemoteParticipant
  cases p with
  | none => exact Or.inl rfl
  | some p =>
    simp only
    split
    · exact Or.inl rfl
    · refine Or.inr ⟨p, _, rfl,
        sameBridge_trans (sameBridge_renderAll _) (sameBridge_saveLocal _), ?_, rfl⟩
      exact (saveLocal_state _).trans (renderAll_state _)

theorem sameBridge_setState (t : Tracker) (s : ParticipantState) :
    SameBridge t { t with state := s } :=
  ⟨rfl, rfl, rfl, rfl, rfl, rfl, rfl, rfl, [], by simp, by simp⟩

theorem sameBridge_cycleWalletBonus (delta : Int) (t : Tracker) :
    SameBridge t (cycleWalletBonus delta t) := by
  unfold TrackerSsr.cycleWalletBonus
  exact sameBridge_trans (sameBridge_setState t _) (sameBridge_renderWallet _ _)

theorem sameBridge_toggleCompositeKey (compositeId key : String) (forceValue : Option Bool)
    (t : Tracker) : SameBridge t (toggleCompositeKey compositeId key forceValue t) := by
  unfold TrackerSsr.toggleCompositeKey
  exact sameBridge_trans (sameBridge_setState t _) (sameBridge_renderComposite _ _)

theorem sameBridge_hitLoop (compositeId : String) (cacheMap : List (String × ImageEntry))
    (loc : LocalPoint) (delta : Int) (t : Tracker) (order : List String) :
    SameBridge t (hitLoop compositeId cacheMap loc delta t order).2 := by
  induction order with
  | nil => exact sameBridge_refl t
  | cons key rest ih =>
    unfold TrackerSsr.hitLoop
    split
    · exact ih
    · split
      · exact ih
      · simp only
        split
        · split
          · exact sameBridge_toggleCompositeKey compositeId key (some false) t
          · exact sameBridge_toggleCompositeKey compositeId key none t
        · exact ih

theorem sameBridge_pixelPerfectCompositeToggle (ev : PointerEvent) (delta : Int) (t : Tracker) :
    SameBridge t (pixelPerfectCompositeToggle ev delta t).2 := by
  unfold TrackerSsr.pixelPerfectCompositeToggle
  split
  · exact sameBridge_refl t
  · split
    · exact sameBridge_refl t
    · simp only
      split
      · exact sameBridge_refl t
      · split
        · exact sameBridge_refl t
        · exact sameBridge_refl t
        · exact sameBridge_hitLoop _ _ _ _ t _

theorem sameBridge_cycleDungeon (code : String) (delta : Int) (t t1 : Tracker)
    (h : cycleDungeon code delta t = .ok t1) : SameBridge t t1 := by
  unfold TrackerSsr.cycleDungeon at h
  simp only at h
  split at h
  · exact absurd h (by simp)
  · injection h with h
    subst h
    exact sameBridge_trans (sameBridge_setState t _) (sameBridge_renderDungeon _ _)

theorem sameBridge_updateCounter (itemId : String) (delta : Int) (t t1 : Tracker)
    (h : updateCounter itemId delta t = .ok t1) : SameBridge t t1 := by
  unfold TrackerSsr.updateCounter at h
  split at h
  · injection h with h
    subst h
    exact sameBridge_refl t
  · simp only at h
    split at h
    · exact absurd h (by simp)
    · injection h with h
      subst h
      exact sameBridge_trans (sameBridge_setState t _) (sameBridge_renderCounter _ _)

theorem sameBridge_cycleLevel (itemId : String) (delta : Int) (t t1 : Tracker)
    (h : cycleLevel itemId delta t = .ok t1) : SameBridge t t1 := by
  unfold TrackerSsr.cycleLevel at h
  split at h
  · injection h with h
    subst h
    exact sameBridge_refl t
  · simp only at h
    split at h
    · exact absurd h (by simp)
    · split at h
      · injection h with h
        subst h
        exact sameBridge_trans (sameBridge_setState t _) (sameBridge_renderWallet _ _)
      · injection h with h
        subst h
        exact sameBridge_trans (sameBridge_setState t _) (sameBridge_renderItemSimple _ _)

theorem except_map_ok {α β : Type} (f : α → β) (x : Except JsError α) (b : β)
    (h : x.map f = .ok b) : ∃ a, x = .ok a ∧ f a = b := by
  cases x with
  | error e => exact absurd h (by simp [Except.map])
  | ok a =>
    simp only [Except.map] at h
    injection h with h
    exact ⟨a, rfl, h⟩

theorem sameBridge_handleInteraction (ev : PointerEvent) (delta : Int) (t t1 : Tracker)
    (c : Bool) (h : handleInteraction ev delta t = .ok (c, t1)) : SameBridge t t1 := by
  unfold TrackerSsr.handleInteraction at h
  split at h
  · injection h with h
    injection h with _ h
    subst h
    exact sameBridge_cycleWalletBonus delta t
  · split at h
    · injection h with h
      have h2 : (TrackerSsr.pixelPerfectCompositeToggle ev delta t).2 = t1 := by rw [h]
      rw [← h2]
      exact sameBridge_pixelPerfectCompositeToggle ev delta t
    · split at h
      · obtain ⟨a, ha, hf⟩ := except_map_ok _ _ _ h
        injection hf with _ hf
        subst hf
        exact sameBridge_cycleDungeon _ _ _ _ ha
      · split at h
        · injection h with h
          injection h with _ h
          subst h
          exact sameBridge_refl t
        · simp only at h
          generalize (if _ = "" then "cycle" else _) = kind at h
          split at h
          · obtain ⟨a, ha, hf⟩ := except_map_ok _ _ _ h
            injection hf with _ hf
            subst hf
            exact sameBridge_updateCounter _ _ _ _ ha
          · split at h
            · obtain ⟨a, ha, hf⟩ := except_map_ok _ _ _ h
              injection hf with _ hf
              subst hf
              exact sameBridge_cycleLevel _ _ _ _ ha
            · obtain ⟨a, ha, hf⟩ := except_map_ok _ _ _ h
              injection hf with _ hf
              subst hf
              exact sameBridge_cycleLevel _ _ _ _ ha

theorem inv_of_sameBridge {t t1 : Tracker} (h : SameBridge t t1) (hi : Inv t) : Inv t1 := by
  refine ⟨h.suppress.trans hi.suppress, ?_, ?_, ?_⟩
  · rw [h.pending, h.timer]
    exact hi.timers
  · rw [h.inflight, h.outstanding, h.needsAnother]
    exact hi.flight
  · rw [h.inflight, h.cfg]
    exact hi.editor

theorem inv_scheduleServerSave {t : Tracker} (hi : Inv t) : Inv (scheduleServerSave t) := by
  unfold TrackerSsr.scheduleServerSave
  split
  · exact hi
  · split
    · exact hi
    · split
      · exact hi
      · refine ⟨hi.suppress.symm ▸ ?_, ?_, ?_, ?_⟩
        · cases hts : t._serverSaveTimer <;> simp [setTimeout, clearTimeout, emit, hi.suppress]
        · right
          cases hts : t._serverSaveTimer with
          | none =>
            rcases hi.timers with hp | ⟨id, _, hid⟩
            · exact ⟨t.nextTimerId, by simp [setTimeout, emit, hp], by simp [setTimeout, emit]⟩
            · rw [hts] at hid
              exact absurd hid (by simp)
          | some id0 =>
            rcases hi.timers with hp | ⟨id, hp, hid⟩
            · exact ⟨t.nextTimerId, by simp [setTimeout, clearTimeout, emit, hp],
                by simp [setTimeout, clearTimeout, emit]⟩
            · rw [hts] at hid
              injection hid with hid
              subst hid
              exact ⟨t.nextTimerId, by simp [setTimeout, clearTimeout, emit, hp],
                by simp [setTimeout, clearTimeout, emit]⟩
        · cases hts : t._serverSaveTimer <;>
            simpa [setTimeout, clearTimeout, emit] using hi.flight
        · cases hts : t._serverSaveTimer <;>
            simpa [setTimeout, clearTimeout, emit] using hi.editor

theorem inv_flushServerSave {t : Tracker} (hi : Inv t) : Inv (flushServerSave t) := by
  unfold TrackerSsr.flushServerSave
  split
  · exact hi
  · rename_i hurl
    split
    · exact hi
    · rename_i hedit
      split
      · exact hi
      · split
        · rename_i hfl
          rcases hi.flight with ⟨_, hout⟩ | ⟨hf, _⟩
          · exact ⟨hi.suppress, hi.timers, Or.inl ⟨hfl, hout⟩, hi.editor⟩
          · rw [hf] at hfl
            exact absurd hfl (by simp)
        · rename_i hfl
          rcases hi.flight with ⟨hf, _⟩ | ⟨_, hout, _⟩
          · exact absurd hf hfl
          · refine ⟨hi.suppress, hi.timers, Or.inl ⟨rfl, t.state, ?_⟩, ?_⟩
            · simp [emit, hout]
            · intro _
              constructor
              · show t.cfg.UPDATE_URL.isSome = true
                cases hu : t.cfg.UPDATE_URL with
                | none => rw [hu] at hurl; exact absurd rfl hurl
                | some u => rfl
              · show t.cfg.CAN_EDIT = true
                simpa using hedit

theorem inv_flushFinally {t : Tracker} (hi : Inv t) (rest : List ParticipantState)
    (b : ParticipantState) (hout : t.outstanding = b :: rest) :
    Inv (flushFinally { t with outstanding := rest }) := by
  have hrest : rest = [] := by
    rcases hi.flight with ⟨_, b2, h2⟩ | ⟨_, h2, _⟩
    · rw [hout] at h2
      injection h2 with _ h2
    · rw [hout] at h2
      exact absurd h2 (by simp)
  subst hrest
  have hbase : Inv { t with outstanding := [], _inflight := false, _needsAnother := false } :=
    ⟨hi.suppress, hi.timers, Or.inr ⟨rfl, rfl, rfl⟩, fun h => absurd h (by simp)⟩
  unfold TrackerSsr.flushFinally
  simp only
  split
  · exact inv_flushServerSave hbase
  · rename_i hna
    refine ⟨hi.suppress, hi.timers, Or.inr ⟨rfl, rfl, ?_⟩, fun h => absurd h (by simp)⟩
    simpa using hna

theorem inv_afterChangePersist {t : Tracker} (hi : Inv t) : Inv (afterChangePersist t) := by
  unfold TrackerSsr.afterChangePersist
  exact inv_scheduleServerSave (inv_of_sameBridge (sameBridge_saveLocal t) hi)

theorem inv_interactionListener {t t1 : Tracker} (ev : PointerEvent) (delta : Int)
    (hi : Inv t) (h : interactionListener ev delta t = .ok t1) : Inv t1 := by
  unfold TrackerSsr.interactionListener at h
  split at h
  · split at h
    · rename_i changed t2 hh
      have hb := inv_of_sameBridge (sameBridge_handleInteraction ev delta t t2 changed hh) hi
      split at h
      · injection h with h
        subst h
        exact inv_afterChangePersist hb
      · injection h with h
        subst h
        exact hb
    · exact absurd h (by simp)
  · injection h with h
    subst h
    exact hi

theorem inv_applyRemoteParticipant {t : Tracker} (p : Option ParticipantState) (hi : Inv t) :
    Inv (applyRemoteParticipant p t) := by
  rcases applyRemoteParticipant_shape p t with h | ⟨s, t1, _, hb, _, h⟩
  · rw [h]
    exact hi
  · rw [h]
    refine ⟨rfl, ?_, ?_, ?_⟩
    · show t1.pendingTimers = [] ∨ ∃ id, t1.pendingTimers = [id] ∧ t1._serverSaveTimer = some id
      rw [hb.pending, hb.timer]
      exact hi.timers
    · show (t1._inflight = true ∧ ∃ b, t1.outstanding = [b]) ∨
        (t1._inflight = false ∧ t1.outstanding = [] ∧ t1._needsAnother = false)
      rw [hb.inflight, hb.outstanding, hb.needsAnother]
      exact hi.flight
    · show t1._inflight = true → t1.cfg.UPDATE_URL.isSome = true ∧ t1.cfg.CAN_EDIT = true
      rw [hb.inflight, hb.cfg]
      exact hi.editor

theorem inv_step {t : Tracker} (hi : Inv t) (e : Event) : Inv (step t e) := by
  cases e with
  | click ev =>
    simp only [TrackerSsr.step]
    split
    · rename_i t1 h
      exact inv_interactionListener ev 1 hi h
    · exact hi
  | contextmenu ev =>
    simp only [TrackerSsr.step]
    split
    · rename_i t1 h
      exact inv_interactionListener ev (-1) hi h
    · exact hi
  | localChange s =>
    exact inv_afterChangePersist (inv_of_sameBridge (sameBridge_setState t s) hi)
  | schedule => exact inv_scheduleServerSave hi
  | flush => exact inv_flushServerSave hi
  | timerFire id =>
    simp only [TrackerSsr.step]
    split
    · rename_i hmem
      apply inv_flushServerSave
      rcases hi.timers with hp | ⟨id0, hp, _⟩
      · rw [hp] at hmem
        exact absurd hmem (by simp)
      · rw [hp] at hmem
        have hid : id = id0 := by simpa using hmem
        subst hid
        exact ⟨hi.suppress, Or.inl (by simp [hp]), hi.flight, hi.editor⟩
    · exact hi
  | sendSettled =>
    simp only [TrackerSsr.step]
    split
    · exact hi
    · rename_i b rest hout
      exact inv_flushFinally hi rest b hout
  | remote p => exact inv_applyRemoteParticipant p hi
  | cacheReady compositeId map =>
    exact ⟨hi.suppress, hi.timers, hi.flight, hi.editor⟩

theorem inv_run (evs : List Event) : ∀ {t : Tracker}, Inv t → Inv (run t evs) := by
  induction evs with
  | nil => intro t hi; exact hi
  | cons e rest ih =>
    intro t hi
    exact ih (inv_step hi e)

theorem inv_initTracker (cfg : Config) (state : ParticipantState) :
    Inv (initTracker cfg state) := by
  unfold TrackerSsr.initTracker
  apply inv_of_sameBridge (sameBridge_renderAll _)
  exact ⟨rfl, Or.inl rfl, Or.inr ⟨rfl, rfl, rfl⟩, fun h => absurd h (by simp)⟩

/-- Every state reached from `initTracker` by callbacks satisfies the invariant. -/
theorem inv_reachable (cfg : Config) (state : ParticipantState) (evs : List Event) :
    Inv (TrackerSsr.run (TrackerSsr.initTracker cfg state) evs) :=
  inv_run evs (inv_initTracker cfg state)

theorem scheduleServerSave_cfg (t : Tracker) : (scheduleServerSave t).cfg = t.cfg := by
  unfold scheduleServerSave
  split
  · rfl
  · split
    · rfl
    · split
      · rfl
      · cases t._serverSaveTimer <;> rfl

theorem flushServerSave_cfg (t : Tracker) : (flushServerSave t).cfg = t.cfg := by
  unfold flushServerSave
  split
  · rfl
  · split
    · rfl
    · split
      · rfl
      · split <;> rfl

theorem flushFinally_cfg (t : Tracker) : (flushFinally t).cfg = t.cfg := by
  unfold flushFinally
  simp only
  split
  · exact flushServerSave_cfg _
  · rfl

theorem afterChangePersist_cfg (t : Tracker) : (afterChangePersist t).cfg = t.cfg := by
  unfold afterChangePersist
  rw [scheduleServerSave_cfg]
  exact (sameBridge_saveLocal t).cfg

theorem applyRemoteParticipant_cfg (p : Option ParticipantState) (t : Tracker) :
    (applyRemoteParticipant p t).cfg = t.cfg := by
  rcases applyRemoteParticipant_shape p t with h | ⟨s, t1, _, hb, _, h⟩
  · rw [h]
  · rw [h]
    exact hb.cfg

theorem interactionListener_cfg (ev : PointerEvent) (delta : Int) (t t1 : Tracker)
    (h : interactionListener ev delta t = .ok t1) : t1.cfg = t.cfg := by
  unfold interactionListener at h
  split at h
  · split at h
    · rename_i changed t2 hh
      have hb := (sameBridge_handleInteraction ev delta t t2 changed hh).cfg
      split at h
      · injection h with h
        subst h
        rw [afterChangePersist_cfg]
        exact hb
      · injection h with h
        subst h
        exact hb
    · exact absurd h (by simp)
  · injection h with h
    subst h
    rfl

theorem step_cfg (t : Tracker) (e : Event) : (step t e).cfg = t.cfg := by
  cases e with
  | click ev =>
    simp only [step]
    split
    · rename_i t1 h
      exact interactionListener_cfg ev 1 t t1 h
    · rfl
  | contextmenu ev =>
    simp only [step]
    split
    · rename_i t1 h
      exact interactionListener_cfg ev (-1) t t1 h
    · rfl
  | localChange s => exact afterChangePersist_cfg _
  | schedule => exact scheduleServerSave_cfg t
  | flush => exact flushServerSave_cfg t
  | timerFire id =>
    simp only [step]
    split
    · exact flushServerSave_cfg _
    · rfl
  | sendSettled =>
    simp only [step]
    split
    · rfl
    · exact flushFinally_cfg _
  | remote p => exact applyRemoteParticipant_cfg p t
  | cacheReady compositeId map => rfl

theorem run_cfg (evs : List Event) : ∀ t : Tracker, (run t evs).cfg = t.cfg := by
  induction evs with
  | nil => intro t; rfl
  | cons e rest ih =>
    intro t
    exact (ih (step t e)).trans (step_cfg t e)

theorem initTracker_cfg (cfg : Config) (state : ParticipantState) :
    (initTracker cfg state).cfg = cfg := by
  unfold initTracker
  exact (sameBridge_renderAll _).cfg

theorem sends_append (a b : List Effect) : sends (a ++ b) = sends a ++ sends b := by
  induction a with
  | nil => rfl
  | cons e rest ih =>
    cases e <;> simp [sends, ih]

theorem newEffects_of_log {t t1 : Tracker} {es : List Effect} (h : t1.log = t.log ++ es) :
    newEffects t t1 = es := by
  unfold newEffects
  rw [h, List.drop_left]

theorem sends_snoc (l : List Effect) (e : Effect) : sends (l ++ [e]) = sends l ++ sends [e] :=
  sends_append l [e]

theorem isNone_false_of_isSome {α : Type} (o : Option α) (h : o.isSome = true) :
    o.isNone = false := by
  cases o with
  | none => exact absurd h (by simp)
  | some a => rfl

theorem scheduleServerSave_editor (t : Tracker) (hsup : t._suppressNetworkSaves = false)
    (hedit : t.cfg.CAN_EDIT = true) (hurl : t.cfg.UPDATE_URL.isSome = true) :
    scheduleServerSave t =
      setTimeout (match t._serverSaveTimer with
        | some id => clearTimeout id t
        | none => t) := by
  unfold scheduleServerSave
  simp [isNone_false_of_isSome _ hurl, hedit, hsup]

theorem flushServerSave_editor (t : Tracker) (hsup : t._suppressNetworkSaves = false)
    (hedit : t.cfg.CAN_EDIT = true) (hurl : t.cfg.UPDATE_URL.isSome = true) :
    flushServerSave t =
      if t._inflight then { t with _needsAnother := true }
      else emit (.netSend t.state)
        { t with _inflight := true, _needsAnother := false,
                 outstanding := t.outstanding ++ [t.state] } := by
  unfold flushServerSave
  simp [isNone_false_of_isSome _ hurl, hedit, hsup]

/-- One `scheduleServerSave()` on an editor with an update endpoint: exactly the
fresh timer is pending, nothing was sent. -/
theorem scheduleServerSave_pending (t : Tracker) (hi : Inv t)
    (hedit : t.cfg.CAN_EDIT = true) (hurl : t.cfg.UPDATE_URL.isSome = true) :
    (scheduleServerSave t).state = t.state ∧
    (scheduleServerSave t).pendingTimers = [t.nextTimerId] ∧
    (scheduleServerSave t)._inflight = t._inflight ∧
    (scheduleServerSave t)._needsAnother = t._needsAnother ∧
    (scheduleServerSave t).outstanding = t.outstanding ∧
    sends (scheduleServerSave t).log = sends t.log := by
  rw [scheduleServerSave_editor t hi.suppress hedit hurl]
  rcases hi.timers with hp | ⟨id, hp, hid⟩
  · cases hts : t._serverSaveTimer with
    | none => simp [setTimeout, emit, hp, sends_snoc, sends]
    | some id0 => simp [setTimeout, clearTimeout, emit, hp, sends_append, sends]
  · rw [hid]
    simp [setTimeout, clearTimeout, emit, hp, sends_append, sends]

theorem saveLocal_sends (t : Tracker) : sends (saveLocal t).log = sends t.log := by
  unfold saveLocal
  split
  · simp [emit, sends_snoc, sends]
  · rfl

/-- One local change on an editor with an update endpoint: the state is the new
one, exactly the fresh timer is pending, nothing was sent. -/
theorem localChange_editor (t : Tracker) (s : ParticipantState) (hi : Inv t)
    (hedit : t.cfg.CAN_EDIT = true) (hurl : t.cfg.UPDATE_URL.isSome = true) :
    (step t (.localChange s)).state = s ∧
    (∃ id, (step t (.localChange s)).pendingTimers = [id]) ∧
    (step t (.localChange s))._inflight = t._inflight ∧
    (step t (.localChange s))._needsAnother = t._needsAnother ∧
    (step t (.localChange s)).outstanding = t.outstanding ∧
    sends (step t (.localChange s)).log = sends t.log := by
  have hb : SameBridge t (saveLocal { t with state := s }) :=
    sameBridge_trans (sameBridge_setState t s) (sameBridge_saveLocal _)
  have hi2 : Inv (saveLocal { t with state := s }) := inv_of_sameBridge hb hi
  have h := scheduleServerSave_pending (saveLocal { t with state := s }) hi2
    (by rw [hb.cfg]; exact hedit) (by rw [hb.cfg]; exact hurl)
  obtain ⟨h1, h2, h3, h4, h5, h6⟩ := h
  refine ⟨?_, ⟨_, h2⟩, ?_, ?_, ?_, ?_⟩
  · show (scheduleServerSave (saveLocal { t with state := s })).state = s
    rw [h1, saveLocal_state]
  · exact h3.trans hb.inflight
  · exact h4.trans hb.needsAnother
  · exact h5.trans hb.outstanding
  · show sends (scheduleServerSave (saveLocal { t with state := s })).log = sends t.log
    rw [h6, saveLocal_sends]

/-- A non-empty burst on an editor with an update endpoint: the state is the last
one, exactly one timer is pending, nothing was sent. -/
theorem burst_editor (ss : List ParticipantState) :
    ∀ (t : Tracker) (s : ParticipantState), Inv t → t.cfg.CAN_EDIT = true →
      t.cfg.UPDATE_URL.isSome = true →
      (burst t (s :: ss)).state = (s :: ss).getLast (List.cons_ne_nil s ss) ∧
      (∃ id, (burst t (s :: ss)).pendingTimers = [id]) ∧
      (burst t (s :: ss))._inflight = t._inflight ∧
      (burst t (s :: ss))._needsAnother = t._needsAnother ∧
      (burst t (s :: ss)).outstanding = t.outstanding ∧
      sends (burst t (s :: ss)).log = sends t.log := by
  induction ss with
  | nil =>
    intro t s hi hedit hurl
    exact localChange_editor t s hi hedit hurl
  | cons s2 rest ih =>
    intro t s hi hedit hurl
    obtain ⟨_, _, h3, h4, h5, h6⟩ := localChange_editor t s hi hedit hurl
    have hi2 : Inv (step t (.localChange s)) := inv_step hi _
    have hc : (step t (.localChange s)).cfg = t.cfg := step_cfg t _
    obtain ⟨g1, g2, g3, g4, g5, g6⟩ := ih (step t (.localChange s)) s2 hi2
      (by rw [hc]; exact hedit) (by rw [hc]; exact hurl)
    have hb : burst t (s :: s2 :: rest) = burst (step t (.localChange s)) (s2 :: rest) := rfl
    rw [hb]
    refine ⟨?_, g2, g3.trans h3, g4.trans h4, g5.trans h5, g6.trans h6⟩
    rw [g1]
    simp [List.getLast_cons]

theorem extends_refl (t : Tracker) : Extends t t := ⟨[], by simp⟩

theorem extends_trans {a b c : Tracker} (h1 : Extends a b) (h2 : Extends b c) : Extends a c := by
  obtain ⟨e1, h1⟩ := h1
  obtain ⟨e2, h2⟩ := h2
  exact ⟨e1 ++ e2, by rw [h2, h1, List.append_assoc]⟩

theorem extends_of_sameBridge {t t1 : Tracker} (h : SameBridge t t1) : Extends t t1 := by
  obtain ⟨es, hl, _⟩ := h.log
  exact ⟨es, hl⟩

theorem extends_scheduleServerSave (t : Tracker) : Extends t (scheduleServerSave t) := by
  unfold TrackerSsr.scheduleServerSave
  split
  · exact extends_refl t
  · split
    · exact extends_refl t
    · split
      · exact extends_refl t
      · cases t._serverSaveTimer with
        | none => exact ⟨[.timerSet t.nextTimerId], rfl⟩
        | some id =>
          exact ⟨[.timerClear id, .timerSet t.nextTimerId], by
            simp [setTimeout, clearTimeout, emit]⟩

theorem extends_flushServerSave (t : Tracker) : Extends t (flushServerSave t) := by
  unfold TrackerSsr.flushServerSave
  split
  · exact extends_refl t
  · split
    · exact extends_refl t
    · split
      · exact extends_refl t
      · split
        · exact extends_refl _
        · exact ⟨[.netSend t.state], rfl⟩

theorem extends_flushFinally (t : Tracker) : Extends t (flushFinally t) := by
  unfold TrackerSsr.flushFinally
  simp only
  split
  · exact extends_flushServerSave _
  · exact extends_refl _

theorem extends_step (t : Tracker) (e : Event) : Extends t (step t e) := by
  cases e with
  | click ev =>
    simp only [TrackerSsr.step]
    split
    · rename_i t1 h
      unfold interactionListener at h
      split at h
      · split at h
        · rename_i changed t2 hh
          have hb := extends_of_sameBridge (sameBridge_handleInteraction ev 1 t t2 changed hh)
          split at h
          · injection h with h
            subst h
            exact extends_trans hb (extends_trans
              (extends_of_sameBridge (sameBridge_saveLocal _)) (extends_scheduleServerSave _))
          · injection h with h
            subst h
            exact hb
        · exact absurd h (by simp)
      · injection h with h
        subst h
        exact extends_refl t
    · exact extends_refl t
  | contextmenu ev =>
    simp only [TrackerSsr.step]
    split
    · rename_i t1 h
      unfold interactionListener at h
      split at h
      · split at h
        · rename_i changed t2 hh
          have hb := extends_of_sameBridge (sameBridge_handleInteraction ev (-1) t t2 changed hh)
          split at h
          · injection h with h
            subst h
            exact extends_trans hb (extends_trans
              (extends_of_sameBridge (sameBridge_saveLocal _)) (extends_scheduleServerSave _))
          · injection h with h
            subst h
            exact hb
        · exact absurd h (by simp)
      · injection h with h
        subst h
        exact extends_refl t
    · exact extends_refl t
  | localChange s =>
    exact extends_trans (extends_of_sameBridge (sameBridge_setState t s))
      (extends_trans (extends_of_sameBridge (sameBridge_saveLocal _))
        (extends_scheduleServerSave _))
  | schedule => exact extends_scheduleServerSave t
  | flush => exact extends_flushServerSave t
  | timerFire id =>
    simp only [TrackerSsr.step]
    split
    · exact extends_flushServerSave _
    · exact extends_refl t
  | sendSettled =>
    simp only [TrackerSsr.step]
    split
    · exact extends_refl t
    · exact extends_flushFinally _
  | remote p =>
    rcases applyRemoteParticipant_shape p t with h | ⟨s, t1, _, hb, _, h⟩
    · show Extends t (applyRemoteParticipant p t)
      rw [h]
      exact extends_refl t
    · show Extends t (applyRemoteParticipant p t)
      rw [h]
      obtain ⟨es, hl, _⟩ := hb.log
      exact ⟨es, hl⟩
  | cacheReady compositeId map => exact extends_refl _

theorem extends_run (evs : List Event) : ∀ t : Tracker, Extends t (run t evs) := by
  induction evs with
  | nil => intro t; exact extends_refl t
  | cons e rest ih =>
    intro t
    exact extends_trans (extends_step t e) (ih _)

/-- When the log only grew, the sends among the new effects are what the sends of
the whole log gained. -/
theorem sends_newEffects {t t1 : Tracker} (h : Extends t t1) (l : List ParticipantState)
    (hs : sends t1.log = sends t.log ++ l) : sends (newEffects t t1) = l := by
  obtain ⟨es, he⟩ := h
  rw [newEffects_of_log he]
  rw [he, sends_append] at hs
  exact List.append_cancel_left hs

theorem timerFire_pending (t : Tracker) (id : Nat) (hp : t.pendingTimers = [id]) :
    step t (.timerFire id) = flushServerSave { t with pendingTimers := [] } := by
  simp [step, hp]

theorem flushServerSave_idle (t : Tracker) (hsup : t._suppressNetworkSaves = false)
    (hedit : t.cfg.CAN_EDIT = true) (hurl : t.cfg.UPDATE_URL.isSome = true)
    (hf : t._inflight = false) :
    flushServerSave t =
      emit (.netSend t.state)
        { t with _inflight := true, _needsAnother := false,
                 outstanding := t.outstanding ++ [t.state] } := by
  rw [flushServerSave_editor t hsup hedit hurl]
  simp [hf]

theorem flushServerSave_busy (t : Tracker) (hsup : t._suppressNetworkSaves = false)
    (hedit : t.cfg.CAN_EDIT = true) (hurl : t.cfg.UPDATE_URL.isSome = true)
    (hf : t._inflight = true) :
    flushServerSave t = { t with _needsAnother := true } := by
  rw [flushServerSave_editor t hsup hedit hurl]
  simp [hf]

/-- The timer of a burst fires while no send is in flight: the current state is
sent, once. -/
theorem fire_idle (t : Tracker) (id : Nat) (hi : Inv t) (hedit : t.cfg.CAN_EDIT = true)
    (hurl : t.cfg.UPDATE_URL.isSome = true) (hp : t.pendingTimers = [id])
    (hf : t._inflight = false) :
    sends (newEffects t (step t (.timerFire id))) = [t.state] ∧
    (step t (.timerFire id)).pendingTimers = [] ∧
    (step t (.timerFire id)).outstanding = [t.state] ∧
    (step t (.timerFire id))._inflight = true := by
  have hout : t.outstanding = [] := by
    rcases hi.flight with ⟨h, _⟩ | ⟨_, h, _⟩
    · rw [hf] at h
      exact absurd h (by simp)
    · exact h
  have hx := extends_step t (.timerFire id)
  have hstep : step t (.timerFire id) =
      emit (.netSend t.state)
        { t with pendingTimers := [], _inflight := true, _needsAnother := false,
                 outstanding := t.outstanding ++ [t.state] } := by
    rw [timerFire_pending t id hp]
    exact flushServerSave_idle _ hi.suppress hedit hurl hf
  refine ⟨sends_newEffects hx [t.state] ?_, ?_, ?_, ?_⟩
  · rw [hstep]
    simp [emit, sends_append, sends]
  · rw [hstep]
    rfl
  · rw [hstep]
    simp [emit, hout]
  · rw [hstep]
    rfl

/-- The timer of a burst fires while a send is in flight: nothing is sent, the
deferred flag is set. -/
theorem fire_busy (t : Tracker) (id : Nat) (hi : Inv t) (hedit : t.cfg.CAN_EDIT = true)
    (hurl : t.cfg.UPDATE_URL.isSome = true) (hp : t.pendingTimers = [id])
    (hf : t._inflight = true) :
    step t (.timerFire id) = { t with pendingTimers := [], _needsAnother := true } ∧
    sends (newEffects t (step t (.timerFire id))) = [] := by
  have hstep : step t (.timerFire id) = { t with pendingTimers := [], _needsAnother := true } := by
    rw [timerFire_pending t id hp]
    exact flushServerSave_busy _ hi.suppress hedit hurl hf
  refine ⟨hstep, ?_⟩
  rw [hstep]
  simp [newEffects, sends]

/-- The in-flight send settles with the deferred flag set: exactly one follow-up
send is issued, with the state current at that moment. -/
theorem settle_deferred (t : Tracker) (hi : Inv t) (hf : t._inflight = true)
    (hna : t._needsAnother = true) :
    sends (newEffects t (step t .sendSettled)) = [t.state] ∧
    (step t .sendSettled).outstanding = [t.state] ∧
    (step t .sendSettled)._inflight = true ∧
    (step t .sendSettled)._needsAnother = false := by
  obtain ⟨hurl, hedit⟩ := hi.editor hf
  obtain ⟨b, hout⟩ : ∃ b, t.outstanding = [b] := by
    rcases hi.flight with ⟨_, h⟩ | ⟨h, _⟩
    · exact h
    · rw [hf] at h
      exact absurd h (by simp)
  have hx := extends_step t .sendSettled
  have hstep : step t .sendSettled =
      emit (.netSend t.state)
        { t with outstanding := [t.state], _inflight := true, _needsAnother := false } := by
    have h := flushServerSave_idle
      { t with outstanding := [], _inflight := false, _needsAnother := false }
      hi.suppress hedit hurl rfl
    simp only [step, hout, flushFinally, hna, if_true]
    exact h.trans (by simp [emit])
  refine ⟨sends_newEffects hx [t.state] ?_, ?_, ?_, ?_⟩
  · rw [hstep]
    simp [emit, sends_append, sends]
  · rw [hstep]
    rfl
  · rw [hstep]
    rfl
  · rw [hstep]
    rfl

/-- The in-flight send settles with the deferred flag down: nothing is sent. -/
theorem settle_plain (t : Tracker) (hi : Inv t) (hf : t._inflight = true)
    (hna : t._needsAnother = false) :
    sends (newEffects t (step t .sendSettled)) = [] ∧
    (step t .sendSettled).outstanding = [] ∧
    (step t .sendSettled)._inflight = false := by
  obtain ⟨b, hout⟩ : ∃ b, t.outstanding = [b] := by
    rcases hi.flight with ⟨_, h⟩ | ⟨h, _⟩
    · exact h
    · rw [hf] at h
      exact absurd h (by simp)
  have hstep : step t .sendSettled = { t with outstanding := [], _inflight := false } := by
    simp [step, hout, flushFinally, hna]
  rw [hstep]
  exact ⟨by simp [newEffects, sends], rfl, rfl⟩

theorem inv_reached (cfg : Config) (s0 : ParticipantState) (history : List Event) :
    Inv (TrackerSsr.reached cfg s0 history) :=
  inv_reachable cfg s0 history

theorem inv_outstanding_le_one {t : Tracker} (hi : Inv t) : t.outstanding.length ≤ 1 := by
  rcases hi.flight with ⟨_, b, h⟩ | ⟨_, h, _⟩
  · rw [h]
    simp
  · rw [h]
    simp

/-- Flush requests while a send is in flight: whatever their number, the outcome is
that of one request. -/
theorem run_flush_busy (t : Tracker) (hi : Inv t) (hf : t._inflight = true) (k : Nat) :
    run t (List.replicate (k + 1) Event.flush) = { t with _needsAnother := true } := by
  obtain ⟨hurl, hedit⟩ := hi.editor hf
  induction k with
  | zero =>
    show flushServerSave t = _
    exact flushServerSave_busy t hi.suppress hedit hurl hf
  | succ n ih =>
    rw [List.replicate_succ']
    unfold run at ih ⊢
    rw [List.foldl_append, ih]
    exact flushServerSave_busy { t with _needsAnother := true } hi.suppress hedit hurl hf

theorem scheduleServerSave_viewer (t : Tracker) (hv : t.cfg.CAN_EDIT = false) :
    scheduleServerSave t = t := by
  unfold scheduleServerSave
  simp [hv]

theorem flushServerSave_viewer (t : Tracker) (hv : t.cfg.CAN_EDIT = false) :
    flushServerSave t = t := by
  unfold flushServerSave
  simp [hv]

/-- One callback on a viewer with no timer pending and no request outstanding
leaves the bridge as it was and adds only renders and storage writes. -/
theorem viewer_step (t : Tracker) (e : Event) (hi : Inv t) (hv : t.cfg.CAN_EDIT = false)
    (hp : t.pendingTimers = []) (hout : t.outstanding = []) : SameBridge t (step t e) := by
  cases e with
  | click ev =>
    simp [step, interactionListener, hv]
    exact sameBridge_refl t
  | contextmenu ev =>
    simp [step, interactionListener, hv]
    exact sameBridge_refl t
  | localChange s =>
    show SameBridge t (scheduleServerSave (saveLocal { t with state := s }))
    have hb : SameBridge t (saveLocal { t with state := s }) :=
      sameBridge_trans (sameBridge_setState t s) (sameBridge_saveLocal _)
    rw [scheduleServerSave_viewer _ (by rw [hb.cfg]; exact hv)]
    exact hb
  | schedule =>
    show SameBridge t (scheduleServerSave t)
    rw [scheduleServerSave_viewer t hv]
    exact sameBridge_refl t
  | flush =>
    show SameBridge t (flushServerSave t)
    rw [flushServerSave_viewer t hv]
    exact sameBridge_refl t
  | timerFire id =>
    simp [step, hp]
    exact sameBridge_refl t
  | sendSettled =>
    simp [step, hout]
    exact sameBridge_refl t
  | remote p =>
    show SameBridge t (applyRemoteParticipant p t)
    rcases applyRemoteParticipant_shape p t with h | ⟨s, t1, _, hb, _, h⟩
    · rw [h]
      exact sameBridge_refl t
    · rw [h]
      exact ⟨hb.cfg, hb.timer, hb.inflight, hb.needsAnother, hi.suppress.symm, hb.pending,
        hb.nextId, hb.outstanding, hb.log⟩
  | cacheReady compositeId map =>
    exact ⟨rfl, rfl, rfl, rfl, rfl, rfl, rfl, rfl, [], by simp [step], by simp⟩

theorem viewer_run (evs : List Event) :
    ∀ t : Tracker, Inv t → t.cfg.CAN_EDIT = false → t.pendingTimers = [] →
      t.outstanding = [] → SameBridge t (run t evs) := by
  induction evs with
  | nil => intro t _ _ _ _; exact sameBridge_refl t
  | cons e rest ih =>
    intro t hi hv hp hout
    have hb := viewer_step t e hi hv hp hout
    exact sameBridge_trans hb
      (ih (step t e) (inv_step hi e) (by rw [hb.cfg]; exact hv) (by rw [hb.pending]; exact hp)
        (by rw [hb.outstanding]; exact hout))

theorem initTracker_fresh (cfg : Config) (state : ParticipantState) :
    (initTracker cfg state).pendingTimers = [] ∧ (initTracker cfg state).outstanding = [] ∧
    (initTracker cfg state)._inflight = false ∧
    ∀ e ∈ (initTracker cfg state).log, e.isLocal = true := by
  unfold initTracker
  have hb := sameBridge_renderAll
    { cfg := cfg, state := state, _serverSaveTimer := none, _inflight := false,
      _needsAnother := false, _suppressNetworkSaves := false, compositeHitCache := [],
      pendingTimers := [], nextTimerId := 1, outstanding := [], log := [] }
  obtain ⟨es, hl, hloc⟩ := hb.log
  refine ⟨hb.pending, hb.outstanding, hb.inflight, ?_⟩
  rw [hl]
  simpa using hloc

theorem hitLoop_eq_find (compositeId : String) (cacheMap : List (String × ImageEntry))
    (loc : LocalPoint) (delta : Int) (t : Tracker) (order : List String) :
    hitLoop compositeId cacheMap loc delta t order =
      match order.find? (isHit cacheMap loc) with
      | none => (false, t)
      | some key =>
        (true, toggleCompositeKey compositeId key (if delta < 0 then some false else none) t) := by
  induction order with
  | nil => rfl
  | cons key rest ih =>
    unfold hitLoop
    rw [List.find?_cons]
    cases hg : objGet key cacheMap with
    | none =>
      have hh : isHit cacheMap loc key = false := by simp [isHit, hg]
      simp only [hh]
      exact ih
    | some entry =>
      cases hm : mapToImageCoordsContain loc entry.w entry.h with
      | none =>
        have hh : isHit cacheMap loc key = false := by simp [isHit, hg, hm]
        simp only [hh, hm]
        exact ih
      | some mapped =>
        by_cases ha : alphaAt entry mapped.px mapped.py > ALPHA_THRESHOLD
        · have hh : isHit cacheMap loc key = true := by
            simp only [isHit, hg, hm]
            exact decide_eq_true ha
          simp only [hh, hm, ha, if_true]
          by_cases hd : delta < 0
          · simp only [hd, if_true]
          · simp only [hd, if_false]
        · have hh : isHit cacheMap loc key = false := by
            simp only [isHit, hg, hm]
            exact decide_eq_false ha
          simp only [hh, hm, ha, if_false]
          exact ih

theorem find?_first_hit {p : String → Bool} (pre post : List String) (key : String)
    (hpre : ∀ k ∈ pre, p k = false) (hkey : p key = true) :
    (pre ++ key :: post).find? p = some key := by
  induction pre with
  | nil => simp [List.find?_cons, hkey]
  | cons a rest ih =>
    have ha : p a = false := hpre a (List.mem_cons_self _ _)
    simp only [List.cons_append, List.find?_cons, ha]
    exact ih (fun k hk => hpre k (List.mem_cons_of_mem _ hk))

theorem find?_none_of_all_false {p : String → Bool} (l : List String)
    (h : ∀ k ∈ l, p k = false) : l.find? p = none := by
  induction l with
  | nil => rfl
  | cons a rest ih =>
    have ha : p a = false := h a (List.mem_cons_self _ _)
    simp only [List.find?_cons, ha]
    exact ih (fun k hk => h k (List.mem_cons_of_mem _ hk))

theorem pixelPerfectCompositeToggle_eq (t : Tracker) (ev : PointerEvent) (delta : Int)
    (compositeId : String) (rect : Rect) (c : String × ImageEntry)
    (cs : List (String × ImageEntry))
    (hc : ev.composite = some { compositeId := compositeId, box := some rect })
    (hid : compositeId ≠ "")
    (hcache : objGet compositeId t.compositeHitCache = some (c :: cs)) :
    pixelPerfectCompositeToggle ev delta t =
      hitLoop compositeId (c :: cs) (getLocalPointInElement ev rect) delta t
        (getCompositeOverlayOrder t compositeId) := by
  unfold pixelPerfectCompositeToggle
  simp [hc, hid, hcache]

/-- What `toggleCompositeKey` does to the state: the flag of `key` in the composite
is the forced value, or the negation of its truth value; nothing else changes. -/
theorem toggleCompositeKey_effect (compositeId key : String) (forceValue : Option Bool)
    (t : Tracker) :
    objGet key (compositeFlags (toggleCompositeKey compositeId key forceValue t) compositeId)
      = some (match forceValue with
          | none => !((objGet key (compositeFlags t compositeId)).getD false)
          | some b => b) ∧
    (∀ k, k ≠ key →
      objGet k (compositeFlags (toggleCompositeKey compositeId key forceValue t) compositeId)
        = objGet k (compositeFlags t compositeId)) ∧
    (∀ c, c ≠ compositeId →
      objGet c (toggleCompositeKey compositeId key forceValue t).state.composites
        = objGet c t.state.composites) ∧
    (toggleCompositeKey compositeId key forceValue t).state.slot = t.state.slot ∧
    (toggleCompositeKey compositeId key forceValue t).state.items = t.state.items ∧
    (toggleCompositeKey compositeId key forceValue t).state.dungeons = t.state.dungeons ∧
    (toggleCompositeKey compositeId key forceValue t).state.wallet_bonus
      = t.state.wallet_bonus := by
  have hflags : compositeFlags (toggleCompositeKey compositeId key forceValue t) compositeId
      = objSet key (match forceValue with
          | none => !((objGet key (compositeFlags t compositeId)).getD false)
          | some b => b) (compositeFlags t compositeId) := by
    simp only [compositeFlags, toggleCompositeKey, renderComposite_state, objGet_objSet_same,
      Option.getD_some]
  refine ⟨?_, ?_, ?_, rfl, rfl, rfl, rfl⟩
  · rw [hflags]
    exact objGet_objSet_same _ _ _
  · intro k hk
    rw [hflags]
    exact objGet_objSet_ne _ _ _ _ hk
  · intro c hne
    simp only [toggleCompositeKey, renderComposite_state]
    exact objGet_objSet_ne _ _ _ _ hne

theorem map_quarter_point :
    mapToImageCoordsContain { x := 75, y := 25, w := 100, h := 100 } 2 2
      = some { px := some 1, py := some 0 } := by
  have h1 : Int.floor ((75 : ℚ) / 50) = 1 := by
    rw [Int.floor_eq_iff]; norm_num
  have h2 : Int.floor ((25 : ℚ) / 50) = 0 := by
    rw [Int.floor_eq_iff]; norm_num
  norm_num [mapToImageCoordsContain, clamp, h1, h2]

theorem isHit_quarter_point (cacheMap : List (String × ImageEntry)) (key : String)
    (a00 a10 a01 a11 : Nat) (h : objGet key cacheMap = some (image2x2 a00 a10 a01 a11)) :
    isHit cacheMap { x := 75, y := 25, w := 100, h := 100 } key = decide (a10 > 20) := by
  have hm : mapToImageCoordsContain { x := 75, y := 25, w := 100, h := 100 }
      (image2x2 a00 a10 a01 a11).w (image2x2 a00 a10 a01 a11).h
        = some { px := some 1, py := some 0 } := map_quarter_point
  simp only [isHit, h, hm]
  rfl

theorem triforces_local (x y : ℚ) :
    getLocalPointInElement (triforcesEvent x y) triforcesBox
      = { x := x, y := y, w := 100, h := 100 } := by
  simp [getLocalPointInElement, triforcesEvent, triforcesBox]

theorem triforces_cache :
    objGet "triforces" triforcesTracker.compositeHitCache
      = some (("courage", image2x2 255 20 0 0) ::
          [("power", image2x2 0 0 20 255), ("wisdom", image2x2 0 255 7 0)]) := by
  decide

theorem triforces_quarter_misses :
    ∀ k ∈ ["courage", "power"],
      isHit (("courage", image2x2 255 20 0 0) ::
          [("power", image2x2 0 0 20 255), ("wisdom", image2x2 0 255 7 0)])
        (getLocalPointInElement (triforcesEvent 75 25) triforcesBox) k = false := by
  rw [triforces_local]
  intro k hk
  rcases List.mem_cons.mp hk with h | h
  · subst h
    rw [isHit_quarter_point _ "courage" 255 20 0 0 (by decide)]
    decide
  · rcases List.mem_cons.mp h with h | h
    · subst h
      rw [isHit_quarter_point _ "power" 0 0 20 255 (by decide)]
      decide
    · exact absurd h (by simp)

theorem triforces_quarter_hits :
    isHit (("courage", image2x2 255 20 0 0) ::
          [("power", image2x2 0 0 20 255), ("wisdom", image2x2 0 255 7 0)])
        (getLocalPointInElement (triforcesEvent 75 25) triforcesBox) "wisdom" = true := by
  rw [triforces_local, isHit_quarter_point _ "wisdom" 0 255 7 0 (by decide)]
  decide

theorem isHit_false_of_misses (cacheMap : List (String × ImageEntry)) (loc : LocalPoint)
    (h : missesEvery cacheMap loc) (key : String) : isHit cacheMap loc key = false := by
  unfold isHit
  cases hg : objGet key cacheMap with
  | none => rfl
  | some entry =>
    rcases h key entry hg with hm | ⟨mapped, hm, ha⟩
    · simp only [hm]
    · simp only [hm]
      exact decide_eq_false (by omega)

theorem pixelPerfectCompositeToggle_miss (t : Tracker) (ev : PointerEvent) (delta : Int)
    (hmiss : ∀ (root : CompositeRoot) (rect : Rect) (cacheMap : List (String × ImageEntry)),
      ev.composite = some root → root.box = some rect →
      objGet root.compositeId t.compositeHitCache = some cacheMap →
      missesEvery cacheMap (getLocalPointInElement ev rect)) :
    pixelPerfectCompositeToggle ev delta t = (false, t) := by
  unfold pixelPerfectCompositeToggle
  cases hc : ev.composite with
  | none => rfl
  | some root =>
    simp only
    cases hb : root.box with
    | none => rfl
    | some rect =>
      simp only
      by_cases hid : root.compositeId = ""
      · simp only [hid, if_true]
      · simp only [hid, if_false]
        cases hcache : objGet root.compositeId t.compositeHitCache with
        | none => rfl
        | some cacheMap =>
          cases cacheMap with
          | nil => rfl
          | cons c cs =>
            simp only
            rw [hitLoop_eq_find, find?_none_of_all_false _
              (fun k _ => isHit_false_of_misses _ _ (hmiss root rect (c :: cs) hc hb hcache) k)]

theorem map_lower_left_point :
    mapToImageCoordsContain { x := 25, y := 75, w := 100, h := 100 } 2 2
      = some { px := some 0, py := some 1 } := by
  have h1 : Int.floor ((75 : ℚ) / 50) = 1 := by
    rw [Int.floor_eq_iff]; norm_num
  have h2 : Int.floor ((25 : ℚ) / 50) = 0 := by
    rw [Int.floor_eq_iff]; norm_num
  norm_num [mapToImageCoordsContain, clamp, h1, h2]

theorem triforces_lower_left_misses :
    missesEvery triforcesCache { x := 25, y := 75, w := 100, h := 100 } := by
  intro key entry hget
  right
  refine ⟨{ px := some 0, py := some 1 }, ?_, ?_⟩
  · simp only [triforcesCache, objGet] at hget
    split at hget
    · injection hget with hget
      subst hget
      exact map_lower_left_point
    · split at hget
      · injection hget with hget
        subst hget
        exact map_lower_left_point
      · split at hget
        · injection hget with hget
          subst hget
          exact map_lower_left_point
        · exact absurd hget (by simp)
  · simp only [triforcesCache, objGet] at hget
    split at hget
    · injection hget with hget
      subst hget
      decide
    · split at hget
      · injection hget with hget
        subst hget
        decide
      · split at hget
        · injection hget with hget
          subst hget
          decide
        · exact absurd hget (by simp)

theorem indexOf_nodup_get (levels : List Int) (hnd : levels.Nodup) (i : Nat)
    (hi : i < levels.length) : indexOf levels (levels.get ⟨i, hi⟩) = (i : Int) := by
  have hmem : levels.get ⟨i, hi⟩ ∈ levels := List.get_mem _ _ _
  simp only [indexOf, hmem, if_true]
  have h := List.indexOf_getElem hnd i hi
  simp only [List.get_eq_getElem]
  rw [h]

theorem nextLevel_nodup (levels : List Int) (hnd : levels.Nodup) (i : Nat)
    (hi : i < levels.length) (delta : Int) (j : Nat) (hj : j < levels.length)
    (hstep : (i : Int) + delta = (j : Int)) :
    nextLevel levels (levels.get ⟨i, hi⟩) delta = levels.get ⟨j, hj⟩ := by
  have hne : ¬ ((i : Int) = -1) := by omega
  simp only [nextLevel, indexOf_nodup_get levels hnd i hi, hne, if_false, hstep]
  have hc : clamp (j : Int) 0 ((levels.length : Int) - 1) = (j : Int) :=
    clamp_of_mem _ _ _ (by omega) (by omega)
  rw [hc]
  simp only [Int.toNat_ofNat, List.get_eq_getElem]
  rw [List.getD_eq_getElem?_getD, List.getElem?_eq_getElem hj]
  rfl

theorem objSet_objSet {α : Type} (k : String) (v1 v2 : α) (o : List (String × α)) :
    objSet k v2 (objSet k v1 o) = objSet k v2 o := by
  induction o with
  | nil => simp [objSet]
  | cons p rest ih =>
    obtain ⟨k', v'⟩ := p
    by_cases h : k' = k
    · simp [objSet, h]
    · simp [objSet, h, ih]

theorem compositeFlags_toggle (compositeId key : String) (forceValue : Option Bool)
    (t : Tracker) :
    compositeFlags (toggleCompositeKey compositeId key forceValue t) compositeId
      = objSet key (match forceValue with
          | none => !((objGet key (compositeFlags t compositeId)).getD false)
          | some b => b) (compositeFlags t compositeId) := by
  simp only [compositeFlags, toggleCompositeKey, renderComposite_state, objGet_objSet_same,
    Option.getD_some]

theorem toggleCompositeKey_force_twice (compositeId key : String) (b : Bool) (t : Tracker) :
    (toggleCompositeKey compositeId key (some b)
        (toggleCompositeKey compositeId key (some b) t)).state
      = (toggleCompositeKey compositeId key (some b) t).state := by
  simp only [toggleCompositeKey, renderComposite_state, objGet_objSet_same, Option.getD_some,
    objSet_objSet]

theorem applyRemoteParticipant_pass (t : Tracker) (p : ParticipantState)
    (h : passesSlotCheck t.cfg.slot p) :
    applyRemoteParticipant (some p) t =
      { saveLocal (renderAll { t with _suppressNetworkSaves := true, state := p }) with
        _suppressNetworkSaves := false } := by
  have hc : ¬ (t.cfg.slot ≠ 0 ∧ p.slot.getD 0 ≠ 0 ∧ p.slot.getD 0 ≠ t.cfg.slot) := by
    rintro ⟨h1, h2, h3⟩
    rcases h with h | h | h | h
    · exact h1 h
    · rw [h] at h2
      exact h2 rfl
    · rw [h] at h2
      exact h2 rfl
    · rw [h] at h3
      exact h3 rfl
  unfold applyRemoteParticipant
  exact if_neg hc

theorem applyRemoteParticipant_reject (t : Tracker) (p : ParticipantState)
    (h : ¬ passesSlotCheck t.cfg.slot p) : applyRemoteParticipant (some p) t = t := by
  have hc : t.cfg.slot ≠ 0 ∧ p.slot.getD 0 ≠ 0 ∧ p.slot.getD 0 ≠ t.cfg.slot := by
    unfold passesSlotCheck at h
    push_neg at h
    obtain ⟨h1, h2, h3, h4⟩ := h
    cases hp : p.slot with
    | none => exact absurd hp h2
    | some r =>
      refine ⟨h1, ?_, ?_⟩
      · intro hr
        simp only [Option.getD_some] at hr
        rw [hr] at hp
        exact h3 hp
      · intro hr
        simp only [Option.getD_some] at hr
        rw [hr] at hp
        exact h4 hp
  unfold applyRemoteParticipant
  exact if_pos hc

theorem renderAll_log_grows (t : Tracker) : t.log.length < (renderAll t).log.length := by
  have hb := sameBridge_renderAll t
  obtain ⟨es, hl, _⟩ := hb.log
  have hlast : ∃ t2 : Tracker, Extends t t2 ∧
      renderAll t = renderComposite "triforces" (renderComposite "tablets" t2) := by
    refine ⟨_, ?_, rfl⟩
    have h1 : Extends t
        (if t.state.items.isSome then
          (itemsById t.cfg.catalogItems).foldl
            (fun acc entry =>
              if entry.2.kind = some "composite" then acc
              else if entry.2.kind = some "counter" then renderCounter entry.1 acc
              else if entry.2.kind = some "wallet" then renderWallet entry.1 acc
              else renderItemSimple entry.1 acc)
            t
        else t) := by
      split
      · apply extends_of_sameBridge
        apply sameBridge_foldl
        intro a entry
        split
        · exact sameBridge_refl a
        · split
          · exact sameBridge_renderCounter _ a
          · split
            · exact sameBridge_renderWallet _ a
            · exact sameBridge_renderItemSimple _ a
      · exact extends_refl t
    have h2 : ∀ a : Tracker, Extends a
        (match a.state.dungeons with
          | some dungeons =>
            (objKeys dungeons).foldl (fun acc code => renderDungeon code acc) a
          | none => a) := by
      intro a
      split
      · apply extends_of_sameBridge
        apply sameBridge_foldl
        intro b code
        exact sameBridge_renderDungeon code b
      · exact extends_refl a
    exact extends_trans h1 (h2 _)
  obtain ⟨t2, ⟨es2, hl2⟩, heq⟩ := hlast
  rw [heq]
  simp only [renderComposite, emit, hl2, List.length_append, List.length_cons, List.length_nil]
  omega

theorem applyRemoteParticipant_pass_log (t : Tracker) (p : ParticipantState)
    (h : passesSlotCheck t.cfg.slot p) :
    t.log.length < (applyRemoteParticipant (some p) t).log.length := by
  rw [applyRemoteParticipant_pass t p h]
  have h1 := renderAll_log_grows { t with _suppressNetworkSaves := true, state := p }
  obtain ⟨es, hl⟩ := extends_of_sameBridge
    (sameBridge_saveLocal (renderAll { t with _suppressNetworkSaves := true, state := p }))
  show t.log.length <
    (saveLocal (renderAll { t with _suppressNetworkSaves := true, state := p })).log.length
  rw [hl, List.length_append]
  have h2 : t.log.length <
      (renderAll { t with _suppressNetworkSaves := true, state := p }).log.length := h1
  omega

theorem applyRemoteParticipant_pending (t : Tracker) (p : Option ParticipantState) :
    (applyRemoteParticipant p t).pendingTimers = t.pendingTimers := by
  rcases applyRemoteParticipant_shape p t with h | ⟨s, t1, _, hb, _, h⟩
  · rw [h]
  · rw [h]
    exact hb.pending

theorem cycleLevel_total (t : Tracker) (itemId : String) (delta : Int)
    (hitems : t.state.items.isSome = true) : ∃ t1, cycleLevel itemId delta t = .ok t1 := by
  obtain ⟨items, hi⟩ := Option.isSome_iff_exists.mp hitems
  unfold cycleLevel
  cases getItemMeta t itemId with
  | none => exact ⟨t, rfl⟩
  | some meta =>
    simp only [hi]
    split
    · exact ⟨_, rfl⟩
    · exact ⟨_, rfl⟩

theorem updateCounter_total (t : Tracker) (itemId : String) (delta : Int)
    (hitems : t.state.items.isSome = true) : ∃ t1, updateCounter itemId delta t = .ok t1 := by
  obtain ⟨items, hi⟩ := Option.isSome_iff_exists.mp hitems
  unfold updateCounter
  cases getItemMeta t itemId with
  | none => exact ⟨t, rfl⟩
  | some meta =>
    simp only [hi]
    exact ⟨_, rfl⟩

theorem cycleDungeon_total (t : Tracker) (code : String) (delta : Int)
    (hd : t.state.dungeons.isSome = true) : ∃ t1, cycleDungeon code delta t = .ok t1 := by
  obtain ⟨dungeons, hi⟩ := Option.isSome_iff_exists.mp hd
  obtain ⟨t1, h1, _⟩ := cycleDungeon_ok t code delta dungeons hi
  exact ⟨t1, h1⟩

theorem except_map_true {t1 : Tracker} (x : Except JsError Tracker) (h : x = .ok t1) :
    x.map (fun a => (true, a)) = .ok (true, t1) := by
  rw [h]
  rfl

/-- The item branch of `handleInteraction`, reached when the target is in no wallet
overlay, no composite and no dungeon element. -/
theorem handleInteraction_item (t : Tracker) (ev : PointerEvent) (delta : Int)
    (it : ItemElement) (hw : ev.walletBonus = false) (hc : ev.composite = none)
    (hd : ev.dungeon = none) (hit : ev.item = some it) :
    handleInteraction ev delta t =
      (if (if it.kind = "" then "cycle" else it.kind) = "counter" ∨
          (getItemMeta t it.itemId).bind (fun m => m.kind) = some "counter" then
        updateCounter it.itemId delta t
      else cycleLevel it.itemId delta t).map (fun t1 => (true, t1)) := by
  unfold handleInteraction
  simp only [hw, hc, hd, hit, Option.isSome_none, Bool.false_eq_true, if_false]
  generalize (if it.kind = "" then "cycle" else it.kind) = kind
  by_cases h1 : kind = "counter" ∨
      (getItemMeta t it.itemId).bind (fun m => m.kind) = some "counter"
  · simp only [h1, if_true]
  · simp only [h1, if_false, ite_self]

theorem handleInteraction_wallet (t : Tracker) (ev : PointerEvent) (delta : Int)
    (hw : ev.walletBonus = true) :
    handleInteraction ev delta t = .ok (true, cycleWalletBonus delta t) := by
  unfold handleInteraction
  simp only [hw, if_true]

theorem handleInteraction_composite (t : Tracker) (ev : PointerEvent) (delta : Int)
    (hw : ev.walletBonus = false) (hc : ev.composite.isSome = true) :
    handleInteraction ev delta t = .ok (pixelPerfectCompositeToggle ev delta t) := by
  unfold handleInteraction
  simp only [hw, hc, Bool.false_eq_true, if_false, if_true]

theorem handleInteraction_dungeon (t : Tracker) (ev : PointerEvent) (delta : Int)
    (code : String) (hw : ev.walletBonus = false) (hc : ev.composite = none)
    (hd : ev.dungeon = some code) :
    handleInteraction ev delta t = (cycleDungeon code delta t).map (fun t1 => (true, t1)) := by
  unfold handleInteraction
  simp only [hw, hc, hd, Option.isSome_none, Bool.false_eq_true, if_false]

theorem handleInteraction_outside (t : Tracker) (ev : PointerEvent) (delta : Int)
    (hw : ev.walletBonus = false) (hc : ev.composite = none)
    (hd : ev.dungeon = none) (hit : ev.item = none) :
    handleInteraction ev delta t = .ok (false, t) := by
  unfold handleInteraction
  simp only [hw, hc, hd, hit, Option.isSome_none, Bool.false_eq_true, if_false]

theorem ite_ok_of_both (P : Prop) [Decidable P] (x y : Except JsError Tracker)
    (hx : ∃ a, x = .ok a) (hy : ∃ a, y = .ok a) : ∃ a, (if P then x else y) = .ok a := by
  by_cases h : P
  · rw [if_pos h]
    exact hx
  · rw [if_neg h]
    exact hy

theorem timersSet_append (a b : List Effect) :
    timersSet (a ++ b) = timersSet a ++ timersSet b := by
  induction a with
  | nil => rfl
  | cons e rest ih =>
    cases e <;> simp [timersSet, ih]

/-- With storage enabled, `afterChangePersist()` writes the current state to local
storage. -/
theorem afterChangePersist_storage (t : Tracker) (hs : t.cfg.USE_STORAGE = true) :
    Effect.storageWrite t.cfg.STORAGE_KEY t.state ∈ newEffects t (afterChangePersist t) := by
  obtain ⟨es, hl⟩ := extends_scheduleServerSave (saveLocal t)
  have hsave : (saveLocal t).log = t.log ++ [Effect.storageWrite t.cfg.STORAGE_KEY t.state] := by
    simp [saveLocal, hs, emit]
  have hlog : (afterChangePersist t).log
      = t.log ++ ([Effect.storageWrite t.cfg.STORAGE_KEY t.state] ++ es) := by
    show (scheduleServerSave (saveLocal t)).log = _
    rw [hl, hsave, List.append_assoc]
  rw [newEffects_of_log hlog]
  simp

/-- On an editor with an update URL, `afterChangePersist()` sets exactly one timer,
the fresh one, which is then pending. -/
theorem afterChangePersist_timer (t : Tracker) (hedit : t.cfg.CAN_EDIT = true)
    (hurl : t.cfg.UPDATE_URL.isSome = true) (hsup : t._suppressNetworkSaves = false) :
    timersSet (newEffects t (afterChangePersist t)) = [t.nextTimerId] ∧
    t.nextTimerId ∈ (afterChangePersist t).pendingTimers := by
  have hb := sameBridge_saveLocal t
  obtain ⟨es1, hl1, hloc⟩ := hb.log
  have he := scheduleServerSave_editor (saveLocal t) (hb.suppress.trans hsup)
    (by rw [hb.cfg]; exact hedit) (by rw [hb.cfg]; exact hurl)
  have hshape : ∃ es2, (afterChangePersist t).log = (saveLocal t).log ++ es2 ∧
      timersSet es2 = [t.nextTimerId] ∧ t.nextTimerId ∈ (afterChangePersist t).pendingTimers := by
    show ∃ es2, (scheduleServerSave (saveLocal t)).log = (saveLocal t).log ++ es2 ∧
      timersSet es2 = [t.nextTimerId] ∧
      t.nextTimerId ∈ (scheduleServerSave (saveLocal t)).pendingTimers
    rw [he, hb.timer]
    cases t._serverSaveTimer with
    | none =>
      refine ⟨[.timerSet t.nextTimerId], ?_, rfl, ?_⟩
      · simp [setTimeout, emit, hb.nextId]
      · simp [setTimeout, emit, hb.nextId]
    | some id =>
      refine ⟨[.timerClear id, .timerSet t.nextTimerId], ?_, rfl, ?_⟩
      · simp [setTimeout, clearTimeout, emit, hb.nextId]
      · simp [setTimeout, clearTimeout, emit, hb.nextId]
  obtain ⟨es2, hl2, hts, hmem⟩ := hshape
  have hlog : (afterChangePersist t).log = t.log ++ (es1 ++ es2) := by
    rw [hl2, hl1, List.append_assoc]
  refine ⟨?_, hmem⟩
  rw [newEffects_of_log hlog, timersSet_append, timersSet_of_local es1 hloc, hts]
  rfl

/-- What the bound listener does with a `true` from `handleInteraction`. -/
theorem interactionListener_changed (t t1 : Tracker) (ev : PointerEvent) (delta : Int)
    (hedit : t.cfg.CAN_EDIT = true) (h : handleInteraction ev delta t = .ok (true, t1)) :
    interactionListener ev delta t = .ok (afterChangePersist t1) := by
  unfold interactionListener
  simp only [hedit, if_true, h]

theorem containScale_pos (loc : LocalPoint) (imgW imgH : Nat) (hw : 0 < loc.w) (hh : 0 < loc.h)
    (hiw : 1 ≤ imgW) (hih : 1 ≤ imgH) : 0 < containScale loc imgW imgH := by
  have h1 : (0 : ℚ) < (imgW : ℚ) := by exact_mod_cast hiw
  have h2 : (0 : ℚ) < (imgH : ℚ) := by exact_mod_cast hih
  unfold containScale
  exact lt_min (div_pos hw h1) (div_pos hh h2)

theorem drawn_fits (loc : LocalPoint) (imgW imgH : Nat) (hiw : 1 ≤ imgW) (hih : 1 ≤ imgH) :
    drawnWidth loc imgW imgH ≤ loc.w ∧ drawnHeight loc imgW imgH ≤ loc.h := by
  have h1 : (0 : ℚ) < (imgW : ℚ) := by exact_mod_cast hiw
  have h2 : (0 : ℚ) < (imgH : ℚ) := by exact_mod_cast hih
  constructor
  · unfold drawnWidth containScale
    calc (imgW : ℚ) * min (loc.w / (imgW : ℚ)) (loc.h / (imgH : ℚ))
        ≤ (imgW : ℚ) * (loc.w / (imgW : ℚ)) :=
          mul_le_mul_of_nonneg_left (min_le_left _ _) (le_of_lt h1)
      _ = loc.w := by field_simp
  · unfold drawnHeight containScale
    calc (imgH : ℚ) * min (loc.w / (imgW : ℚ)) (loc.h / (imgH : ℚ))
        ≤ (imgH : ℚ) * (loc.h / (imgH : ℚ)) :=
          mul_le_mul_of_nonneg_left (min_le_right _ _) (le_of_lt h2)
      _ = loc.h := by field_simp

theorem mapToImageCoordsContain_none_iff (loc : LocalPoint) (imgW imgH : Nat) :
    mapToImageCoordsContain loc imgW imgH = none ↔ outsideDrawn loc imgW imgH := by
  have hcond : (loc.x - (loc.w - (imgW : ℚ) * min (loc.w / (imgW : ℚ)) (loc.h / (imgH : ℚ))) / 2 < 0 ∨
      loc.y - (loc.h - (imgH : ℚ) * min (loc.w / (imgW : ℚ)) (loc.h / (imgH : ℚ))) / 2 < 0 ∨
      loc.x - (loc.w - (imgW : ℚ) * min (loc.w / (imgW : ℚ)) (loc.h / (imgH : ℚ))) / 2
        > (imgW : ℚ) * min (loc.w / (imgW : ℚ)) (loc.h / (imgH : ℚ)) ∨
      loc.y - (loc.h - (imgH : ℚ) * min (loc.w / (imgW : ℚ)) (loc.h / (imgH : ℚ))) / 2
        > (imgH : ℚ) * min (loc.w / (imgW : ℚ)) (loc.h / (imgH : ℚ)))
      ↔ outsideDrawn loc imgW imgH := by
    unfold outsideDrawn drawnLeft drawnTop drawnWidth drawnHeight containScale
    constructor
    · rintro (h | h | h | h)
      · exact Or.inl (by linarith)
      · exact Or.inr (Or.inl (by linarith))
      · exact Or.inr (Or.inr (Or.inl (by linarith)))
      · exact Or.inr (Or.inr (Or.inr (by linarith)))
    · rintro (h | h | h | h)
      · exact Or.inl (by linarith)
      · exact Or.inr (Or.inl (by linarith))
      · exact Or.inr (Or.inr (Or.inl (by linarith)))
      · exact Or.inr (Or.inr (Or.inr (by linarith)))
  rw [← hcond]
  unfold mapToImageCoordsContain
  simp only
  constructor
  · intro h
    by_contra hn
    rw [if_neg hn] at h
    split at h <;> exact absurd h (by simp)
  · intro h
    rw [if_pos h]

theorem mapToImageCoordsContain_some (loc : LocalPoint) (imgW imgH : Nat) (m : Pixel)
    (hs : containScale loc imgW imgH ≠ 0)
    (h : mapToImageCoordsContain loc imgW imgH = some m) :
    ∃ px py : Int, m = { px := some px, py := some py } ∧
      px = clamp (Int.floor ((loc.x - drawnLeft loc imgW imgH) / containScale loc imgW imgH))
        0 ((imgW : Int) - 1) ∧
      py = clamp (Int.floor ((loc.y - drawnTop loc imgW imgH) / containScale loc imgW imgH))
        0 ((imgH : Int) - 1) := by
  unfold mapToImageCoordsContain at h
  simp only at h
  split at h
  · exact absurd h (by simp)
  · have hs2 : ¬ (min (loc.w / (imgW : ℚ)) (loc.h / (imgH : ℚ)) = 0) := hs
    rw [if_neg hs2] at h
    injection h with h
    exact ⟨_, _, h.symm, rfl, rfl⟩

theorem alpha_index_in_buffer (imgW imgH : Nat) (px py : Int)
    (hx0 : 0 ≤ px) (hx1 : px ≤ (imgW : Int) - 1) (hy0 : 0 ≤ py) (hy1 : py ≤ (imgH : Int) - 1) :
    0 ≤ (py * (imgW : Int) + px) * 4 + 3 ∧
    (py * (imgW : Int) + px) * 4 + 3 < 4 * (imgW : Int) * (imgH : Int) := by
  have hw : (0 : Int) ≤ (imgW : Int) := Int.ofNat_nonneg _
  have h1 : 0 ≤ py * (imgW : Int) := mul_nonneg hy0 hw
  have h2 : py * (imgW : Int) ≤ ((imgH : Int) - 1) * (imgW : Int) :=
    mul_le_mul_of_nonneg_right hy1 hw
  constructor
  · omega
  · nlinarith

theorem overlayTask_rejects (img : OverlayImg) (hk : img.overlayKey ≠ "") (hs : img.src ≠ "")
    (hd : img.decoded = none) : overlayTask img = none := by
  simp [overlayTask, hk, hs, hd]

theorem overlayTask_settles (img : OverlayImg)
    (h : img.overlayKey ≠ "" → img.src ≠ "" → img.decoded.isSome = true) :
    (overlayTask img).isSome = true := by
  unfold overlayTask
  by_cases hc : img.overlayKey = "" ∨ img.src = ""
  · rw [if_pos hc]
    rfl
  · rw [if_neg hc]
    have hk : img.overlayKey ≠ "" := fun e => hc (Or.inl e)
    have hs : img.src ≠ "" := fun e => hc (Or.inr e)
    obtain ⟨entry, he⟩ := Option.isSome_iff_exists.mp (h hk hs)
    rw [he]
    rfl

theorem ensureCompositeHitCache_rejected (compositeId : String) (overlays : List OverlayImg)
    (t : Tracker)
    (h : ∃ img ∈ overlays, img.overlayKey ≠ "" ∧ img.src ≠ "" ∧ img.decoded = none) :
    ensureCompositeHitCache compositeId overlays t = t := by
  obtain ⟨img, hmem, hk, hs, hd⟩ := h
  have hall : overlays.all (fun img => (overlayTask img).isSome) = false := by
    rw [Bool.eq_false_iff]
    intro hall
    have := List.all_eq_true.mp hall img hmem
    rw [overlayTask_rejects img hk hs hd] at this
    exact absurd this (by simp)
  unfold ensureCompositeHitCache
  rw [hall]
  rfl

theorem ensureCompositeHitCache_fulfilled (compositeId : String) (overlays : List OverlayImg)
    (t : Tracker)
    (h : ∀ img ∈ overlays, img.overlayKey ≠ "" → img.src ≠ "" → img.decoded.isSome = true) :
    ensureCompositeHitCache compositeId overlays t =
      { t with compositeHitCache :=
          objSet compositeId (hitMapOf overlays) t.compositeHitCache } := by
  have hall : overlays.all (fun img => (overlayTask img).isSome) = true := by
    rw [List.all_eq_true]
    intro img hmem
    exact overlayTask_settles img (h img hmem)
  unfold ensureCompositeHitCache
  rw [hall]
  rfl

theorem objGet_isSome_objSet {α : Type} (k j : String) (v : α) (o : List (String × α))
    (h : (objGet j o).isSome = true) : (objGet j (objSet k v o)).isSome = true := by
  by_cases hjk : j = k
  · subst hjk
    rw [objGet_objSet_same]
    rfl
  · rw [objGet_objSet_ne _ _ _ _ hjk]
    exact h

/-- Folding the overlay tasks keeps every key already in the map and adds the key
of every overlay that has a key, a source and a decoded image. -/
theorem hitMap_fold_keys (overlays : List OverlayImg) :
    ∀ m : List (String × ImageEntry),
      (∀ k, (objGet k m).isSome = true →
        (objGet k (overlays.foldl
          (fun m img =>
            match overlayTask img with
            | some (some (key, entry)) => objSet key entry m
            | _ => m) m)).isSome = true) ∧
      (∀ img ∈ overlays, img.overlayKey ≠ "" → img.src ≠ "" → img.decoded.isSome = true →
        (objGet img.overlayKey (overlays.foldl
          (fun m img =>
            match overlayTask img with
            | some (some (key, entry)) => objSet key entry m
            | _ => m) m)).isSome = true) := by
  induction overlays with
  | nil =>
    intro m
    exact ⟨fun k hk => hk, fun img hmem => absurd hmem (by simp)⟩
  | cons a rest ih =>
    intro m
    have hstep : ∀ k, (objGet k m).isSome = true →
        (objGet k (match overlayTask a with
          | some (some (key, entry)) => objSet key entry m
          | _ => m)).isSome = true := by
      intro k hk
      split
      · exact objGet_isSome_objSet _ _ _ _ hk
      · exact hk
    obtain ⟨ih1, ih2⟩ := ih (match overlayTask a with
      | some (some (key, entry)) => objSet key entry m
      | _ => m)
    constructor
    · intro k hk
      exact ih1 k (hstep k hk)
    · intro img hmem hk hs hd
      rcases List.mem_cons.mp hmem with heq | hrest
      · subst heq
        apply ih1
        obtain ⟨entry, he⟩ := Option.isSome_iff_exists.mp hd
        have htask : overlayTask img = some (some (img.overlayKey, entry)) := by
          simp [overlayTask, hk, hs, he]
        rw [htask]
        simp only
        rw [objGet_objSet_same]
        rfl
      · exact ih2 img hrest hk hs hd

theorem pixelPerfectCompositeToggle_no_cache (t : Tracker) (ev : PointerEvent) (delta : Int)
    (root : CompositeRoot) (hc : ev.composite = some root)
    (hcache : objGet root.compositeId t.compositeHitCache = none) :
    pixelPerfectCompositeToggle ev delta t = (false, t) := by
  apply pixelPerfectCompositeToggle_miss
  intro root2 rect cacheMap hroot _ hget
  rw [hc] at hroot
  injection hroot with hroot
  subst hroot
  rw [hcache] at hget
  exact absurd hget (by simp)

/-! ## Claims -/

/-- C1 (counterexample): with `level_values = [0, 1, 0]` and the item at level `0`,
which is the last value of the sequence, `cycleLevel` with delta `+1` stores `1`:
the level does not stay at the last value. -/
theorem cycleLevel_forward_from_last_moves :
    getItemMeta dupBowTracker "bow" = some dupBow ∧
    dupBow.level_values = some [0, 1, 0] ∧
    dupBowTracker.state.items.bind (objGet "bow") = some ([0, 1, 0].getLast (by simp)) ∧
    (cycleLevel "bow" 1 dupBowTracker).toOption.map
        (fun t => t.state.items.bind (objGet "bow")) = some (some 1) ∧
    (1 : Int) ≠ [0, 1, 0].getLast (by simp) := by
  decide

/-- C1 (amended): for an item with catalog metadata whose `level_values` is a
non-empty sequence, in a state that has an `items` map: if the current level is the
last value and that value occurs nowhere earlier in the sequence, `cycleLevel` with
delta `+1` succeeds and leaves the level at the last value; if the current level is
the first value, `cycleLevel` with delta `-1` succeeds and leaves it at the first
value. -/
theorem cycleLevel_clamped_at_ends (t : Tracker) (itemId : String) (meta : ItemMeta)
    (levels : List Int) (items : List (String × Int))
    (hmeta : getItemMeta t itemId = some meta)
    (hlv : meta.level_values = some levels) (hne : levels ≠ [])
    (hitems : t.state.items = some items) :
    ((objGet itemId items).getD (levels.headD 0) = levels.getLast hne →
      levels.getLast hne ∉ levels.dropLast →
      ∃ t1, cycleLevel itemId 1 t = .ok t1 ∧
        t1.state.items.bind (objGet itemId) = some (levels.getLast hne)) ∧
    ((objGet itemId items).getD (levels.headD 0) = levels.headD 0 →
      ∃ t1, cycleLevel itemId (-1) t = .ok t1 ∧
        t1.state.items.bind (objGet itemId) = some (levels.headD 0)) := by
  constructor
  · intro hcur hnodup
    obtain ⟨t1, h1, h2⟩ := cycleLevel_ok t itemId 1 meta levels items hmeta hlv hne hitems
    refine ⟨t1, h1, ?_⟩
    rw [h2, hcur, nextLevel_last levels hne hnodup]
  · intro hcur
    obtain ⟨t1, h1, h2⟩ := cycleLevel_ok t itemId (-1) meta levels items hmeta hlv hne hitems
    refine ⟨t1, h1, ?_⟩
    rw [h2, hcur, nextLevel_first levels hne]

/-- C1 (witness): the bow with levels `0, 1, 2`, at level `2` for the forward half and
at level `0` for the backward half. -/
theorem cycleLevel_clamped_at_ends_witness :
    (∃ t1, cycleLevel "bow" 1 (bowTracker 2) = .ok t1 ∧
        t1.state.items.bind (objGet "bow") = some 2) ∧
    (∃ t1, cycleLevel "bow" (-1) (bowTracker 0) = .ok t1 ∧
        t1.state.items.bind (objGet "bow") = some 0) :=
  ⟨(cycleLevel_clamped_at_ends (bowTracker 2) "bow" bow [0, 1, 2] [("bow", 2)]
      (by decide) (by decide) (by decide) (by decide)).1 (by decide) (by decide),
   (cycleLevel_clamped_at_ends (bowTracker 0) "bow" bow [0, 1, 2] [("bow", 0)]
      (by decide) (by decide) (by decide) (by decide)).2 (by decide)⟩

/-- C2: for a counter item with catalog metadata and `counter_min ≤ counter_max`
(after the defaults `0` and `999999`), in a state that has an `items` map and for
every integer (or missing) starting value, a non-empty run of `updateCounter` calls
succeeds and stores the value obtained by clamping `cur + delta * step` into
`[min, max]` at each step, which lies within `[min, max]`; and a decrement at
`min = 0` with `step = 1` from `0` stores `0`. -/
theorem updateCounter_stays_in_range (t : Tracker) (itemId : String) (meta : ItemMeta)
    (items : List (String × Int)) (d : Int) (ds : List Int)
    (hmeta : getItemMeta t itemId = some meta)
    (hitems : t.state.items = some items)
    (hle : meta.counter_min.getD 0 ≤ meta.counter_max.getD 999999) :
    (∃ t1 v, updateCounterSeq itemId (d :: ds) t = .ok t1 ∧
      t1.state.items.bind (objGet itemId) = some v ∧
      v = counterSpec (meta.counter_step.getD 1) (meta.counter_min.getD 0)
            (meta.counter_max.getD 999999) ((objGet itemId items).getD 0) (d :: ds) ∧
      meta.counter_min.getD 0 ≤ v ∧ v ≤ meta.counter_max.getD 999999) ∧
    (meta.counter_min.getD 0 = 0 → meta.counter_step.getD 1 = 1 →
      (objGet itemId items).getD 0 = 0 →
      ∃ t1, updateCounter itemId (-1) t = .ok t1 ∧
        t1.state.items.bind (objGet itemId) = some 0) := by
  constructor
  · obtain ⟨t1, items1, h1, _, hst, hval, hex⟩ :=
      updateCounterSeq_ok itemId meta (d :: ds) t items hmeta hitems
    obtain ⟨v, hv⟩ := hex (by simp)
    have hv2 : v = counterSpec (meta.counter_step.getD 1) (meta.counter_min.getD 0)
        (meta.counter_max.getD 999999) ((objGet itemId items).getD 0) (d :: ds) := by
      rw [← hval, hv]; rfl
    have hmem := counterSpec_mem (meta.counter_step.getD 1) (meta.counter_min.getD 0)
      (meta.counter_max.getD 999999) hle ((objGet itemId items).getD 0) d ds
    refine ⟨t1, v, h1, ?_, hv2, ?_, ?_⟩
    · rw [hst]; exact hv
    · rw [hv2]; exact hmem.1
    · rw [hv2]; exact hmem.2
  · intro hmin hstep hcur
    obtain ⟨t1, h1, _, hst⟩ := updateCounter_ok t itemId (-1) meta items hmeta hitems
    refine ⟨t1, h1, ?_⟩
    have h0 : (0 : Int) ≤ meta.counter_max.getD 999999 := by rw [← hmin]; exact hle
    have hc : clamp ((objGet itemId items).getD 0 + -1 * meta.counter_step.getD 1)
        (meta.counter_min.getD 0) (meta.counter_max.getD 999999) = 0 := by
      rw [hmin, hstep, hcur]
      unfold clamp
      rw [max_eq_left]
      exact min_le_of_right_le (by norm_num)
    rw [hst, hc]
    exact objGet_objSet_same _ _ _

/-- C2 (witness): the counter `keys` (`min = 0`, `max = 9`, `step = 1`) at `0`, with
the run decrement, increment, increment. -/
theorem updateCounter_stays_in_range_witness :
    (∃ t1 v, updateCounterSeq "keys" [-1, 1, 1] keysTracker = .ok t1 ∧
      t1.state.items.bind (objGet "keys") = some v ∧
      v = counterSpec 1 0 9 0 [-1, 1, 1] ∧ 0 ≤ v ∧ v ≤ 9) ∧
    (∃ t1, updateCounter "keys" (-1) keysTracker = .ok t1 ∧
        t1.state.items.bind (objGet "keys") = some 0) :=
  have h := updateCounter_stays_in_range keysTracker "keys" keysMeta [("keys", 0)] (-1) [1, 1]
    (by decide) (by decide) (by decide)
  ⟨h.1, h.2 (by decide) (by decide) (by decide)⟩

/-- C3: in a state that has a `dungeons` map, for every dungeon code, every integer
current value (a value outside `0..2` and a missing entry included) and every
integer delta (`+1` and `-1` included), `cycleDungeon` succeeds and the value it
stores is `0`, `1` or `2`; and after any non-empty run of dungeon interactions every
dungeon the run touched holds a value in `0..2`. -/
theorem cycleDungeon_in_tristate (t : Tracker) (dungeons : List (String × Int))
    (hd : t.state.dungeons = some dungeons) :
    (∀ (code : String) (delta : Int), ∃ t1 v, cycleDungeon code delta t = .ok t1 ∧
      t1.state.dungeons.bind (objGet code) = some v ∧ (v = 0 ∨ v = 1 ∨ v = 2)) ∧
    (∀ (p : String × Int) (rest : List (String × Int)),
      ∃ t1 dungeons1, cycleDungeonSeq (p :: rest) t = .ok t1 ∧
        t1.state.dungeons = some dungeons1 ∧
        ∀ q ∈ p :: rest, ∃ v, objGet q.1 dungeons1 = some v ∧ (v = 0 ∨ v = 1 ∨ v = 2)) := by
  constructor
  · intro code delta
    obtain ⟨t1, h1, hst⟩ := cycleDungeon_ok t code delta dungeons hd
    refine ⟨t1, _, h1, by rw [hst]; exact objGet_objSet_same _ _ _, ?_⟩
    have h0 := clamp_ge ((objGet code dungeons).getD 0 + delta) 0 2
    have h2 := clamp_le ((objGet code dungeons).getD 0 + delta) 0 2 (by norm_num)
    omega
  · intro p rest
    obtain ⟨t1, dungeons1, h1, hst, _, hseq⟩ :=
      cycleDungeonSeq_ok (p :: rest) t dungeons [] hd (by simp)
    refine ⟨t1, dungeons1, h1, hst, ?_⟩
    intro q hq
    obtain ⟨v, hv, h0, h2⟩ := hseq q hq
    exact ⟨v, hv, by omega⟩

/-- C3 (witness): the dungeon `SV` starts at `7` and the dungeon `ET` has no entry. -/
theorem cycleDungeon_in_tristate_witness :
    (∀ (code : String) (delta : Int), ∃ t1 v, cycleDungeon code delta keysTracker = .ok t1 ∧
      t1.state.dungeons.bind (objGet code) = some v ∧ (v = 0 ∨ v = 1 ∨ v = 2)) ∧
    (∃ t1 dungeons1, cycleDungeonSeq [("SV", 1), ("ET", -1), ("SV", -1)] keysTracker = .ok t1 ∧
        t1.state.dungeons = some dungeons1 ∧
        ∀ q ∈ [("SV", (1 : Int)), ("ET", -1), ("SV", -1)],
          ∃ v, objGet q.1 dungeons1 = some v ∧ (v = 0 ∨ v = 1 ∨ v = 2)) :=
  have h := cycleDungeon_in_tristate keysTracker [("SV", 7)] (by decide)
  ⟨h.1, h.2 ("SV", 1) [("ET", -1), ("SV", -1)]⟩

/-- C4 (counterexample): an instance whose own slot is `0` (unset) receives a
snapshot whose slot is the non-zero number `2`, different from `0`; the call
replaces the local state by the snapshot, renders and writes local storage. -/
theorem applyRemoteParticipant_unset_slot_replaces :
    unslottedTracker.cfg.slot = 0 ∧
    snapshotSlot2.slot = some 2 ∧
    (applyRemoteParticipant (some snapshotSlot2) unslottedTracker).state = snapshotSlot2 ∧
    (applyRemoteParticipant (some snapshotSlot2) unslottedTracker).state
      ≠ unslottedTracker.state ∧
    Effect.storageWrite "tb_tracker_preview_state_v1" snapshotSlot2 ∈
      newEffects unslottedTracker
        (applyRemoteParticipant (some snapshotSlot2) unslottedTracker) := by
  decide

/-- C4 (amended): for every tracker instance whose own slot is non-zero and every
remote participant snapshot whose slot is a non-zero number different from the
instance's slot, `applyRemoteParticipant` returns the instance as it was: the local
state is unchanged and no effect (no render, no local-storage write) is added. -/
theorem applyRemoteParticipant_mismatch_noop (t : Tracker) (p : ParticipantState) (r : Int)
    (hslot : t.cfg.slot ≠ 0) (hp : p.slot = some r) (hr : r ≠ 0) (hne : r ≠ t.cfg.slot) :
    applyRemoteParticipant (some p) t = t ∧
    (applyRemoteParticipant (some p) t).state = t.state ∧
    newEffects t (applyRemoteParticipant (some p) t) = [] := by
  have h : applyRemoteParticipant (some p) t = t := by
    unfold applyRemoteParticipant
    simp [hp, hslot, hr, hne]
  rw [h]
  exact ⟨rfl, rfl, by simp [newEffects]⟩

/-- C4 (witness): an instance for slot `2` with the bow at level `0` receives a
snapshot for slot `3`. -/
theorem applyRemoteParticipant_mismatch_noop_witness :
    applyRemoteParticipant (some { snapshotSlot2 with slot := some 3 }) (bowTracker 0)
      = bowTracker 0 ∧
    (applyRemoteParticipant (some { snapshotSlot2 with slot := some 3 }) (bowTracker 0)).state
      = (bowTracker 0).state ∧
    newEffects (bowTracker 0)
      (applyRemoteParticipant (some { snapshotSlot2 with slot := some 3 }) (bowTracker 0)) = [] :=
  applyRemoteParticipant_mismatch_noop (bowTracker 0) { snapshotSlot2 with slot := some 3 } 3
    (by decide) (by decide) (by decide) (by decide)

/-- C5: for every tracker instance, every bridge state and every snapshot,
`applyRemoteParticipant` adds only renders and local-storage writes to the log (no
network send, no timer set or cleared), leaves `_serverSaveTimer`, `_inflight`,
`_needsAnother`, the pending timers and the outstanding requests as they were, and
leaves the suppression flag false when it was false on entry, as it is in every
state reached from `initTracker` by callbacks. -/
theorem applyRemoteParticipant_sends_nothing (t : Tracker) (p : Option ParticipantState) :
    sends (newEffects t (applyRemoteParticipant p t)) = [] ∧
    timersSet (newEffects t (applyRemoteParticipant p t)) = [] ∧
    (∀ e ∈ newEffects t (applyRemoteParticipant p t), e.isLocal = true) ∧
    (applyRemoteParticipant p t)._serverSaveTimer = t._serverSaveTimer ∧
    (applyRemoteParticipant p t).pendingTimers = t.pendingTimers ∧
    (applyRemoteParticipant p t)._inflight = t._inflight ∧
    (applyRemoteParticipant p t).outstanding = t.outstanding ∧
    (applyRemoteParticipant p t)._needsAnother = t._needsAnother ∧
    (t._suppressNetworkSaves = false →
      (applyRemoteParticipant p t)._suppressNetworkSaves = false) ∧
    (∀ (cfg : Config) (s0 : ParticipantState) (evs : List Event),
      (run (initTracker cfg s0) evs)._suppressNetworkSaves = false ∧
      (applyRemoteParticipant p (run (initTracker cfg s0) evs))._suppressNetworkSaves = false) := by
  have hlocal : ∀ e ∈ newEffects t (applyRemoteParticipant p t), e.isLocal = true := by
    rcases applyRemoteParticipant_shape p t with h | ⟨s, t1, _, hb, _, h⟩
    · rw [h]
      simp [newEffects]
    · obtain ⟨es, hl, hp⟩ := hb.log
      have : newEffects t (applyRemoteParticipant p t) = es := by
        rw [h]
        show List.drop t.log.length t1.log = es
        rw [hl]
        exact List.drop_left _ _
      rw [this]
      exact hp
  have hvars : (applyRemoteParticipant p t)._serverSaveTimer = t._serverSaveTimer ∧
      (applyRemoteParticipant p t).pendingTimers = t.pendingTimers ∧
      (applyRemoteParticipant p t)._inflight = t._inflight ∧
      (applyRemoteParticipant p t).outstanding = t.outstanding ∧
      (applyRemoteParticipant p t)._needsAnother = t._needsAnother ∧
      (t._suppressNetworkSaves = false →
        (applyRemoteParticipant p t)._suppressNetworkSaves = false) := by
    rcases applyRemoteParticipant_shape p t with h | ⟨s, t1, _, hb, _, h⟩
    · rw [h]
      exact ⟨rfl, rfl, rfl, rfl, rfl, fun h => h⟩
    · rw [h]
      exact ⟨hb.timer, hb.pending, hb.inflight, hb.outstanding, hb.needsAnother, fun _ => rfl⟩
  refine ⟨sends_of_local _ hlocal, timersSet_of_local _ hlocal, hlocal, hvars.1, hvars.2.1,
    hvars.2.2.1, hvars.2.2.2.1, hvars.2.2.2.2.1, hvars.2.2.2.2.2, ?_⟩
  intro cfg s0 evs
  exact ⟨(inv_reachable cfg s0 evs).suppress,
    (inv_applyRemoteParticipant p (inv_reachable cfg s0 evs)).suppress⟩

/-- C5 (witness): an editor instance for slot `2` with a timer pending receives a
snapshot for its slot. -/
theorem applyRemoteParticipant_sends_nothing_witness :
    sends (newEffects (step (bowTracker 0) .schedule)
      (applyRemoteParticipant (some snapshotSlot2) (step (bowTracker 0) .schedule))) = [] ∧
    (applyRemoteParticipant (some snapshotSlot2) (step (bowTracker 0) .schedule)).pendingTimers
      = [1] ∧
    (applyRemoteParticipant (some snapshotSlot2) (step (bowTracker 0) .schedule)).state
      = snapshotSlot2 ∧
    (applyRemoteParticipant (some snapshotSlot2)
      (step (bowTracker 0) .schedule))._suppressNetworkSaves = false :=
  have h := applyRemoteParticipant_sends_nothing (step (bowTracker 0) .schedule)
    (some snapshotSlot2)
  ⟨h.1, h.2.2.2.2.1.trans (by decide), by decide, h.2.2.2.2.2.2.2.2.1 (by decide)⟩

/-- C6 (counterexample): an editor instance with an update URL whose earlier send is
still in flight gets one local mutation followed by `afterChangePersist()`; exactly
one timer (`2`) is pending, and when it fires no network send is issued. -/
theorem burst_fire_during_send_issues_none :
    sendingTracker.cfg.CAN_EDIT = true ∧
    sendingTracker.cfg.UPDATE_URL = some "/update" ∧
    sendingTracker._inflight = true ∧
    (burst sendingTracker [bowState 2]).pendingTimers = [2] ∧
    sends (newEffects (burst sendingTracker [bowState 2])
      (step (burst sendingTracker [bowState 2]) (.timerFire 2))) = [] := by
  decide

/-- C6 (amended): for an editor instance with an update URL, in any state reached
from `initTracker` by callbacks, and for every `N ≥ 1`: after `N` local mutations
each followed by `afterChangePersist()` (which calls `scheduleServerSave()`), with
no other callback in between, no send was issued and exactly one timer is pending.
When it fires with no earlier send in flight, exactly one network send is issued and
its body is the state after the `N`-th mutation.  When it fires while an earlier
send is in flight, no send is issued and the deferred flag is set; the one send,
with that same state, is issued when the earlier send settles. -/
theorem burst_sends_final_state_once (cfg : Config) (s0 : ParticipantState)
    (history : List Event) (s : ParticipantState) (ss : List ParticipantState)
    (hedit : cfg.CAN_EDIT = true) (hurl : cfg.UPDATE_URL.isSome = true) :
    ∃ id,
      (burst (run (initTracker cfg s0) history) (s :: ss)).pendingTimers = [id] ∧
      (burst (run (initTracker cfg s0) history) (s :: ss)).state
        = (s :: ss).getLast (List.cons_ne_nil s ss) ∧
      sends (newEffects (run (initTracker cfg s0) history)
        (burst (run (initTracker cfg s0) history) (s :: ss))) = [] ∧
      ((burst (run (initTracker cfg s0) history) (s :: ss))._inflight = false →
        sends (newEffects (burst (run (initTracker cfg s0) history) (s :: ss))
          (step (burst (run (initTracker cfg s0) history) (s :: ss)) (.timerFire id)))
          = [(s :: ss).getLast (List.cons_ne_nil s ss)] ∧
        (step (burst (run (initTracker cfg s0) history) (s :: ss))
          (.timerFire id)).pendingTimers = []) ∧
      ((burst (run (initTracker cfg s0) history) (s :: ss))._inflight = true →
        sends (newEffects (burst (run (initTracker cfg s0) history) (s :: ss))
          (step (burst (run (initTracker cfg s0) history) (s :: ss)) (.timerFire id))) = [] ∧
        (step (burst (run (initTracker cfg s0) history) (s :: ss))
          (.timerFire id))._needsAnother = true ∧
        sends (newEffects
          (step (burst (run (initTracker cfg s0) history) (s :: ss)) (.timerFire id))
          (step (step (burst (run (initTracker cfg s0) history) (s :: ss)) (.timerFire id))
            .sendSettled))
          = [(s :: ss).getLast (List.cons_ne_nil s ss)]) := by
  have hi : Inv (run (initTracker cfg s0) history) := inv_reachable cfg s0 history
  have hc : (run (initTracker cfg s0) history).cfg = cfg :=
    (run_cfg history _).trans (initTracker_cfg cfg s0)
  obtain ⟨b1, ⟨id, b2⟩, _, _, _, b6⟩ :=
    burst_editor ss (run (initTracker cfg s0) history) s hi
      (by rw [hc]; exact hedit) (by rw [hc]; exact hurl)
  have hib : Inv (burst (run (initTracker cfg s0) history) (s :: ss)) := inv_run _ hi
  have hcb : (burst (run (initTracker cfg s0) history) (s :: ss)).cfg = cfg :=
    (run_cfg _ _).trans hc
  have heb : (burst (run (initTracker cfg s0) history) (s :: ss)).cfg.CAN_EDIT = true := by
    rw [hcb]; exact hedit
  have hub : (burst (run (initTracker cfg s0) history) (s :: ss)).cfg.UPDATE_URL.isSome
      = true := by
    rw [hcb]; exact hurl
  refine ⟨id, b2, b1, ?_, ?_, ?_⟩
  · have hx : Extends (run (initTracker cfg s0) history)
        (burst (run (initTracker cfg s0) history) (s :: ss)) := extends_run _ _
    exact sends_newEffects hx [] (by rw [b6]; simp)
  · intro hf
    obtain ⟨f1, f2, _, _⟩ := fire_idle _ id hib heb hub b2 hf
    rw [b1] at f1
    exact ⟨f1, f2⟩
  · intro hf
    obtain ⟨f1, f2⟩ := fire_busy _ id hib heb hub b2 hf
    refine ⟨f2, by rw [f1], ?_⟩
    have hif : Inv (step (burst (run (initTracker cfg s0) history) (s :: ss)) (.timerFire id)) :=
      inv_step hib _
    obtain ⟨g1, _, _, _⟩ := settle_deferred _ hif (by rw [f1]; exact hf) (by rw [f1])
    rw [g1, f1]
    exact congrArg (fun x => [x]) b1

/-- C6 (witness): a fresh editor instance, three local changes of the bow level
(`1`, `2`, `1`) and then the timer: one send, of the last state. -/
theorem burst_sends_final_state_once_witness :
    ∃ id,
      (burst (bowTracker 0) [bowState 1, bowState 2, bowState 1]).pendingTimers = [id] ∧
      sends (newEffects (bowTracker 0)
        (burst (bowTracker 0) [bowState 1, bowState 2, bowState 1])) = [] ∧
      sends (newEffects (burst (bowTracker 0) [bowState 1, bowState 2, bowState 1])
          (step (burst (bowTracker 0) [bowState 1, bowState 2, bowState 1]) (.timerFire id)))
        = [bowState 1] := by
  obtain ⟨id, h1, _, h3, h4, _⟩ := burst_sends_final_state_once
    { USE_STORAGE := true, STORAGE_KEY := "tb_tracker_preview_state_v1_slot2",
      UPDATE_URL := some "/update", CAN_EDIT := true, slot := 2,
      catalogItems := [bow], domOverlayKeys := [] }
    (bowState 0) [] (bowState 1) [bowState 2, bowState 1] (by decide) (by decide)
  exact ⟨id, h1, h3, (h4 (by decide)).1⟩

/-- C7: in every state reached from `initTracker` by any sequence of callbacks
(schedules, timer fires, send completions, and local changes, interactions and
remote snapshots as well), at most one network send is outstanding, and there is one
exactly when `_inflight` is set.  While a send is in flight, a flush request issues
no send and only sets the deferred flag, and any number `k + 1` of requests leaves
the same state as one.  When the in-flight send then settles with the flag set,
exactly one follow-up send is issued, its body is the state current at that moment,
and the flag is down again; with the flag down, settling issues nothing. -/
theorem at_most_one_send_in_flight (cfg : Config) (s0 : ParticipantState)
    (history : List Event) :
    (reached cfg s0 history).outstanding.length ≤ 1 ∧
    ((reached cfg s0 history)._inflight = true ↔
      (reached cfg s0 history).outstanding.length = 1) ∧
    ((reached cfg s0 history)._inflight = true →
      (∀ k : Nat,
        run (reached cfg s0 history) (List.replicate (k + 1) Event.flush)
          = { reached cfg s0 history with _needsAnother := true } ∧
        sends (newEffects (reached cfg s0 history)
          (run (reached cfg s0 history) (List.replicate (k + 1) Event.flush))) = []) ∧
      ((reached cfg s0 history)._needsAnother = true →
        sends (newEffects (reached cfg s0 history)
          (step (reached cfg s0 history) .sendSettled)) = [(reached cfg s0 history).state] ∧
        (step (reached cfg s0 history) .sendSettled).outstanding
          = [(reached cfg s0 history).state] ∧
        (step (reached cfg s0 history) .sendSettled)._needsAnother = false) ∧
      ((reached cfg s0 history)._needsAnother = false →
        sends (newEffects (reached cfg s0 history)
          (step (reached cfg s0 history) .sendSettled)) = [] ∧
        (step (reached cfg s0 history) .sendSettled).outstanding = [])) := by
  have hi : Inv (reached cfg s0 history) := inv_reached cfg s0 history
  refine ⟨inv_outstanding_le_one hi, ?_, ?_⟩
  · rcases hi.flight with ⟨hf, b, hb⟩ | ⟨hf, hb, _⟩
    · rw [hf, hb]
      simp
    · rw [hf, hb]
      simp
  · intro hf
    refine ⟨?_, ?_, ?_⟩
    · intro k
      have hk := run_flush_busy _ hi hf k
      refine ⟨hk, ?_⟩
      rw [hk]
      simp [newEffects, sends]
    · intro hna
      obtain ⟨g1, g2, _, g4⟩ := settle_deferred _ hi hf hna
      exact ⟨g1, g2, g4⟩
    · intro hna
      obtain ⟨g1, g2, _⟩ := settle_plain _ hi hf hna
      exact ⟨g1, g2⟩

/-- C7 (witness): the first send of an editor is in flight; the state then changes
twice and both timers fire, so two flushes are requested during the send; when it
settles, one follow-up send carries the latest state. -/
theorem at_most_one_send_in_flight_witness :
    (reached (bowTracker 0).cfg (bowState 0)
      [.localChange (bowState 1), .timerFire 1, .localChange (bowState 2), .timerFire 2,
        .localChange (bowState 1), .timerFire 3]).outstanding = [bowState 1] ∧
    sends (newEffects
      (reached (bowTracker 0).cfg (bowState 0)
        [.localChange (bowState 1), .timerFire 1, .localChange (bowState 2), .timerFire 2,
          .localChange (bowState 1), .timerFire 3])
      (step (reached (bowTracker 0).cfg (bowState 0)
        [.localChange (bowState 1), .timerFire 1, .localChange (bowState 2), .timerFire 2,
          .localChange (bowState 1), .timerFire 3]) .sendSettled)) = [bowState 1] ∧
    (step (reached (bowTracker 0).cfg (bowState 0)
        [.localChange (bowState 1), .timerFire 1, .localChange (bowState 2), .timerFire 2,
          .localChange (bowState 1), .timerFire 3]) .sendSettled).outstanding = [bowState 1] :=
  have h := at_most_one_send_in_flight (bowTracker 0).cfg (bowState 0)
    [.localChange (bowState 1), .timerFire 1, .localChange (bowState 2), .timerFire 2,
      .localChange (bowState 1), .timerFire 3]
  have h2 := (h.2.2 (by decide)).2.1 (by decide)
  ⟨by decide, h2.1, h2.2.1⟩

/-- C8: for an instance without edit capability (`CAN_EDIT` false), with or without
an update URL and whatever its state, after any sequence of callbacks
(`scheduleServerSave` calls, `flushServerSave` calls, remote snapshots, and local
changes, pointer events, timer and completion events as well) the log holds only
renders and local-storage writes: no network send was ever issued and no timer ever
set; no timer is pending and no request is outstanding. -/
theorem viewer_never_sends (cfg : Config) (s0 : ParticipantState) (evs : List Event)
    (hv : cfg.CAN_EDIT = false) :
    sends (run (initTracker cfg s0) evs).log = [] ∧
    timersSet (run (initTracker cfg s0) evs).log = [] ∧
    (∀ e ∈ (run (initTracker cfg s0) evs).log, e.isLocal = true) ∧
    (run (initTracker cfg s0) evs).pendingTimers = [] ∧
    (run (initTracker cfg s0) evs).outstanding = [] ∧
    (run (initTracker cfg s0) evs)._inflight = false := by
  obtain ⟨f1, f2, f3, f4⟩ := initTracker_fresh cfg s0
  have hb := viewer_run evs (initTracker cfg s0) (inv_initTracker cfg s0)
    (by rw [initTracker_cfg]; exact hv) f1 f2
  have hlocal : ∀ e ∈ (run (initTracker cfg s0) evs).log, e.isLocal = true := by
    obtain ⟨es, hl, hloc⟩ := hb.log
    rw [hl]
    intro e he
    rcases List.mem_append.mp he with h | h
    · exact f4 e h
    · exact hloc e h
  exact ⟨sends_of_local _ hlocal, timersSet_of_local _ hlocal, hlocal,
    hb.pending.trans f1, hb.outstanding.trans f2, hb.inflight.trans f3⟩

/-- C8 (witness): a viewer with an update URL gets a local change, a schedule, a
flush, a remote snapshot, another flush and a timer event. -/
theorem viewer_never_sends_witness :
    sends (run (initTracker viewerCfg (bowState 0))
      [.localChange (bowState 1), .schedule, .flush, .remote (some snapshotSlot2), .flush,
        .timerFire 1]).log = [] ∧
    timersSet (run (initTracker viewerCfg (bowState 0))
      [.localChange (bowState 1), .schedule, .flush, .remote (some snapshotSlot2), .flush,
        .timerFire 1]).log = [] :=
  have h := viewer_never_sends viewerCfg (bowState 0)
    [.localChange (bowState 1), .schedule, .flush, .remote (some snapshotSlot2), .flush,
      .timerFire 1] (by decide)
  ⟨h.1, h.2.1⟩

/-- C9: for a composite with a non-empty hit cache and every pointer position, when
`key` is the first key of the overlay order that is hit (it has a cached image, the
point maps inside it, and the alpha read there is strictly greater than `20`),
`pixelPerfectCompositeToggle` reports a change and does exactly
`toggleCompositeKey` on `key`: cleared on a secondary interaction, negated on a
primary one, every other flag of the composite unchanged.  An overlay whose alpha at
the mapped pixel is exactly `20` is not hit.  With overlays courage, power, wisdom
and a pixel where only wisdom exceeds `20` (courage has exactly `20`), a primary
click turns wisdom from false to true and leaves courage and power false. -/
theorem pixelPerfectCompositeToggle_first_hit (t : Tracker) (ev : PointerEvent) (delta : Int)
    (compositeId : String) (rect : Rect) (c : String × ImageEntry)
    (cs : List (String × ImageEntry))
    (hc : ev.composite = some { compositeId := compositeId, box := some rect })
    (hid : compositeId ≠ "")
    (hcache : objGet compositeId t.compositeHitCache = some (c :: cs)) :
    (∀ (pre post : List String) (key : String),
      getCompositeOverlayOrder t compositeId = pre ++ key :: post →
      (∀ k ∈ pre, isHit (c :: cs) (getLocalPointInElement ev rect) k = false) →
      isHit (c :: cs) (getLocalPointInElement ev rect) key = true →
      pixelPerfectCompositeToggle ev delta t =
        (true, toggleCompositeKey compositeId key (if delta < 0 then some false else none) t) ∧
      objGet key (compositeFlags (pixelPerfectCompositeToggle ev delta t).2 compositeId)
        = some (if delta < 0 then false
                else !((objGet key (compositeFlags t compositeId)).getD false)) ∧
      (∀ k, k ≠ key →
        objGet k (compositeFlags (pixelPerfectCompositeToggle ev delta t).2 compositeId)
          = objGet k (compositeFlags t compositeId))) ∧
    (∀ (key : String) (entry : ImageEntry) (mapped : Pixel),
      objGet key (c :: cs) = some entry →
      mapToImageCoordsContain (getLocalPointInElement ev rect) entry.w entry.h = some mapped →
      alphaAt entry mapped.px mapped.py = 20 →
      isHit (c :: cs) (getLocalPointInElement ev rect) key = false) ∧
    ((pixelPerfectCompositeToggle (triforcesEvent 75 25) 1 triforcesTracker).1 = true ∧
      compositeFlags triforcesTracker "triforces"
        = [("courage", false), ("power", false), ("wisdom", false)] ∧
      compositeFlags (pixelPerfectCompositeToggle (triforcesEvent 75 25) 1 triforcesTracker).2
        "triforces" = [("courage", false), ("power", false), ("wisdom", true)]) := by
  refine ⟨?_, ?_, ?_⟩
  · intro pre post key horder hpre hkey
    have hres : pixelPerfectCompositeToggle ev delta t =
        (true, toggleCompositeKey compositeId key
          (if delta < 0 then some false else none) t) := by
      rw [pixelPerfectCompositeToggle_eq t ev delta compositeId rect c cs hc hid hcache,
        hitLoop_eq_find, horder, find?_first_hit pre post key hpre hkey]
    obtain ⟨e1, e2, _⟩ := toggleCompositeKey_effect compositeId key
      (if delta < 0 then some false else none) t
    refine ⟨hres, ?_, ?_⟩
    · rw [hres]
      show objGet key (compositeFlags (toggleCompositeKey compositeId key _ t) compositeId) = _
      rw [e1]
      by_cases hd : delta < 0
      · simp [hd]
      · simp [hd]
    · intro k hk
      rw [hres]
      exact e2 k hk
  · intro key entry mapped hg hm ha
    simp only [isHit, hg, hm, ha]
    rfl
  · have hres := pixelPerfectCompositeToggle_eq triforcesTracker (triforcesEvent 75 25) 1
      "triforces" triforcesBox _ _ rfl (by decide) triforces_cache
    have horder : getCompositeOverlayOrder triforcesTracker "triforces"
        = ["courage", "power"] ++ "wisdom" :: [] := by decide
    rw [hitLoop_eq_find, horder, find?_first_hit ["courage", "power"] [] "wisdom"
      triforces_quarter_misses triforces_quarter_hits] at hres
    rw [hres]
    decide

/-- C9 (witness): on the `triforces` composite, a secondary click at the pixel where
only wisdom exceeds `20` force-clears wisdom and nothing else. -/
theorem pixelPerfectCompositeToggle_first_hit_witness :
    pixelPerfectCompositeToggle (triforcesEvent 75 25) (-1) triforcesTracker =
      (true, toggleCompositeKey "triforces" "wisdom" (some false) triforcesTracker) ∧
    (∀ k, k ≠ "wisdom" →
      objGet k (compositeFlags
        (pixelPerfectCompositeToggle (triforcesEvent 75 25) (-1) triforcesTracker).2 "triforces")
        = objGet k (compositeFlags triforcesTracker "triforces")) :=
  have h := (pixelPerfectCompositeToggle_first_hit triforcesTracker (triforcesEvent 75 25) (-1)
    "triforces" triforcesBox ("courage", image2x2 255 20 0 0)
    [("power", image2x2 0 0 20 255), ("wisdom", image2x2 0 255 7 0)]
    rfl (by decide) (by decide)).1 ["courage", "power"] [] "wisdom" (by decide)
    triforces_quarter_misses triforces_quarter_hits
  ⟨h.1, h.2.2⟩

/-- C10: for every interaction, primary or secondary, that `handleInteraction` routes
to the composite branch (the target is inside a composite element and not inside a
wallet overlay) and whose point, in every cached overlay of that composite, maps out
of bounds or onto an alpha of at most `20`: `handleInteraction` returns `false` with
the instance untouched, and the listener leaves the instance exactly as it was, so
the state is unchanged and no effect is added (no local-storage write, no timer, no
send). -/
theorem handleInteraction_no_hit_noop (t : Tracker) (ev : PointerEvent) (delta : Int)
    (hw : ev.walletBonus = false) (hc : ev.composite.isSome = true)
    (hmiss : ∀ (root : CompositeRoot) (rect : Rect) (cacheMap : List (String × ImageEntry)),
      ev.composite = some root → root.box = some rect →
      objGet root.compositeId t.compositeHitCache = some cacheMap →
      missesEvery cacheMap (getLocalPointInElement ev rect)) :
    handleInteraction ev delta t = .ok (false, t) ∧
    interactionListener ev delta t = .ok t ∧
    (∀ t1, interactionListener ev delta t = .ok t1 →
      t1.state = t.state ∧ newEffects t t1 = [] ∧ t1.pendingTimers = t.pendingTimers) := by
  have h1 : handleInteraction ev delta t = .ok (false, t) := by
    unfold handleInteraction
    simp only [hw, hc, Bool.false_eq_true, if_false, if_true]
    rw [pixelPerfectCompositeToggle_miss t ev delta hmiss]
  have h2 : interactionListener ev delta t = .ok t := by
    unfold interactionListener
    rw [h1]
    simp
  refine ⟨h1, h2, ?_⟩
  intro t1 ht1
  rw [h2] at ht1
  injection ht1 with ht1
  subst ht1
  exact ⟨rfl, by simp [newEffects], rfl⟩

/-- C10 (witness): on the `triforces` composite, a primary click at the pixel where
no overlay exceeds `20` (power has exactly `20` there) changes nothing. -/
theorem handleInteraction_no_hit_noop_witness :
    handleInteraction (triforcesEvent 25 75) 1 triforcesTracker = .ok (false, triforcesTracker) ∧
    interactionListener (triforcesEvent 25 75) 1 triforcesTracker = .ok triforcesTracker :=
  have h := handleInteraction_no_hit_noop triforcesTracker (triforcesEvent 25 75) 1 rfl rfl
    (by
      intro root rect cacheMap hroot hbox hcache
      have hr : root = triforcesRoot := by
        have hev : (triforcesEvent 25 75).composite = some triforcesRoot := rfl
        rw [hev] at hroot
        injection hroot with hroot
        exact hroot.symm
      subst hr
      have hb2 : triforcesRoot.box = some triforcesBox := rfl
      rw [hb2] at hbox
      injection hbox with hbox
      subst hbox
      have hcm : cacheMap = triforcesCache := by
        have hc2 : objGet triforcesRoot.compositeId triforcesTracker.compositeHitCache
            = some triforcesCache := by decide
        rw [hc2] at hcache
        injection hcache with hcache
        exact hcache.symm
      subst hcm
      rw [triforces_local]
      exact triforces_lower_left_misses)
  ⟨h.1, h.2.1⟩

/-- C15: for every item id that has no entry in the catalog and every delta,
`cycleLevel` and `updateCounter` return the instance exactly as it was (also when
the state has no `items` map): the whole participant state is unchanged and no
effect, in particular no render, is added; `renderItemSimple` does nothing either. -/
theorem no_metadata_is_noop (t : Tracker) (itemId : String) (delta : Int)
    (hmeta : getItemMeta t itemId = none) :
    cycleLevel itemId delta t = .ok t ∧
    updateCounter itemId delta t = .ok t ∧
    renderItemSimple itemId t = t ∧
    (∀ t1, cycleLevel itemId delta t = .ok t1 → t1.state = t.state ∧ newEffects t t1 = []) ∧
    (∀ t1, updateCounter itemId delta t = .ok t1 →
      t1.state = t.state ∧ newEffects t t1 = []) := by
  have h1 : cycleLevel itemId delta t = .ok t := by
    unfold cycleLevel
    rw [hmeta]
  have h2 : updateCounter itemId delta t = .ok t := by
    unfold updateCounter
    rw [hmeta]
  have h3 : renderItemSimple itemId t = t := by
    unfold renderItemSimple
    rw [hmeta]
  refine ⟨h1, h2, h3, ?_, ?_⟩
  · intro t1 ht1
    rw [h1] at ht1
    injection ht1 with ht1
    subst ht1
    exact ⟨rfl, by simp [newEffects]⟩
  · intro t1 ht1
    rw [h2] at ht1
    injection ht1 with ht1
    subst ht1
    exact ⟨rfl, by simp [newEffects]⟩

/-- C15 (witness): the catalog of `bowTracker` has no item `hookshot`. -/
theorem no_metadata_is_noop_witness :
    cycleLevel "hookshot" 1 (bowTracker 0) = .ok (bowTracker 0) ∧
    updateCounter "hookshot" (-1) (bowTracker 0) = .ok (bowTracker 0) :=
  ⟨(no_metadata_is_noop (bowTracker 0) "hookshot" 1 (by decide)).1,
   (no_metadata_is_noop (bowTracker 0) "hookshot" (-1) (by decide)).2.1⟩

/-- C16: for an item with catalog metadata whose `level_values` has pairwise distinct
entries, in a state that has an `items` map and whose current level is the entry at
index `i`: with `i > 0` a secondary interaction (delta `-1`) stores the entry at
index `i - 1`, and with `i < N - 1` a primary interaction (delta `+1`) stores the
entry at index `i + 1`.  For `level_values = [0, 1, 2]` and current level `2`,
primary leaves `2` and secondary gives `1`. -/
theorem cycleLevel_moves_one_step (t : Tracker) (itemId : String) (meta : ItemMeta)
    (levels : List Int) (items : List (String × Int)) (i : Nat)
    (hmeta : getItemMeta t itemId = some meta)
    (hlv : meta.level_values = some levels) (hnd : levels.Nodup)
    (hi : i < levels.length)
    (hitems : t.state.items = some items)
    (hcur : (objGet itemId items).getD (levels.headD 0) = levels.get ⟨i, hi⟩) :
    ((h0 : 0 < i) → ∃ t1, cycleLevel itemId (-1) t = .ok t1 ∧
      t1.state.items.bind (objGet itemId) = some (levels.get ⟨i - 1, by omega⟩)) ∧
    ((h1 : i + 1 < levels.length) → ∃ t1, cycleLevel itemId 1 t = .ok t1 ∧
      t1.state.items.bind (objGet itemId) = some (levels.get ⟨i + 1, h1⟩)) ∧
    ((cycleLevel "bow" 1 (bowTracker 2)).toOption.map
        (fun t1 => t1.state.items.bind (objGet "bow")) = some (some 2) ∧
      (cycleLevel "bow" (-1) (bowTracker 2)).toOption.map
        (fun t1 => t1.state.items.bind (objGet "bow")) = some (some 1)) := by
  have hne : levels ≠ [] := by
    intro h
    rw [h] at hi
    exact absurd hi (by simp)
  refine ⟨?_, ?_, by decide⟩
  · intro h0
    obtain ⟨t1, h1, h2⟩ := cycleLevel_ok t itemId (-1) meta levels items hmeta hlv hne hitems
    refine ⟨t1, h1, ?_⟩
    rw [h2, hcur, nextLevel_nodup levels hnd i hi (-1) (i - 1) (by omega) (by omega)]
  · intro h1
    obtain ⟨t1, g1, g2⟩ := cycleLevel_ok t itemId 1 meta levels items hmeta hlv hne hitems
    refine ⟨t1, g1, ?_⟩
    rw [g2, hcur, nextLevel_nodup levels hnd i hi 1 (i + 1) h1 (by omega)]

/-- C16 (witness): the bow with levels `0, 1, 2` at level `1` (index `1`): secondary
gives `0`, primary gives `2`. -/
theorem cycleLevel_moves_one_step_witness :
    (∃ t1, cycleLevel "bow" (-1) (bowTracker 1) = .ok t1 ∧
      t1.state.items.bind (objGet "bow") = some 0) ∧
    (∃ t1, cycleLevel "bow" 1 (bowTracker 1) = .ok t1 ∧
      t1.state.items.bind (objGet "bow") = some 2) :=
  have h := cycleLevel_moves_one_step (bowTracker 1) "bow" bow [0, 1, 2] [("bow", 1)] 1
    (by decide) (by decide) (by decide) (by decide) (by decide) (by decide)
  ⟨h.1 (by decide), h.2.1 (by decide)⟩

/-- C18: for every composite, key and prior flags (the key possibly absent),
`toggleCompositeKey` with `forceValue = null` (primary interaction) sets the flag of
the key to the negation of its current truth value, absent counting as false, so
two primary toggles restore the original truth value; with `forceValue = false`
(secondary interaction) it sets the flag to false whatever it was, and doing so
twice gives the same state as once; in both cases every other key of the composite,
every other composite and the fields `slot`, `items`, `dungeons` and `wallet_bonus`
are unchanged. -/
theorem toggleCompositeKey_independent_flags (t : Tracker) (compositeId key : String) :
    objGet key (compositeFlags (toggleCompositeKey compositeId key none t) compositeId)
      = some (!((objGet key (compositeFlags t compositeId)).getD false)) ∧
    (objGet key (compositeFlags
        (toggleCompositeKey compositeId key none (toggleCompositeKey compositeId key none t))
        compositeId)).getD false
      = (objGet key (compositeFlags t compositeId)).getD false ∧
    objGet key (compositeFlags (toggleCompositeKey compositeId key (some false) t) compositeId)
      = some false ∧
    (toggleCompositeKey compositeId key (some false)
        (toggleCompositeKey compositeId key (some false) t)).state
      = (toggleCompositeKey compositeId key (some false) t).state ∧
    (∀ forceValue : Option Bool,
      (∀ k, k ≠ key →
        objGet k (compositeFlags (toggleCompositeKey compositeId key forceValue t) compositeId)
          = objGet k (compositeFlags t compositeId)) ∧
      (∀ c, c ≠ compositeId →
        objGet c (toggleCompositeKey compositeId key forceValue t).state.composites
          = objGet c t.state.composites) ∧
      (toggleCompositeKey compositeId key forceValue t).state.slot = t.state.slot ∧
      (toggleCompositeKey compositeId key forceValue t).state.items = t.state.items ∧
      (toggleCompositeKey compositeId key forceValue t).state.dungeons = t.state.dungeons ∧
      (toggleCompositeKey compositeId key forceValue t).state.wallet_bonus
        = t.state.wallet_bonus) := by
  refine ⟨(toggleCompositeKey_effect compositeId key none t).1, ?_,
    (toggleCompositeKey_effect compositeId key (some false) t).1, ?_, ?_⟩
  · rw [(toggleCompositeKey_effect compositeId key none
      (toggleCompositeKey compositeId key none t)).1,
      (toggleCompositeKey_effect compositeId key none t).1]
    simp
  · exact toggleCompositeKey_force_twice compositeId key false t
  · intro forceValue
    exact (toggleCompositeKey_effect compositeId key forceValue t).2

/-- C18 (witness): on the `triforces` composite, toggling `wisdom` leaves `courage`
as it was. -/
theorem toggleCompositeKey_independent_flags_witness :
    objGet "courage"
        (compositeFlags (toggleCompositeKey "triforces" "wisdom" none triforcesTracker)
          "triforces")
      = objGet "courage" (compositeFlags triforcesTracker "triforces") ∧
    objGet "wisdom"
        (compositeFlags (toggleCompositeKey "triforces" "wisdom" none triforcesTracker)
          "triforces") = some true :=
  have h := toggleCompositeKey_independent_flags triforcesTracker "triforces" "wisdom"
  ⟨(h.2.2.2.2 none).1 "courage" (by decide), h.1.trans (by decide)⟩

/-- C13 (counterexample): an instance whose slot is `2` receives a snapshot whose slot
is `0`; the snapshot's slot differs from the instance's slot, the instance's slot is
not `0`, and the call replaces the local state by the snapshot. -/
theorem applyRemoteParticipant_falsy_slot_replaces :
    (bowTracker 0).cfg.slot = 2 ∧
    snapshotSlot0.slot = some 0 ∧
    (applyRemoteParticipant (some snapshotSlot0) (bowTracker 0)).state = snapshotSlot0 ∧
    (applyRemoteParticipant (some snapshotSlot0) (bowTracker 0)).state
      ≠ (bowTracker 0).state := by
  decide

/-- C13 (amended): for every instance and every snapshot, `applyRemoteParticipant`
replaces the local state (it assigns the state and renders, so the instance is not
what it was) exactly when the instance's slot is `0` (unset), or the snapshot's slot
is missing, not a number or `0`, or the snapshot's slot equals the instance's slot;
in particular, if the state afterwards differs from the state before, one of these
holds. -/
theorem applyRemoteParticipant_applied_only_if (t : Tracker) (p : ParticipantState) :
    (applyRemoteParticipant (some p) t ≠ t ↔
      (t.cfg.slot = 0 ∨ p.slot = none ∨ p.slot = some 0 ∨ p.slot = some t.cfg.slot)) ∧
    ((applyRemoteParticipant (some p) t).state ≠ t.state →
      (t.cfg.slot = 0 ∨ p.slot = none ∨ p.slot = some 0 ∨ p.slot = some t.cfg.slot)) := by
  have hiff : applyRemoteParticipant (some p) t ≠ t ↔ passesSlotCheck t.cfg.slot p := by
    constructor
    · intro hne
      by_contra hnot
      exact hne (applyRemoteParticipant_reject t p hnot)
    · intro hpass heq
      have hlen := applyRemoteParticipant_pass_log t p hpass
      rw [heq] at hlen
      exact absurd hlen (lt_irrefl _)
  refine ⟨hiff, ?_⟩
  intro hne
  apply hiff.mp
  intro heq
  rw [heq] at hne
  exact hne rfl

/-- C13 (witness): the instance for slot `2` is changed by the snapshot for slot `2`,
whose slot equals its own. -/
theorem applyRemoteParticipant_applied_only_if_witness :
    (bowTracker 0).cfg.slot = 0 ∨ snapshotSlot2.slot = none ∨ snapshotSlot2.slot = some 0 ∨
      snapshotSlot2.slot = some (bowTracker 0).cfg.slot :=
  (applyRemoteParticipant_applied_only_if (bowTracker 0) snapshotSlot2).2 (by decide)

/-- C14: for every instance, every previous local state and every snapshot that
passes the slot check, the state after `applyRemoteParticipant` is the snapshot (its
JSON copy): it is the same whatever the previous state and bridge were, no field of
the old state is kept, also while a timer of an earlier local change is still
pending, which stays pending. -/
theorem applyRemoteParticipant_replaces_state (t : Tracker) (p : ParticipantState)
    (hpass : passesSlotCheck t.cfg.slot p) :
    (applyRemoteParticipant (some p) t).state = p ∧
    (∀ t2 : Tracker, t2.cfg.slot = t.cfg.slot →
      (applyRemoteParticipant (some p) t2).state = (applyRemoteParticipant (some p) t).state) ∧
    (applyRemoteParticipant (some p) t).pendingTimers = t.pendingTimers := by
  have h1 : ∀ a : Tracker, passesSlotCheck a.cfg.slot p →
      (applyRemoteParticipant (some p) a).state = p := by
    intro a ha
    rw [applyRemoteParticipant_pass a p ha]
    show (saveLocal (renderAll { a with _suppressNetworkSaves := true, state := p })).state = p
    rw [saveLocal_state, renderAll_state]
  refine ⟨h1 t hpass, ?_, ?_⟩
  · intro t2 h2
    rw [h1 t hpass, h1 t2 (by rw [h2]; exact hpass)]
  · exact (applyRemoteParticipant_pending t (some p))

/-- C14 (witness): an editor for slot `2` changed the bow to level `1` locally and its
timer is still pending when the snapshot for slot `2` arrives. -/
theorem applyRemoteParticipant_replaces_state_witness :
    (applyRemoteParticipant (some snapshotSlot2)
      (step (bowTracker 0) (.localChange (bowState 1)))).state = snapshotSlot2 ∧
    (applyRemoteParticipant (some snapshotSlot2)
      (step (bowTracker 0) (.localChange (bowState 1)))).pendingTimers = [1] :=
  have h := applyRemoteParticipant_replaces_state
    (step (bowTracker 0) (.localChange (bowState 1))) snapshotSlot2
    (Or.inr (Or.inr (Or.inr (by decide))))
  ⟨h.1, h.2.2.trans (by decide)⟩

/-- C12 (the code at the failing input): on an instance whose state is the empty
object, `cycleLevel` on the catalog item `bow`, `updateCounter` on the counter `keys`
and `cycleDungeon` on a dungeon raise a `TypeError` for either delta, so does
`handleInteraction` for a click on these elements, and the listener leaves the state
empty: no value is recorded. -/
theorem empty_state_interactions_raise :
    emptyTracker.state = emptyState ∧
    cycleLevel "bow" 1 emptyTracker = .error (.typeError "state.items is undefined") ∧
    cycleLevel "bow" (-1) emptyTracker = .error (.typeError "state.items is undefined") ∧
    updateCounter "keys" 1 emptyTracker = .error (.typeError "state.items is undefined") ∧
    updateCounter "keys" (-1) emptyTracker = .error (.typeError "state.items is undefined") ∧
    cycleDungeon "SV" 1 emptyTracker = .error (.typeError "state.dungeons is undefined") ∧
    cycleDungeon "SV" (-1) emptyTracker = .error (.typeError "state.dungeons is undefined") ∧
    handleInteraction (itemEvent "bow") 1 emptyTracker
      = .error (.typeError "state.items is undefined") ∧
    handleInteraction (itemEvent "keys") 1 emptyTracker
      = .error (.typeError "state.items is undefined") ∧
    handleInteraction (dungeonEvent "SV") 1 emptyTracker
      = .error (.typeError "state.dungeons is undefined") ∧
    (step emptyTracker (.click (itemEvent "bow"))).state = emptyState ∧
    (step emptyTracker (.contextmenu (dungeonEvent "SV"))).state = emptyState := by
  refine ⟨rfl, rfl, rfl, rfl, rfl, rfl, rfl, rfl, rfl, rfl, rfl, rfl⟩

/-- C19 (counterexample): a primary click on the item `bow`, already at its last
level.  On a session-mode editor (storage disabled) `handleInteraction` returns
`true` and a timer is set, but the listener writes nothing to local storage; on a
standalone editor (no update URL) `handleInteraction` returns `true` and local
storage is written, but no timer is set and none is pending: no network send is
scheduled. -/
theorem listener_persistence_is_gated :
    (handleInteraction (itemEvent "bow") 1 sessionEditor).toOption.map Prod.fst = some true ∧
    storageWrites (newEffects sessionEditor
      (step sessionEditor (.click (itemEvent "bow")))) = [] ∧
    timersSet (newEffects sessionEditor
      (step sessionEditor (.click (itemEvent "bow")))) = [1] ∧
    (handleInteraction (itemEvent "bow") 1 standaloneEditor).toOption.map Prod.fst
      = some true ∧
    storageWrites (newEffects standaloneEditor
      (step standaloneEditor (.click (itemEvent "bow")))) = [bowState 2] ∧
    timersSet (newEffects standaloneEditor
      (step standaloneEditor (.click (itemEvent "bow")))) = [] ∧
    (step standaloneEditor (.click (itemEvent "bow"))).pendingTimers = [] := by
  decide

/-- C19 (amended): for every interaction that is not routed to a composite:
when the target is a wallet overlay, a dungeon element or an item element (counter,
wallet or plain) and the state has its `items` and `dungeons` maps,
`handleInteraction` returns `true`, and the editor's listener then runs
`afterChangePersist()`, which writes local storage when storage is enabled and sets
the send timer when an update URL is configured; an item without catalog metadata
gives `true` with the instance untouched, in any state; so does the bow at its last
level with the state unchanged.  `handleInteraction` returns `false` only for a
composite interaction that hits no overlay, or for a target outside any tracker
element. -/
theorem handleInteraction_return_value (t : Tracker) (ev : PointerEvent) (delta : Int) :
    (ev.composite = none →
      (ev.walletBonus = true ∨ ev.dungeon.isSome = true ∨ ev.item.isSome = true) →
      t.state.items.isSome = true → t.state.dungeons.isSome = true →
      ∃ t1, handleInteraction ev delta t = .ok (true, t1) ∧
        (t.cfg.CAN_EDIT = true →
          interactionListener ev delta t = .ok (afterChangePersist t1)) ∧
        (t.cfg.USE_STORAGE = true →
          Effect.storageWrite t.cfg.STORAGE_KEY t1.state
            ∈ newEffects t1 (afterChangePersist t1)) ∧
        (t.cfg.CAN_EDIT = true → t.cfg.UPDATE_URL.isSome = true →
          t._suppressNetworkSaves = false →
          timersSet (newEffects t1 (afterChangePersist t1)) = [t1.nextTimerId] ∧
          t1.nextTimerId ∈ (afterChangePersist t1).pendingTimers)) ∧
    (∀ it : ItemElement, ev.walletBonus = false → ev.composite = none → ev.dungeon = none →
      ev.item = some it → getItemMeta t it.itemId = none →
      handleInteraction ev delta t = .ok (true, t)) ∧
    (∀ (c : Bool) (t1 : Tracker), handleInteraction ev delta t = .ok (c, t1) →
      (c = false ↔
        (ev.walletBonus = false ∧
          ((ev.composite.isSome = true ∧ (pixelPerfectCompositeToggle ev delta t).1 = false) ∨
            (ev.composite = none ∧ ev.dungeon = none ∧ ev.item = none))))) ∧
    ((handleInteraction (itemEvent "bow") 1 (bowTracker 2)).toOption.map Prod.fst = some true ∧
      (handleInteraction (itemEvent "bow") 1 (bowTracker 2)).toOption.map
        (fun r => r.2.state) = some (bowTracker 2).state) := by
  refine ⟨?_, ?_, ?_, by decide⟩
  · intro hc htarget hitems hdung
    have hret : ∃ t1, handleInteraction ev delta t = .ok (true, t1) := by
      by_cases hw : ev.walletBonus = true
      · exact ⟨_, handleInteraction_wallet t ev delta hw⟩
      · have hw2 : ev.walletBonus = false := by simpa using hw
        cases hd : ev.dungeon with
        | some code =>
          obtain ⟨t1, h1⟩ := cycleDungeon_total t code delta hdung
          exact ⟨t1, by
            rw [handleInteraction_dungeon t ev delta code hw2 hc hd]
            exact except_map_true _ h1⟩
        | none =>
          cases hit : ev.item with
          | none =>
            rcases htarget with h | h | h
            · exact absurd h hw
            · rw [hd] at h
              exact absurd h (by simp)
            · rw [hit] at h
              exact absurd h (by simp)
          | some it =>
            rw [handleInteraction_item t ev delta it hw2 hc hd hit]
            obtain ⟨t1, h1⟩ := ite_ok_of_both
              ((if it.kind = "" then "cycle" else it.kind) = "counter" ∨
                (getItemMeta t it.itemId).bind (fun m => m.kind) = some "counter")
              _ _ (updateCounter_total t it.itemId delta hitems)
              (cycleLevel_total t it.itemId delta hitems)
            exact ⟨t1, except_map_true _ h1⟩
    obtain ⟨t1, h1⟩ := hret
    have hb := sameBridge_handleInteraction ev delta t t1 true h1
    refine ⟨t1, h1, ?_, ?_, ?_⟩
    · intro hedit
      exact interactionListener_changed t t1 ev delta hedit h1
    · intro hs
      have h := afterChangePersist_storage t1 (by rw [hb.cfg]; exact hs)
      rw [hb.cfg] at h
      exact h
    · intro hedit hurl hsup
      exact afterChangePersist_timer t1 (by rw [hb.cfg]; exact hedit)
        (by rw [hb.cfg]; exact hurl) (hb.suppress.trans hsup)
  · intro it hw hc hd hit hmeta
    rw [handleInteraction_item t ev delta it hw hc hd hit]
    have h1 : cycleLevel it.itemId delta t = .ok t := by
      unfold cycleLevel
      rw [hmeta]
    have h2 : updateCounter it.itemId delta t = .ok t := by
      unfold updateCounter
      rw [hmeta]
    rw [h1, h2, ite_self]
    rfl
  · intro c t1 h
    by_cases hw : ev.walletBonus = true
    · rw [handleInteraction_wallet t ev delta hw] at h
      injection h with h
      injection h with hc2 _
      subst hc2
      constructor
      · intro hf
        exact absurd hf (by simp)
      · intro hf
        rw [hw] at hf
        exact absurd hf.1 (by simp)
    · have hw2 : ev.walletBonus = false := by simpa using hw
      by_cases hcs : ev.composite.isSome = true
      · rw [handleInteraction_composite t ev delta hw2 hcs] at h
        injection h with h
        have hc1 : (pixelPerfectCompositeToggle ev delta t).1 = c := by rw [h]
        constructor
        · intro hf
          exact ⟨hw2, Or.inl ⟨hcs, by rw [hc1]; exact hf⟩⟩
        · intro hf
          rcases hf.2 with ⟨_, hp⟩ | ⟨hn, _, _⟩
          · rw [← hc1]
            exact hp
          · rw [hn] at hcs
            exact absurd hcs (by simp)
      · have hcn : ev.composite = none := by
          cases hx : ev.composite with
          | none => rfl
          | some r => rw [hx] at hcs; exact absurd rfl hcs
        cases hd : ev.dungeon with
        | some code =>
          rw [handleInteraction_dungeon t ev delta code hw2 hcn hd] at h
          obtain ⟨a, _, hf⟩ := except_map_ok _ _ _ h
          injection hf with hc2 _
          subst hc2
          constructor
          · intro hf2
            exact absurd hf2 (by simp)
          · intro hf2
            rcases hf2.2 with ⟨hs, _⟩ | ⟨_, hdn, _⟩
            · exact absurd hs hcs
            · exact absurd hdn (by simp)
        | none =>
          cases hit : ev.item with
          | none =>
            rw [handleInteraction_outside t ev delta hw2 hcn hd hit] at h
            injection h with h
            injection h with hc2 _
            subst hc2
            exact ⟨fun _ => ⟨hw2, Or.inr ⟨hcn, rfl, rfl⟩⟩, fun _ => rfl⟩
          | some it =>
            rw [handleInteraction_item t ev delta it hw2 hcn hd hit] at h
            obtain ⟨a, _, hf⟩ := except_map_ok _ _ _ h
            injection hf with hc2 _
            subst hc2
            constructor
            · intro hf2
              exact absurd hf2 (by simp)
            · intro hf2
              rcases hf2.2 with ⟨hs, _⟩ | ⟨_, _, hin⟩
              · exact absurd hs hcs
              · exact absurd hin (by simp)

/-- C19 (witness): a secondary click on the counter `keys`, already at its minimum
`0`, on an editor with storage and an update URL: `handleInteraction` returns `true`
and the listener persists. -/
theorem handleInteraction_return_value_witness :
    ∃ t1, handleInteraction (itemEvent "keys") (-1) keysTracker = .ok (true, t1) ∧
      interactionListener (itemEvent "keys") (-1) keysTracker = .ok (afterChangePersist t1) ∧
      timersSet (newEffects t1 (afterChangePersist t1)) = [t1.nextTimerId] := by
  obtain ⟨t1, h1, h2, _, h4⟩ :=
    (handleInteraction_return_value keysTracker (itemEvent "keys") (-1)).1 rfl
      (Or.inr (Or.inr rfl)) (by decide) (by decide)
  exact ⟨t1, h1, h2 (by decide), (h4 (by decide) (by decide) (by decide)).1⟩

/-- C17: for a box of positive width and height, an image of `imgW × imgH` with
`imgW, imgH ≥ 1` and every local point, in exact rational arithmetic: the scale
`min(w / imgW, h / imgH)` is positive, the drawn rectangle `imgW * scale` by
`imgH * scale` fits into the box and is centred in it; `mapToImageCoordsContain`
returns `null` exactly when the point lies outside that rectangle, and otherwise
returns integer pixel coordinates with `0 ≤ px ≤ imgW - 1` and `0 ≤ py ≤ imgH - 1`,
so that the index `(py * imgW + px) * 4 + 3` lies inside a buffer of
`4 * imgW * imgH` samples and `alphaAt` returns the sample stored there. -/
theorem mapToImageCoordsContain_contain_fit (loc : LocalPoint) (imgW imgH : Nat)
    (hw : 0 < loc.w) (hh : 0 < loc.h) (hiw : 1 ≤ imgW) (hih : 1 ≤ imgH) :
    0 < containScale loc imgW imgH ∧
    drawnWidth loc imgW imgH ≤ loc.w ∧ drawnHeight loc imgW imgH ≤ loc.h ∧
    0 ≤ drawnLeft loc imgW imgH ∧ 0 ≤ drawnTop loc imgW imgH ∧
    drawnLeft loc imgW imgH + drawnWidth loc imgW imgH / 2 = loc.w / 2 ∧
    drawnTop loc imgW imgH + drawnHeight loc imgW imgH / 2 = loc.h / 2 ∧
    (mapToImageCoordsContain loc imgW imgH = none ↔ outsideDrawn loc imgW imgH) ∧
    (∀ m, mapToImageCoordsContain loc imgW imgH = some m →
      ∃ px py : Int, m = { px := some px, py := some py } ∧
        0 ≤ px ∧ px ≤ (imgW : Int) - 1 ∧ 0 ≤ py ∧ py ≤ (imgH : Int) - 1 ∧
        0 ≤ (py * (imgW : Int) + px) * 4 + 3 ∧
        (py * (imgW : Int) + px) * 4 + 3 < 4 * (imgW : Int) * (imgH : Int) ∧
        ∀ data : List Nat, data.length = 4 * imgW * imgH →
          data[((py * (imgW : Int) + px) * 4 + 3).toNat]?
            = some (alphaAt { w := imgW, h := imgH, data := data } (some px) (some py))) := by
  have hpos := containScale_pos loc imgW imgH hw hh hiw hih
  obtain ⟨hfw, hfh⟩ := drawn_fits loc imgW imgH hiw hih
  refine ⟨hpos, hfw, hfh, ?_, ?_, ?_, ?_, mapToImageCoordsContain_none_iff loc imgW imgH, ?_⟩
  · unfold drawnLeft
    linarith
  · unfold drawnTop
    linarith
  · unfold drawnLeft
    ring
  · unfold drawnTop
    ring
  · intro m hm
    obtain ⟨px, py, hmeq, hpx, hpy⟩ :=
      mapToImageCoordsContain_some loc imgW imgH m (ne_of_gt hpos) hm
    have hiw2 : (0 : Int) ≤ (imgW : Int) - 1 := by omega
    have hih2 : (0 : Int) ≤ (imgH : Int) - 1 := by omega
    have hx0 : 0 ≤ px := by rw [hpx]; exact clamp_ge _ _ _
    have hx1 : px ≤ (imgW : Int) - 1 := by rw [hpx]; exact clamp_le _ _ _ hiw2
    have hy0 : 0 ≤ py := by rw [hpy]; exact clamp_ge _ _ _
    have hy1 : py ≤ (imgH : Int) - 1 := by rw [hpy]; exact clamp_le _ _ _ hih2
    obtain ⟨hi0, hi1⟩ := alpha_index_in_buffer imgW imgH px py hx0 hx1 hy0 hy1
    refine ⟨px, py, hmeq, hx0, hx1, hy0, hy1, hi0, hi1, ?_⟩
    intro data hlen
    have hnat : ((py * (imgW : Int) + px) * 4 + 3).toNat < data.length := by
      rw [hlen]
      have : (((py * (imgW : Int) + px) * 4 + 3).toNat : Int) < ((4 * imgW * imgH : Nat) : Int) := by
        rw [Int.toNat_of_nonneg hi0]
        push_cast
        exact hi1
      exact_mod_cast this
    have hnn : ¬ ((py * (imgW : Int) + px) * 4 + 3 < 0) := by omega
    simp only [alphaAt, hnn, if_false]
    rw [List.getD_eq_getElem?_getD, List.getElem?_eq_getElem hnat]
    rfl

/-- C17 (witness): in a box of `100 × 100`, an image of `2 × 2` fills the box and the
point `(75, 25)` maps to pixel `(1, 0)`; an image of `4 × 2` is drawn `100 × 50`
with bands of `25` above and below, and the point `(50, 5)` is no hit. -/
theorem mapToImageCoordsContain_contain_fit_witness :
    (∃ px py : Int, mapToImageCoordsContain quarterPoint 2 2
        = some { px := some px, py := some py } ∧
      0 ≤ px ∧ px ≤ 1 ∧ 0 ≤ py ∧ py ≤ 1 ∧ (py * 2 + px) * 4 + 3 < 16) ∧
    mapToImageCoordsContain bandPoint 4 2 = none := by
  have h1 := mapToImageCoordsContain_contain_fit quarterPoint 2 2
    (by simp [quarterPoint]) (by simp [quarterPoint]) (by decide) (by decide)
  have h2 := mapToImageCoordsContain_contain_fit bandPoint 4 2
    (by simp [bandPoint]) (by simp [bandPoint]) (by decide) (by decide)
  refine ⟨?_, h2.2.2.2.2.2.2.2.1.mpr ?_⟩
  · obtain ⟨px, py, hm, a1, a2, a3, a4, _, a6, _⟩ :=
      h1.2.2.2.2.2.2.2.2 _ map_quarter_point
    exact ⟨px, py, by rw [← hm]; exact map_quarter_point, a1, by simpa using a2, a3,
      by simpa using a4, by simpa using a6⟩
  · right
    left
    norm_num [bandPoint, drawnTop, drawnHeight, containScale]

/-- C11 (counterexample): the composite `triforces` has the overlays courage, power
and wisdom; the images of courage and wisdom decode, the image of power fails.  After
`ensureCompositeHitCache` no hit-test map is stored for `triforces` at all, and a
click on the pixel where wisdom is fully opaque hits nothing. -/
theorem one_failed_decode_leaves_no_map :
    (triforcesOverlays false).map (fun img => (img.overlayKey, img.decoded.isSome))
      = [("courage", true), ("power", false), ("wisdom", true)] ∧
    objGet "triforces"
      (ensureCompositeHitCache "triforces" (triforcesOverlays false)
        triforcesFresh).compositeHitCache = none ∧
    (pixelPerfectCompositeToggle (triforcesEvent 75 25) 1
      (ensureCompositeHitCache "triforces" (triforcesOverlays false) triforcesFresh)).1
      = false := by
  decide

/-- C11 (amended): when building the hit cache of a composite, if the image of one
overlay (with a key and a source) fails to decode, the build fails as a whole:
`ensureCompositeHitCache` leaves the instance as it was, no hit-test map is stored,
and with no earlier map every later click on the composite hits nothing.  When every
such overlay decodes, the map stored for the composite holds the key of each of
them. -/
theorem ensureCompositeHitCache_all_or_nothing (t : Tracker) (compositeId : String)
    (overlays : List OverlayImg) :
    ((∃ img ∈ overlays, img.overlayKey ≠ "" ∧ img.src ≠ "" ∧ img.decoded = none) →
      ensureCompositeHitCache compositeId overlays t = t ∧
      (objGet compositeId t.compositeHitCache = none →
        ∀ (ev : PointerEvent) (delta : Int) (root : CompositeRoot),
          ev.composite = some root → root.compositeId = compositeId →
          pixelPerfectCompositeToggle ev delta
              (ensureCompositeHitCache compositeId overlays t)
            = (false, ensureCompositeHitCache compositeId overlays t))) ∧
    ((∀ img ∈ overlays, img.overlayKey ≠ "" → img.src ≠ "" → img.decoded.isSome = true) →
      objGet compositeId (ensureCompositeHitCache compositeId overlays t).compositeHitCache
        = some (hitMapOf overlays) ∧
      (∀ img ∈ overlays, img.overlayKey ≠ "" → img.src ≠ "" →
        (objGet img.overlayKey (hitMapOf overlays)).isSome = true)) := by
  constructor
  · intro hfail
    have hsame := ensureCompositeHitCache_rejected compositeId overlays t hfail
    refine ⟨hsame, ?_⟩
    intro hnone ev delta root hc hid
    rw [hsame]
    exact pixelPerfectCompositeToggle_no_cache t ev delta root hc (by rw [hid]; exact hnone)
  · intro hall
    rw [ensureCompositeHitCache_fulfilled compositeId overlays t hall]
    refine ⟨objGet_objSet_same _ _ _, ?_⟩
    intro img hmem hk hs
    exact (hitMap_fold_keys overlays []).2 img hmem hk hs (hall img hmem hk hs)

/-- C11 (witness): with the image of power failing the instance stays as it was; with
all three images decoding the map for `triforces` is stored and holds wisdom. -/
theorem ensureCompositeHitCache_all_or_nothing_witness :
    ensureCompositeHitCache "triforces" (triforcesOverlays false) triforcesFresh
      = triforcesFresh ∧
    objGet "triforces"
      (ensureCompositeHitCache "triforces" (triforcesOverlays true)
        triforcesFresh).compositeHitCache = some (hitMapOf (triforcesOverlays true)) :=
  have h := ensureCompositeHitCache_all_or_nothing triforcesFresh "triforces"
    (triforcesOverlays false)
  have h2 := ensureCompositeHitCache_all_or_nothing triforcesFresh "triforces"
    (triforcesOverlays true)
  ⟨(h.1 ⟨powerOverlay false, by decide, by decide, by decide, by decide⟩).1,
   (h2.2 (by decide)).1⟩

end TrackerSsr
